import Mathlib

/-!
# yam: a Modbus slave over a serial link

A shallow embedding of the C sources (`appl.c`, `register.c`, `regval.c`,
`filetype.c`, `serial_link.c`) together with theorems about the application
dispatch, the register model, the value codec, the file-record service and the
serial link.

## Conventions of the embedding

* `char` is an unsigned 8-bit byte.  The sources compare `char` buffers with
  `0xFF` (`filetype.c`) and with `crc >> 8` (`serial_link.c`), which only makes
  sense with an unsigned `char`; a byte is a `Nat` below 256.
* `mb_ref_t` is `uint16_t`, `mb_size_t` is `uint8_t`: every assignment to a
  variable of these types is reduced modulo `2^16` resp. `2^8` (`u16`, `u8`).
* `int`/`int32_t` values are `Int`; return codes are `Int`.
* `float` is an IEEE-754 binary32 bit pattern (`f32`), the host is
  little-endian, arithmetic rounds to nearest, ties to even.  A conversion
  `float → int` outside the range of `int` is undefined in C; `f32.to_int`
  saturates there and no theorem depends on it.
* `size_t` has 32 bits.
* A buffer is a map from index to byte; a pointer into a buffer is the buffer
  together with an offset.
* Host callbacks are functions on an arbitrary host state `σ`; the state that a
  handler returns records the effect of exactly the callback invocations it
  made, in order.
* Both compile-time features of `options.h` (range control, special load/store
  handling) are embedded as enabled.  A register without bounds and without
  `read_cb`/`write_cb` behaves exactly as in a build with the features off.
* Loops that the sources do not bound take a `fuel` argument; running out of
  fuel is `none`.
* The counters of `serial_link_stats_t` are `unsigned int`: an increment is
  reduced modulo `2^32` (`u32`).
* `circ_buf.h` and the body of `modbus_crc` are not among the sources.  The two
  macros are modelled as the spec describes them; the link functions take the
  CRC function as a parameter, and `modbus_crc` as the spec describes it is
  what the executed examples pass.
-/

namespace Yam

/-! ## Machine integers -/

/-- Conversion to an unsigned 8-bit value (`char`, `uint8_t`, `mb_size_t`). -/
def u8 (n : Int) : Nat := (n % 256).toNat

/-- Conversion to `uint16_t` (`mb_ref_t`, `mb_cnt_t`). -/
def u16 (n : Int) : Nat := (n % 65536).toNat

/-- Conversion to `int32_t` (two's complement wrap). -/
def s32 (n : Int) : Int := (n + 2147483648) % 4294967296 - 2147483648

/-- A byte buffer: index to byte. -/
abbrev buf_t := Nat → Nat

/-- The assignment `buf[i] = v`. -/
def buf_set (buf : buf_t) (i : Nat) (v : Nat) : buf_t :=
  fun j => if j = i then v else buf j

/-- The first `n` bytes of a buffer. -/
def buf_take (buf : buf_t) (n : Nat) : List Nat := (List.range n).map buf

/-- A buffer holding the bytes of `l`, followed by the bytes of `rest`. -/
def buf_of (l : List Nat) (rest : buf_t) : buf_t :=
  fun i => if i < l.length then l.getD i 0 else rest (i - l.length)

/-! ## IEEE-754 binary32 -/

/-- The bit pattern of a binary32 value. -/
abbrev f32 := Nat

namespace f32

def sign (x : f32) : Bool := x / 2147483648 % 2 = 1

def expo (x : f32) : Nat := x / 8388608 % 256

def frac (x : f32) : Nat := x % 8388608

/-- Magnitude of a finite pattern, in units of `2^-149`. -/
def mag (x : f32) : Nat :=
  if expo x = 0 then frac x else (8388608 + frac x) * 2 ^ (expo x - 1)

def is_nan (x : f32) : Bool := expo x = 255 && frac x != 0

def is_inf (x : f32) : Bool := expo x = 255 && frac x = 0

def nan : f32 := 0x7FC00000

def inf : f32 := 0x7F800000

def sign_bit (neg : Bool) : Nat := if neg then 2147483648 else 0

/-- Round `num / den` to the nearest integer, ties to even. -/
def rne (num den : Nat) : Nat :=
  let q := num / den
  let r := num % den
  if 2 * r < den then q else if den < 2 * r then q + 1
  else if q % 2 = 0 then q else q + 1

/-- One step of `ilog2`: strip `k` low bits when at least `k + 1` bits remain. -/
def ilog2_step (p : Nat × Nat) (k : Nat) : Nat × Nat :=
  if 2 ^ k ≤ p.1 then (p.1 / 2 ^ k, p.2 + k) else p

/-- Position of the most significant set bit (0 for 0), for `n < 2^512`. -/
def ilog2 (n : Nat) : Nat :=
  ([256, 128, 64, 32, 16, 8, 4, 2, 1].foldl ilog2_step (n, 0)).2

/-- Invariant of the fold of `ilog2`: `p.1` is `n` without its `p.2` low bits. -/
def ilog2_inv (n : Nat) (p : Nat × Nat) : Prop :=
  1 ≤ p.1 ∧ p.1 * 2 ^ p.2 ≤ n ∧ n < (p.1 + 1) * 2 ^ p.2

/-- The pattern (sign bit clear) of a representable magnitude of `k` units. -/
def pack (k : Nat) : f32 :=
  if k < 8388608 then k
  else
    let e := ilog2 k
    if 277 ≤ e then inf else (e - 22) * 8388608 + (k / 2 ^ (e - 23) - 8388608)

/-- The pattern (sign bit clear) of the binary32 value nearest to
`num / den` units of `2^-149`. -/
def round_mag (num den : Nat) : f32 :=
  let sh := ilog2 (num / den) - 23
  pack (rne num (den * 2 ^ sh) * 2 ^ sh)

/-- The value of a finite pattern as a signed number of units. -/
def units (x : f32) : Int := if sign x then -(mag x : Int) else (mag x : Int)

/-- Conversion `int32_t → float`. -/
def of_int (n : Int) : f32 :=
  sign_bit (decide (n < 0)) + round_mag (n.natAbs * 2 ^ 149) 1

/-- Conversion `float → int32_t`: truncation toward zero.  Outside the range
of `int32_t` the C conversion is undefined; the embedding saturates and sends
NaN to 0. -/
def to_int (x : f32) : Int :=
  if is_nan x then 0
  else if is_inf x then (if sign x then -2147483648 else 2147483647)
  else
    let t : Nat := mag x / 2 ^ 149
    if sign x then (if 2147483648 < t then -2147483648 else -(t : Int))
    else (if 2147483647 < t then 2147483647 else (t : Int))

/-- The product `x * 10`. -/
def mul10 (x : f32) : f32 :=
  if expo x = 255 then x else sign_bit (sign x) + round_mag (mag x * 10) 1

/-- The quotient `x / 10`. -/
def div10 (x : f32) : f32 :=
  if expo x = 255 then x else sign_bit (sign x) + round_mag (mag x) 10

/-- The difference `x - y`. -/
def sub (x y : f32) : f32 :=
  if is_nan x || is_nan y then nan
  else if is_inf x then (if is_inf y && sign x = sign y then nan else x)
  else if is_inf y then sign_bit (!sign y) + inf
  else
    let d := units x - units y
    if d = 0 then sign_bit (sign x && !sign y)
    else sign_bit (decide (d < 0)) + round_mag d.natAbs 1

/-- Host byte `i` (little-endian) of a 32-bit word. -/
def byte (w : Nat) (i : Nat) : Nat := w / 2 ^ (8 * i) % 256

end f32

/-! ## regval.h, regval.c: register values and the value codec -/

/-- The tag `_integer` of `regval.h`. -/
def _integer : Nat := 0

/-- The tag `_float` of `regval.h`. -/
def _float : Nat := 1

/-- The type `regval_t`: a 32-bit union `{int32_t n; float f}` and a tag.  The
storage is kept as the `int32_t` member. -/
structure regval_t where
  n : Int
  tag : Nat
deriving DecidableEq, Repr

/-- The member `f` of the union: the same 32 bits read as a `float`. -/
def regval_t.f (val : regval_t) : f32 := (val.n % 4294967296).toNat

def regval_put_integer (_val : regval_t) (v : Int) : regval_t :=
  { n := v, tag := _integer }

def regval_put_float (_val : regval_t) (v : f32) : regval_t :=
  { n := s32 v, tag := _float }

def float_prescale (raw : f32) (scale : Int) : f32 :=
  if scale < 0 then f32.mul10^[scale.natAbs] raw
  else if scale > 0 then f32.div10^[scale.natAbs] raw
  else raw

def integer_prescale (raw : Int) (scale : Int) : f32 :=
  let f := f32.of_int raw
  if scale < 0 then f32.mul10^[scale.natAbs] f
  else if scale > 0 then f32.div10^[scale.natAbs] f
  else f

def integer_scale (val : Int) (scale : Int) : f32 :=
  let f := f32.of_int val
  if scale > 0 then f32.mul10^[scale.natAbs] f
  else if scale < 0 then f32.div10^[scale.natAbs] f
  else f

def float_scale (val : f32) (scale : Int) : f32 :=
  if scale > 0 then f32.mul10^[scale.natAbs] val
  else if scale < 0 then f32.div10^[scale.natAbs] val
  else val

/-- The encoder `integer_to_mb_short`; `buf` is the buffer, `p` the offset of
the encoder's `buf` argument in it. -/
def integer_to_mb_short (val : regval_t) (mb_scale : Int) (buf : buf_t) (p : Nat) : buf_t :=
  let n := f32.to_int (integer_prescale val.n mb_scale)
  buf_set (buf_set buf p (u8 (n / 256))) (p + 1) (u8 n)

def mb_short_to_integer (buf : buf_t) (p : Nat) (val : regval_t) (mb_scale : Int) : regval_t :=
  let n : Int := buf p * 256 + buf (p + 1)
  let n := f32.to_int (integer_scale n mb_scale)
  regval_put_integer val n

def float_to_mb_short (val : regval_t) (mb_scale : Int) (buf : buf_t) (p : Nat) : buf_t :=
  let f := float_prescale val.f mb_scale
  buf_set (buf_set buf p (u8 (f32.to_int f / 256))) (p + 1) (u8 (f32.to_int f))

def mb_short_to_float (buf : buf_t) (p : Nat) (val : regval_t) (mb_scale : Int) : regval_t :=
  let n : Int := buf p * 256 + buf (p + 1)
  let f := integer_scale n mb_scale
  regval_put_float val f

def integer_to_mb_long (val : regval_t) (mb_scale : Int) (buf : buf_t) (p : Nat) : buf_t :=
  let n := f32.to_int (integer_prescale val.n mb_scale)
  let w := (n % 4294967296).toNat
  buf_set (buf_set (buf_set (buf_set buf p (f32.byte w 3)) (p + 1) (f32.byte w 2))
    (p + 2) (f32.byte w 1)) (p + 3) (f32.byte w 0)

def mb_long_to_integer (buf : buf_t) (p : Nat) (val : regval_t) (mb_scale : Int) : regval_t :=
  let n : Int := s32 (buf p * 16777216 + buf (p + 1) * 65536 + buf (p + 2) * 256 + buf (p + 3))
  let n := f32.to_int (integer_scale n mb_scale)
  regval_put_integer val n

/-- The encoder `float_to_mb_float`; `float_fmt` is the current value of the
global of that name. -/
def float_to_mb_float (float_fmt : Nat → Nat) (val : regval_t) (mb_scale : Int)
    (buf : buf_t) (p : Nat) : buf_t :=
  let f := float_prescale val.f mb_scale
  buf_set (buf_set (buf_set (buf_set buf p (f32.byte f (float_fmt 0)))
    (p + 1) (f32.byte f (float_fmt 1))) (p + 2) (f32.byte f (float_fmt 2)))
    (p + 3) (f32.byte f (float_fmt 3))

/-- The decoder `mb_float_to_float`.  The four stores go to the bytes of the
local `f`; bytes that no store reaches are indeterminate in C and 0 here. -/
def mb_float_to_float (float_fmt : Nat → Nat) (buf : buf_t) (p : Nat) (val : regval_t)
    (mb_scale : Int) : regval_t :=
  let b : buf_t := buf_set (buf_set (buf_set (buf_set (fun _ => 0)
    (float_fmt 0) (buf p)) (float_fmt 1) (buf (p + 1))) (float_fmt 2) (buf (p + 2)))
    (float_fmt 3) (buf (p + 3))
  let f : f32 := b 0 + b 1 * 256 + b 2 * 65536 + b 3 * 16777216
  regval_put_float val (float_scale f mb_scale)

structure val_codec_spec_t where
  tag : Nat
  reg_size : Nat
  encoder : regval_t → Int → buf_t → Nat → buf_t
  decoder : buf_t → Nat → regval_t → Int → regval_t

def val_codec_spec_table (float_fmt : Nat → Nat) : List val_codec_spec_t :=
  [ { tag := _integer, reg_size := 1,
      encoder := integer_to_mb_short, decoder := mb_short_to_integer },
    { tag := _integer, reg_size := 2,
      encoder := integer_to_mb_long, decoder := mb_long_to_integer },
    { tag := _float, reg_size := 1,
      encoder := float_to_mb_short, decoder := mb_short_to_float },
    { tag := _float, reg_size := 2,
      encoder := float_to_mb_float float_fmt, decoder := mb_float_to_float float_fmt } ]

/-- The format `b` of `regval.h`, the initial value of `float_fmt`. -/
def float_fmt_b : Nat → Nat := fun i => [3, 2, 1, 0].getD i 0

/-- The function `regval_encode_mb`: the return code and the buffer. -/
def regval_encode_mb (float_fmt : Nat → Nat) (val : regval_t) (buf : buf_t) (p : Nat)
    (tag : Nat) (mb_size : Nat) (mb_scale : Int) : Int × buf_t :=
  match (val_codec_spec_table float_fmt).find?
      (fun c => !(tag != c.tag || mb_size != c.reg_size)) with
  | none => (-1, buf)
  | some c => (0, c.encoder val mb_scale buf p)

/-- The function `regval_decode_mb`: the return code and the value. -/
def regval_decode_mb (float_fmt : Nat → Nat) (buf : buf_t) (p : Nat) (val : regval_t)
    (tag : Nat) (mb_size : Nat) (mb_scale : Int) : Int × regval_t :=
  match (val_codec_spec_table float_fmt).find?
      (fun c => !(tag != c.tag || mb_size != c.reg_size)) with
  | none => (-1, val)
  | some c => (0, c.decoder buf p val mb_scale)

/-- The function `regval_compare_f`: the float difference converted to `int`. -/
def regval_compare_f (val : regval_t) (a : f32) : Int :=
  f32.to_int (if val.tag = _float then f32.sub val.f a else f32.sub (f32.of_int val.n) a)

/-- The format `bb` of `regval.h`. -/
def float_fmt_bb : Nat → Nat := fun i => [2, 3, 0, 1].getD i 0

/-- The format `l` of `regval.h`. -/
def float_fmt_l : Nat → Nat := fun i => [0, 1, 2, 3].getD i 0

/-- The format `lb` of `regval.h`. -/
def float_fmt_lb : Nat → Nat := fun i => [1, 0, 3, 2].getD i 0

/-- The function `regval_set_float_fmt`: the return value and the new value
of the global `float_fmt`. -/
def regval_set_float_fmt (_float_fmt : Nat → Nat) (fmt : Nat → Nat) : Int × (Nat → Nat) :=
  (0, fmt)

/-! ## err.h -/

def YAM_ERR_NONE : Int := 0
def YAM_ERR_ADDR : Int := 1
def YAM_ERR_UNKNOWN_MESSAGE : Int := 2
def YAM_ERR_FRAME : Int := 3

def REG_ERR_NONE : Int := 0
def REG_ERR_INTERNAL : Int := 1
def REG_ERR_ADDRESS_NOT_FOUND : Int := 2
def REG_ERR_DATA_VALUE : Int := 3

/-! ## register.h, register.c: the register model -/

def REG_PERM_RD : Nat := 2
def REG_PERM_WR : Nat := 1
def REG_PERM_RW : Nat := 3
def OPT_BITMAP : Nat := 1

/-- The type `reg_t`.  `read_cb` and `write_cb` are closures of the callback
and the register they belong to (C passes the register as first argument);
`none` is the null pointer.  `desc` and `group` are not embedded. -/
structure reg_t (σ : Type) where
  ref : Nat
  size : Nat
  tag : Nat
  mb_scale : Int
  perm : Nat
  lower_bound : Bool
  upper_bound : Bool
  min : f32
  max : f32
  read_cb : Option (regval_t → σ → Int × regval_t × σ)
  write_cb : Option (regval_t → σ → Int × σ)

/-- The type `regstore_cb_t`; `none` is the null pointer. -/
structure regstore_cb_t (σ : Type) where
  load_register : Option (regval_t → Nat → σ → Int × regval_t × σ)
  save_register : Option (regval_t → Nat → σ → Int × σ)

/-- The macro `reg_mb_scale`. -/
def reg_mb_scale {σ : Type} (reg : reg_t σ) : Int :=
  if reg.mb_scale ≥ 16 then -(32 - reg.mb_scale) else reg.mb_scale

def read_reg {σ : Type} (store_cb : regstore_cb_t σ) (reg : reg_t σ) (val : regval_t)
    (s : σ) : Int × regval_t × σ :=
  let val := { val with tag := reg.tag }
  match store_cb.load_register with
  | none => (-REG_ERR_INTERNAL, val, s)
  | some load => load val reg.ref s

def write_reg {σ : Type} (store_cb : regstore_cb_t σ) (reg : reg_t σ) (val : regval_t)
    (s : σ) : Int × σ :=
  match store_cb.save_register with
  | none => (-REG_ERR_INTERNAL, s)
  | some save => save val reg.ref s

def register_chk_value_range {σ : Type} (reg : reg_t σ) (val : regval_t) : Bool :=
  (reg.lower_bound && decide (regval_compare_f val reg.min < 0))
    || (reg.upper_bound && decide (regval_compare_f val reg.max > 0))

/-- The function `register_find` over the register table `registers`
(`__register_start` .. `__register_end`): `none` is the return value -1,
`some r` is the return value 0 with `*reg` pointing to `r`. -/
def register_find {σ : Type} (registers : List (reg_t σ)) (ref : Nat) (options : Nat) :
    Option (reg_t σ) :=
  if options &&& OPT_BITMAP ≠ 0 then
    registers.find? (fun i => !(decide (ref < i.ref) || decide (ref ≥ i.ref + i.size)))
  else
    registers.find? (fun i => !(i.ref != ref))

/-- The end of `register_read`, after a successful load. -/
def register_read_ok {σ : Type} (ref : Nat) (options : Nat) (reg : reg_t σ)
    (val : regval_t) (s : σ) : Int × Option (reg_t σ) × regval_t × σ :=
  if options &&& OPT_BITMAP ≠ 0 then
    ((reg.size : Int) - ((ref : Int) - reg.ref), some reg,
      regval_put_integer val (val.n / 2 ^ (ref - reg.ref)), s)
  else (reg.size, some reg, val, s)

/-- The function `register_read`: the return value, `*reg`, `*val` and the
host state. -/
def register_read {σ : Type} (store_cb : regstore_cb_t σ) (registers : List (reg_t σ))
    (ref : Nat) (options : Nat) (val : regval_t) (s : σ) :
    Int × Option (reg_t σ) × regval_t × σ :=
  match register_find registers ref options with
  | none => (-REG_ERR_ADDRESS_NOT_FOUND, none, val, s)
  | some reg =>
    if reg.perm &&& REG_PERM_RD = 0 then (-REG_ERR_ADDRESS_NOT_FOUND, some reg, val, s)
    else
      match reg.read_cb with
      | none =>
        let r := read_reg store_cb reg val s
        if r.1 < 0 then (r.1, some reg, r.2.1, r.2.2)
        else register_read_ok ref options reg r.2.1 r.2.2
      | some cb =>
        let r := cb val s
        if r.1 ≠ 0 then (r.1, some reg, r.2.1, r.2.2)
        else register_read_ok ref options reg r.2.1 r.2.2

/-- The function `register_write`: the return value and the host state. -/
def register_write {σ : Type} (store_cb : regstore_cb_t σ) (_ref : Nat) (_options : Nat)
    (reg : reg_t σ) (val : regval_t) (s : σ) : Int × σ :=
  if reg.perm &&& REG_PERM_WR = 0 then (-REG_ERR_ADDRESS_NOT_FOUND, s)
  else if register_chk_value_range reg val then (-REG_ERR_DATA_VALUE, s)
  else
    match reg.write_cb with
    | none =>
      let r := write_reg store_cb reg val s
      (if r.1 < 0 then r.1 else reg.size, r.2)
    | some cb =>
      let r := cb val s
      (if r.1 ≠ 0 then r.1 else reg.size, r.2)

/-! ## record-file.h, filetype.h, filetype.c: the file-record service -/

def FILE_REC_MAX_LEN : Nat := 255
def MODBUS_PACKET_FILE : Int := 16

/-- Conversion to `size_t` (32 bits). -/
def size_t (n : Int) : Nat := (n % 4294967296).toNat

/-- The type `packet_file_rec_t`; `content` lists the bytes of the array
`content` from index 0 on. -/
structure packet_file_rec_t where
  content : List Nat
  len : Nat
  remaining_recs_num : Int
deriving DecidableEq, Repr

/-- The type `yam_file_rec_io_t`.  `read` returns its status and the record
pointer it stored in `*record` (`none` when it left the null pointer). -/
structure yam_file_rec_io_t (σ : Type) where
  read : Int → Int → Int → Nat → σ → Int × Option packet_file_rec_t × σ
  write : Int → Int → Int → Nat → packet_file_rec_t → σ → Int × σ

structure rec_io_map_t (σ : Type) where
  type_code : Int
  io : Option (yam_file_rec_io_t σ)

/-- The initial contents of `rec_io_table`. -/
def rec_io_table_init (σ : Type) : List (rec_io_map_t σ) :=
  [ { type_code := MODBUS_PACKET_FILE, io := none } ]

def find_rec_io {σ : Type} (rec_io_table : List (rec_io_map_t σ)) (type : Int) :
    Option (yam_file_rec_io_t σ) :=
  match rec_io_table.find? (fun m => m.type_code == type) with
  | none => none
  | some m => m.io

/-- The call `memcpy(dst + off, src, n)` from a list of bytes. -/
def buf_copy (dst : buf_t) (off : Nat) (src : List Nat) (n : Nat) : buf_t :=
  fun j => if off ≤ j ∧ j < off + n then src.getD (j - off) 0 else dst j

/-- The function `packet_file_read`; `req_buf` starts at the handler's
`req_buf` argument, `resp_buf` is the response buffer and `rp` the offset of
the handler's `resp_buf` argument in it. -/
def packet_file_read {σ : Type} (rec_io_table : List (rec_io_map_t σ)) (type : Int)
    (req_buf : buf_t) (req_len : Nat) (resp_buf : buf_t) (rp : Nat) (resp_buf_sz : Nat)
    (s : σ) : Int × buf_t × σ :=
  if req_len ≠ 6 then (-REG_ERR_DATA_VALUE, resp_buf, s)
  else
    let file_number := u16 (req_buf 0 * 256 + req_buf 1)
    let packet_id : Nat := if req_buf 2 = 0xFF ∧ req_buf 3 = 0xFF then u8 (req_buf 5) else 0xFF
    match find_rec_io rec_io_table type with
    | none => (-REG_ERR_INTERNAL, resp_buf, s)
    | some rec_io =>
      match rec_io.read type file_number packet_id 1 s with
      | (_, none, s1) => (-REG_ERR_INTERNAL, resp_buf, s1)
      | (r, some rc, s1) =>
        if r < 0 then (-REG_ERR_INTERNAL, resp_buf, s1)
        else if resp_buf_sz < size_t (rc.len + 1) then (-REG_ERR_INTERNAL, resp_buf, s1)
        else
          (s32 (size_t (rc.len + 1)),
            buf_copy (buf_set resp_buf rp (u8 rc.remaining_recs_num)) (rp + 1)
              rc.content rc.len, s1)

/-- The function `packet_file_write`. -/
def packet_file_write {σ : Type} (rec_io_table : List (rec_io_map_t σ)) (type : Int)
    (req_buf : buf_t) (req_len : Nat) (resp_buf : buf_t) (rp : Nat) (resp_buf_sz : Nat)
    (s : σ) : Int × buf_t × σ :=
  if req_len ≤ 0 then (-REG_ERR_DATA_VALUE, resp_buf, s)
  else
    let file_number := u16 (req_buf 0 * 256 + req_buf 1)
    let len := size_t ((req_len : Int) - 6)
    let rc : packet_file_rec_t :=
      { len := len
        remaining_recs_num := req_buf 5
        content := (List.range len).map (fun i => req_buf (6 + i)) }
    let packet_id : Nat := if req_buf 2 = 0xFF ∧ req_buf 3 = 0xFF then u8 (req_buf 4) else 0xFF
    match find_rec_io rec_io_table type with
    | none => (-REG_ERR_INTERNAL, resp_buf, s)
    | some rec_io =>
      let r := rec_io.write type file_number packet_id 1 rc s
      if r.1 < 0 then (-REG_ERR_INTERNAL, resp_buf, r.2)
      else if resp_buf_sz < 6 then (-REG_ERR_INTERNAL, resp_buf, r.2)
      else
        (6, buf_set (buf_set (buf_set resp_buf rp packet_id) (rp + 1) (u8 (file_number / 256)))
          (rp + 2) (u8 file_number), r.2)

/-- The type `filetype_t`. -/
structure filetype_t (σ : Type) where
  read : Int → buf_t → Nat → buf_t → Nat → Nat → σ → Int × buf_t × σ
  write : Int → buf_t → Nat → buf_t → Nat → Nat → σ → Int × buf_t × σ

def packet_file {σ : Type} (rec_io_table : List (rec_io_map_t σ)) : filetype_t σ :=
  { read := packet_file_read rec_io_table, write := packet_file_write rec_io_table }

def filetype_table {σ : Type} (rec_io_table : List (rec_io_map_t σ)) :
    List (Int × filetype_t σ) :=
  [ (MODBUS_PACKET_FILE, packet_file rec_io_table) ]

def filetype_get {σ : Type} (rec_io_table : List (rec_io_map_t σ)) (type : Int) :
    Option (filetype_t σ) :=
  ((filetype_table rec_io_table).find? (fun m => m.1 == type)).map (fun m => m.2)

/-- The function `yam_register_file_rec_io`: the return value and the new
contents of `rec_io_table`; `io` is the pointer argument (`none` when null). -/
def yam_register_file_rec_io {σ : Type} (rec_io_table : List (rec_io_map_t σ)) (type : Int)
    (io : Option (yam_file_rec_io_t σ)) : Int × List (rec_io_map_t σ) :=
  (-1, rec_io_table.map (fun m =>
    if m.type_code = type ∧ m.io.isNone then { m with io := io } else m))

/-! ## appl.h, appl.c: the application dispatch -/

def MODBUS_PDU_LEN_MAX : Nat := 253
def REGISTER_SIZE : Int := 2
def COILS_PER_BYTE : Int := 8
def COILS_REF_FIRST : Int := 1
def DISCRETE_INPUT_REF_FIRST : Int := 10001
def INPUT_REGS_REF_FIRST : Int := 30001
def HOLDING_REGS_REF_FIRST : Int := 40001

def ERR_NONE : Int := 0
def ERR_ILLEGAL_FUNC : Int := 1
def ERR_ILLEGAL_DATA_ADDR : Int := 2
def ERR_ILLEGAL_DATA_VALUE : Int := 3

def MBF_READ_COILS : Nat := 1
def MBF_READ_DISCRETE_INPUTS : Nat := 2
def MBF_WRITE_REG : Nat := 6
def MBF_WRITE_REGS : Nat := 16
def MBF_READ_HOLDING_REGS : Nat := 3
def MBF_READ_FILE : Nat := 20
def MBF_WRITE_FILE : Nat := 21

/-- The type `mb_pbuf_t`. -/
structure mb_pbuf_t where
  payload : buf_t
  len : Nat

/-- The process-wide state the handlers use: the store callbacks and the
register table of `register.c`, `float_fmt` of `regval.c`, `rec_io_table` of
`filetype.c`, and `junk`, the indeterminate initial contents of the local
`regval_t val` of the loops of `appl.c`. -/
structure globals (σ : Type) where
  store_cb : regstore_cb_t σ
  registers : List (reg_t σ)
  float_fmt : Nat → Nat
  rec_io_table : List (rec_io_map_t σ)
  junk : regval_t

/-- The pointer `buf + k` into a buffer that is only read. -/
def buf_shift (buf : buf_t) (k : Nat) : buf_t := fun i => buf (i + k)

def make_exception (func : Nat) (expt : Int) (resp_buf : buf_t) : Int × buf_t :=
  (2, buf_set (buf_set resp_buf 0 (u8 (func ||| 0x80 : Nat))) 1 (u8 expt))

/-- The function `load_ref_mem`: the loop runs at most `fuel` times.  `buf` is
the response buffer and `p` the offset of the running pointer `p` in it.
`register_read` leaves `*reg` unset only when it returns the negative
not-found code, which is the first alternative below. -/
def load_ref_mem {σ : Type} (g : globals σ) :
    Nat → Nat → Nat → buf_t → Nat → regval_t → σ → Option (Int × buf_t × σ)
  | fuel, start, len, buf, p, val, s =>
    if len = 0 then some (0, buf, s)
    else
      match fuel with
      | 0 => none
      | fuel + 1 =>
        match register_read g.store_cb g.registers start 0 val s with
        | (n, none, _, s1) => some (n, buf, s1)
        | (n, some reg, val1, s1) =>
          if n < 0 then some (n, buf, s1)
          else if (len : Int) < n * REGISTER_SIZE then some (-1, buf, s1)
          else
            let r := regval_encode_mb g.float_fmt val1 buf p reg.tag reg.size (reg_mb_scale reg)
            if r.1 ≠ 0 then some (-REG_ERR_ADDRESS_NOT_FOUND, r.2, s1)
            else
              load_ref_mem g fuel (u16 (start + n)) (u8 (len - n * REGISTER_SIZE)) r.2
                (p + (n * REGISTER_SIZE).toNat) val1 s1

/-- The expression `n & (1 << k)`. -/
def int_and_bit (n : Int) (k : Nat) : Nat := (n / 2 ^ k % 2).toNat * 2 ^ k

/-- The state of the inner loop of `load_ref_bitmap`. -/
structure bitmap_state where
  n : Int
  nbits : Nat
  start : Nat
  buf : buf_t
  p : Nat
  bit_offset : Nat
  val : regval_t

/-- The inner loop `while (n && nbits)` of `load_ref_bitmap`, by recursion on
`nbits`. -/
def load_ref_bitmap_bits : Nat → Int → Nat → buf_t → Nat → Nat → regval_t → bitmap_state
  | 0, n, start, buf, p, bit_offset, val =>
    { n := n, nbits := 0, start := start, buf := buf, p := p,
      bit_offset := bit_offset, val := val }
  | nbits + 1, n, start, buf, p, bit_offset, val =>
    if n = 0 then
      { n := n, nbits := nbits + 1, start := start, buf := buf, p := p,
        bit_offset := bit_offset, val := val }
    else
      let buf1 := buf_set buf p (u8 (buf p ||| int_and_bit val.n bit_offset : Nat))
      if bit_offset + 1 = 8 then
        load_ref_bitmap_bits nbits (n - 1) (u16 (start + 1)) (buf_set buf1 (p + 1) 0) (p + 1) 0
          { val with n := val.n / 256 }
      else
        load_ref_bitmap_bits nbits (n - 1) (u16 (start + 1)) buf1 p (bit_offset + 1) val

/-- The outer loop `while (nbits)` of `load_ref_bitmap`; it runs at most
`fuel` times. -/
def load_ref_bitmap_loop {σ : Type} (g : globals σ) :
    Nat → Nat → Nat → buf_t → Nat → Nat → regval_t → σ → Option (Int × buf_t × σ)
  | fuel, start, nbits, buf, p, bit_offset, val, s =>
    if nbits = 0 then some (0, buf, s)
    else
      match fuel with
      | 0 => none
      | fuel + 1 =>
        match register_read g.store_cb g.registers start OPT_BITMAP val s with
        | (n, _, val1, s1) =>
          if n < 0 then some (n, buf, s1)
          else
            let st := load_ref_bitmap_bits nbits n start buf p bit_offset val1
            load_ref_bitmap_loop g fuel st.start st.nbits st.buf st.p st.bit_offset st.val s1

/-- The function `load_ref_bitmap`. -/
def load_ref_bitmap {σ : Type} (g : globals σ) (fuel : Nat) (start : Nat) (nbits : Nat)
    (buf : buf_t) (p : Nat) (s : σ) : Option (Int × buf_t × σ) :=
  let buf0 := if nbits ≠ 0 then buf_set buf p 0 else buf
  load_ref_bitmap_loop g fuel start nbits buf0 p 0 g.junk s

/-- The function `store_ref_mem`: the loop runs at most `fuel` times.  `buf`
starts at the `buf` argument, `p` is the offset of the running pointer. -/
def store_ref_mem {σ : Type} (g : globals σ) :
    Nat → Nat → Nat → buf_t → Nat → regval_t → σ → Option (Int × σ)
  | fuel, start, len, buf, p, val, s =>
    if len = 0 then some (0, s)
    else
      match fuel with
      | 0 => none
      | fuel + 1 =>
        match register_find g.registers start 0 with
        | none => some (-REG_ERR_ADDRESS_NOT_FOUND, s)
        | some reg =>
          if (len : Int) < reg.size * REGISTER_SIZE then some (-REG_ERR_ADDRESS_NOT_FOUND, s)
          else
            let d := regval_decode_mb g.float_fmt buf p val reg.tag reg.size (reg_mb_scale reg)
            if d.1 ≠ 0 then some (-REG_ERR_ADDRESS_NOT_FOUND, s)
            else
              let w := register_write g.store_cb start 0 reg d.2 s
              if w.1 < 0 then some (w.1, w.2)
              else
                store_ref_mem g fuel (u16 (start + w.1)) (u8 (len - w.1 * REGISTER_SIZE)) buf
                  (p + (w.1 * REGISTER_SIZE).toNat) d.2 w.2

/-- The macro `catch_modbus_exception` followed by the rest `k` of the handler. -/
def catch_modbus_exception {σ : Type} (func : Nat) (err : Int) (resp_buf : buf_t) (s : σ)
    (k : Int × buf_t × σ) : Int × buf_t × σ :=
  if err < 0 then ((make_exception func (-err) resp_buf).1, (make_exception func (-err) resp_buf).2, s)
  else k

/-- The macro `wr_resp`. -/
def wr_resp (func : Nat) (ref_start : Nat) (word : Int) (resp_buf : buf_t) : buf_t :=
  buf_set (buf_set (buf_set (buf_set (buf_set resp_buf 0 (u8 func)) 1 (u8 (ref_start / 256 : Nat)))
    2 (u8 ref_start)) 3 (u8 (word / 256))) 4 (u8 word)

/-- The macro `rd_resp_header`. -/
def rd_resp_header (func : Nat) (resp_data_len : Nat) (resp_buf : buf_t) : buf_t :=
  buf_set (buf_set resp_buf 0 (u8 func)) 1 (u8 resp_data_len)

def read_coils_handler {σ : Type} (g : globals σ) (fuel : Nat) (func : Nat) (req_buf : buf_t)
    (req_len : Nat) (resp_buf : buf_t) (buf_sz : Nat) (s : σ) : Option (Int × buf_t × σ) :=
  if req_len ≠ 4 then
    some ((make_exception func ERR_ILLEGAL_DATA_VALUE resp_buf).1,
      (make_exception func ERR_ILLEGAL_DATA_VALUE resp_buf).2, s)
  else
    let ref_start := u16 (req_buf 0 * 256 + req_buf 1)
    let read_cnt := u16 (req_buf 2 * 256 + req_buf 3)
    let mem_sz := u8 ((read_cnt + COILS_PER_BYTE - 1) / 8)
    if buf_sz < 2 + mem_sz then
      some ((make_exception func ERR_ILLEGAL_DATA_ADDR resp_buf).1,
        (make_exception func ERR_ILLEGAL_DATA_ADDR resp_buf).2, s)
    else
      (load_ref_bitmap g fuel
        (u16 (ref_start + (if func = MBF_READ_COILS then COILS_REF_FIRST
          else DISCRETE_INPUT_REF_FIRST)))
        (u8 read_cnt) resp_buf 2 s).map
      (fun r => catch_modbus_exception func r.1 r.2.1 r.2.2
        (2 + (mem_sz : Int), rd_resp_header func mem_sz r.2.1, r.2.2))

/-- The handler `write_regs_handler` of function 6. -/
def write_regs_handler {σ : Type} (g : globals σ) (fuel : Nat) (func : Nat) (req_buf : buf_t)
    (req_len : Nat) (resp_buf : buf_t) (buf_sz : Nat) (s : σ) : Option (Int × buf_t × σ) :=
  if req_len < 4 then
    some ((make_exception func ERR_ILLEGAL_DATA_VALUE resp_buf).1,
      (make_exception func ERR_ILLEGAL_DATA_VALUE resp_buf).2, s)
  else
    let ref_start := u16 (req_buf 0 * 256 + req_buf 1)
    let mem_sz := u8 REGISTER_SIZE
    if buf_sz < 5 then
      some ((make_exception func ERR_ILLEGAL_DATA_ADDR resp_buf).1,
        (make_exception func ERR_ILLEGAL_DATA_ADDR resp_buf).2, s)
    else
      (store_ref_mem g fuel (u16 (ref_start + HOLDING_REGS_REF_FIRST)) mem_sz
        (buf_shift req_buf 2) 0 g.junk s).map
      (fun r => catch_modbus_exception func r.1 resp_buf r.2
        (5, wr_resp func ref_start (req_buf 2 * 256 + req_buf 3) resp_buf, r.2))

/-- The handler `write_regs_handlers` of function 16. -/
def write_regs_handlers {σ : Type} (g : globals σ) (fuel : Nat) (func : Nat) (req_buf : buf_t)
    (req_len : Nat) (resp_buf : buf_t) (buf_sz : Nat) (s : σ) : Option (Int × buf_t × σ) :=
  if req_len < 5 then
    some ((make_exception func ERR_ILLEGAL_DATA_VALUE resp_buf).1,
      (make_exception func ERR_ILLEGAL_DATA_VALUE resp_buf).2, s)
  else if req_len < 5 + req_buf 4 then
    some ((make_exception func ERR_ILLEGAL_DATA_VALUE resp_buf).1,
      (make_exception func ERR_ILLEGAL_DATA_VALUE resp_buf).2, s)
  else
    let ref_start := u16 (req_buf 0 * 256 + req_buf 1)
    let write_cnt := u16 (req_buf 2 * 256 + req_buf 3)
    let mem_sz := u8 (req_buf 4)
    if (mem_sz : Int) ≠ write_cnt * REGISTER_SIZE then
      some ((make_exception func ERR_ILLEGAL_DATA_VALUE resp_buf).1,
        (make_exception func ERR_ILLEGAL_DATA_VALUE resp_buf).2, s)
    else if buf_sz < 5 then
      some ((make_exception func ERR_ILLEGAL_DATA_ADDR resp_buf).1,
        (make_exception func ERR_ILLEGAL_DATA_ADDR resp_buf).2, s)
    else
      (store_ref_mem g fuel (u16 (ref_start + HOLDING_REGS_REF_FIRST)) mem_sz
        (buf_shift req_buf 5) 0 g.junk s).map
      (fun r => catch_modbus_exception func r.1 resp_buf r.2
        (5, wr_resp func ref_start write_cnt resp_buf, r.2))

def read_holding_regs_handler {σ : Type} (g : globals σ) (fuel : Nat) (func : Nat)
    (req_buf : buf_t) (req_len : Nat) (resp_buf : buf_t) (buf_sz : Nat) (s : σ) :
    Option (Int × buf_t × σ) :=
  if req_len ≠ 4 then
    some ((make_exception func ERR_ILLEGAL_DATA_VALUE resp_buf).1,
      (make_exception func ERR_ILLEGAL_DATA_VALUE resp_buf).2, s)
  else
    let ref_start := u16 (req_buf 0 * 256 + req_buf 1)
    let read_cnt := u16 (req_buf 2 * 256 + req_buf 3)
    let mem_sz := u8 (read_cnt * REGISTER_SIZE)
    if buf_sz < 2 + mem_sz then
      some ((make_exception func ERR_ILLEGAL_DATA_ADDR resp_buf).1,
        (make_exception func ERR_ILLEGAL_DATA_ADDR resp_buf).2, s)
    else
      (load_ref_mem g fuel (u16 (ref_start + HOLDING_REGS_REF_FIRST)) mem_sz resp_buf 2
        g.junk s).map
      (fun r => catch_modbus_exception func r.1 r.2.1 r.2.2
        (2 + (mem_sz : Int), rd_resp_header func mem_sz r.2.1, r.2.2))

/-- The handler `read_file_handler` of function 20.  Each
`if (c) catch_modbus_exception(func, e, resp_buf);` of the source returns
`make_exception(func, -e, resp_buf)` when `c` holds, `e` being negative. -/
def read_file_handler {σ : Type} (g : globals σ) (_fuel : Nat) (func : Nat) (req_buf : buf_t)
    (req_len : Nat) (resp_buf : buf_t) (buf_sz : Nat) (s : σ) : Option (Int × buf_t × σ) :=
  if req_len < 2 then
    some ((make_exception func (-(-REG_ERR_DATA_VALUE)) resp_buf).1,
      (make_exception func (-(-REG_ERR_DATA_VALUE)) resp_buf).2, s)
  else
    let file_req_len := size_t ((req_buf 0 : Int) - 1)
    let type : Int := req_buf 1
    match filetype_get g.rec_io_table type with
    | none =>
      some ((make_exception func (-(-REG_ERR_ADDRESS_NOT_FOUND)) resp_buf).1,
        (make_exception func (-(-REG_ERR_ADDRESS_NOT_FOUND)) resp_buf).2, s)
    | some filetype =>
      let r := filetype.read type (buf_shift req_buf 2) file_req_len resp_buf 2
        (size_t ((buf_sz : Int) - 2)) s
      if r.1 < 0 then
        some ((make_exception func (-r.1) r.2.1).1, (make_exception func (-r.1) r.2.1).2, r.2.2)
      else if r.1 > 255 then
        some ((make_exception func (-(-REG_ERR_INTERNAL)) r.2.1).1,
          (make_exception func (-(-REG_ERR_INTERNAL)) r.2.1).2, r.2.2)
      else some (2 + r.1, buf_set (buf_set r.2.1 0 (u8 func)) 1 (u8 r.1), r.2.2)

/-- The handler `write_file_handler` of function 21. -/
def write_file_handler {σ : Type} (g : globals σ) (_fuel : Nat) (func : Nat) (req_buf : buf_t)
    (req_len : Nat) (resp_buf : buf_t) (buf_sz : Nat) (s : σ) : Option (Int × buf_t × σ) :=
  if req_len < 2 then
    some ((make_exception func (-(-REG_ERR_DATA_VALUE)) resp_buf).1,
      (make_exception func (-(-REG_ERR_DATA_VALUE)) resp_buf).2, s)
  else
    let file_req_len := size_t ((req_buf 0 : Int) - 1)
    let type : Int := req_buf 1
    match filetype_get g.rec_io_table type with
    | none =>
      some ((make_exception func (-(-REG_ERR_ADDRESS_NOT_FOUND)) resp_buf).1,
        (make_exception func (-(-REG_ERR_ADDRESS_NOT_FOUND)) resp_buf).2, s)
    | some filetype =>
      let r := filetype.write type (buf_shift req_buf 2) file_req_len resp_buf 2
        (size_t ((buf_sz : Int) - 2)) s
      if r.1 < 0 then
        some ((make_exception func (-r.1) r.2.1).1, (make_exception func (-r.1) r.2.1).2, r.2.2)
      else if r.1 > 255 then
        some ((make_exception func (-(-REG_ERR_INTERNAL)) r.2.1).1,
          (make_exception func (-(-REG_ERR_INTERNAL)) r.2.1).2, r.2.2)
      else some (2 + r.1, buf_set (buf_set r.2.1 0 (u8 func)) 1 (u8 r.1), r.2.2)

/-- The type `mb_func_handler_t`, with the globals and the fuel of the loops. -/
abbrev mb_func_handler_t (σ : Type) :=
  globals σ → Nat → Nat → buf_t → Nat → buf_t → Nat → σ → Option (Int × buf_t × σ)

def func_handlers (σ : Type) : List (Nat × mb_func_handler_t σ) :=
  [ (MBF_READ_COILS, read_coils_handler),
    (MBF_READ_DISCRETE_INPUTS, read_coils_handler),
    (MBF_READ_HOLDING_REGS, read_holding_regs_handler),
    (MBF_WRITE_REG, write_regs_handler),
    (MBF_WRITE_REGS, write_regs_handlers),
    (MBF_READ_FILE, read_file_handler),
    (MBF_WRITE_FILE, write_file_handler) ]

/-- The function `yam_app_input`: the return value, the response buffer and
the host state; `none` when a loop needs more than `fuel` rounds. -/
def yam_app_input {σ : Type} (g : globals σ) (fuel : Nat) (_slave_addr : Nat)
    (req : mb_pbuf_t) (resp_buf : buf_t) (buf_sz : Nat) (s : σ) : Option (Int × buf_t × σ) :=
  let func := req.payload 0
  match (func_handlers σ).find? (fun h => !(h.1 != func)) with
  | none => some (-YAM_ERR_UNKNOWN_MESSAGE, resp_buf, s)
  | some h => h.2 g fuel func (buf_shift req.payload 1) (u8 ((req.len : Int) - 1)) resp_buf buf_sz s

/-! ## frame_tool.h, circ_buf.h (not among the sources) -/

/-- Conversion to `unsigned int` (32 bits). -/
def u32 (n : Int) : Nat := (n % 4294967296).toNat

/-- Modelled from the spec: one bit step of the Modbus CRC-16, "polynomial
0xA001 (reflected 0x8005)": shift right, and xor the polynomial in when the
bit shifted out is set.  The body of `modbus_crc` is not among the sources. -/
def crc16_bit (c : Nat) : Nat := if c % 2 = 1 then (c / 2) ^^^ 0xA001 else c / 2

/-- Modelled from the spec: the CRC-16 step for one byte of the buffer of
`modbus_crc`, which is not among the sources: the byte is xored into the low
byte of the CRC, then eight bit steps follow. -/
def crc16_byte (c : Nat) (b : Nat) : Nat := crc16_bit^[8] (c ^^^ (b % 256))

/-- Modelled from the spec: the function `modbus_crc`, declared in
`frame_tool.h` and defined outside the sources: "Modbus CRC-16 with polynomial
0xA001 (reflected 0x8005), initial value 0xFFFF, no final XOR", over the bytes
`buf[0..n)` given as a list. -/
def modbus_crc (l : List Nat) : Nat := l.foldl crc16_byte 0xFFFF

/-- Modelled from the spec: the macro `CIRC_CNT` of the missing `circ_buf.h`,
the "standard mask-based head/tail with size being a power of two":
`((head) - (tail)) & ((size) - 1)`, computed in `size_t` as `size` is. -/
def CIRC_CNT (head tail : Int) (size : Nat) : Nat := size_t (head - tail) &&& (size - 1)

/-- Modelled from the spec: the macro `CIRC_SPACE` of the missing
`circ_buf.h`: `CIRC_CNT((tail), ((head) + 1), (size))`; one slot stays free,
so that `head == tail` means empty. -/
def CIRC_SPACE (head tail : Int) (size : Nat) : Nat := CIRC_CNT tail (head + 1) size

/-! ## serial_link.h, serial_link.c: the serial link -/

def MODBUS_SERIAL_APDU_LEN_MAX : Nat := 256
def MODBUS_ADDR_SIZE : Nat := 1
def MODBUS_CRC_SIZE : Nat := 2
def MODBUS_SERIAL_APDU_LEN_MIN : Nat := MODBUS_ADDR_SIZE + MODBUS_CRC_SIZE + 2
def CIRC_BUF_SZ : Nat := 512

/-- The type `recv_buf_t`. -/
structure recv_buf_t where
  buf : buf_t
  head : Nat
  tail : Nat
  size : Nat

/-- The type `serial_link_stats_t`. -/
structure serial_link_stats_t where
  rx_chars : Nat
  tx_chars : Nat
  bad_frames : Nat
  good_frames : Nat
deriving DecidableEq, Repr

/-- The type `struct yam_slink`.  `in_frame` and `out_frame` are buffers
without a bound: a store past the 256 bytes of the C arrays is undefined in C
and a store at that index here.  `send_frame_cb` gets the frame pointer and
the length; `none` is the null pointer. -/
structure yam_slink (σ : Type) where
  recv_buf : recv_buf_t
  in_frame : buf_t
  in_frame_len : Nat
  slave_id : Int
  out_frame : buf_t
  send_frame_cb : Option (buf_t → Nat → σ → σ)
  stats : serial_link_stats_t

/-- The function `yam_create_slink`: `calloc` followed by `yam_slink_init`. -/
def yam_create_slink (σ : Type) (slave_id : Int) : yam_slink σ :=
  { recv_buf := { buf := fun _ => 0, head := 0, tail := 0, size := CIRC_BUF_SZ },
    in_frame := fun _ => 0, in_frame_len := 0, slave_id := slave_id,
    out_frame := fun _ => 0, send_frame_cb := none,
    stats := { rx_chars := 0, tx_chars := 0, bad_frames := 0, good_frames := 0 } }

def yam_slink_set_send_frame_cb {σ : Type} (link : yam_slink σ)
    (cb : Option (buf_t → Nat → σ → σ)) : yam_slink σ :=
  { link with send_frame_cb := cb }

def yam_set_slink_slave_id {σ : Type} (link : yam_slink σ) (slave_id : Int) : yam_slink σ :=
  { link with slave_id := slave_id }

def yam_slink_putchar {σ : Type} (link : yam_slink σ) (c : Nat) : yam_slink σ :=
  let head := link.recv_buf.head
  let tail := link.recv_buf.tail
  if CIRC_SPACE head tail link.recv_buf.size ≤ 0 then link
  else
    { link with
      recv_buf :=
        { link.recv_buf with
          buf := buf_set link.recv_buf.buf head c
          head := size_t ((head : Int) + 1) &&& (link.recv_buf.size - 1) }
      stats := { link.stats with rx_chars := u32 ((link.stats.rx_chars : Int) + 1) } }

/-- The loop `while (CIRC_CNT(head, tail, size) > 0)` of
`yam_slink_put_frame_delimiter`: it runs at most `fuel` times; `p` is the
offset of the pointer `p` in `in_frame`.  The result is the ring buffer,
`in_frame` and `p` after the loop. -/
def yam_slink_drain : Nat → Nat → recv_buf_t → buf_t → Nat → Option (recv_buf_t × buf_t × Nat)
  | fuel, head, rb, in_frame, p =>
    if CIRC_CNT head rb.tail rb.size > 0 then
      match fuel with
      | 0 => none
      | fuel + 1 =>
        yam_slink_drain fuel head
          { rb with tail := size_t ((rb.tail : Int) + 1) &&& (rb.size - 1) }
          (buf_set in_frame p (rb.buf rb.tail)) (p + 1)
    else some (rb, in_frame, p)

/-- The pointer `buf + k` into a buffer that is written: the buffer that
holds `base` below `k` and the written buffer `r` from `k` on. -/
def buf_unshift (base : buf_t) (k : Nat) (r : buf_t) : buf_t :=
  fun i => if i < k then base i else r (i - k)

/-- The function `yam_slink_process_in_frame`: the return value, the link and
the host state.  `crc` is `modbus_crc` as a function of the bytes it reads. -/
def yam_slink_process_in_frame {σ : Type} (g : globals σ) (crc : List Nat → Nat) (fuel : Nat)
    (link : yam_slink σ) (s : σ) : Option (Int × yam_slink σ × σ) :=
  let pbuf : mb_pbuf_t :=
    { payload := buf_shift link.in_frame MODBUS_ADDR_SIZE
      len := u8 ((link.in_frame_len : Int) - MODBUS_ADDR_SIZE - MODBUS_CRC_SIZE) }
  match yam_app_input g fuel (link.in_frame 0) pbuf (buf_shift link.out_frame MODBUS_ADDR_SIZE)
      MODBUS_PDU_LEN_MAX s with
  | none => none
  | some (n, r, s1) =>
    let out0 := buf_unshift link.out_frame MODBUS_ADDR_SIZE r
    if n < 0 then some (n, { link with out_frame := out0 }, s1)
    else
      let out1 := buf_set out0 0 (link.in_frame 0)
      let n1 := n + 1
      let c := u16 (crc (buf_take out1 n1.toNat))
      let out2 := buf_set out1 n1.toNat (u8 c)
      let n2 := n1 + 1
      let out3 := buf_set out2 n2.toNat (u8 (c / 256 : Nat))
      let n3 := n2 + 1
      match link.send_frame_cb with
      | none => some (0, { link with out_frame := out3 }, s1)
      | some cb =>
        some (0, { link with
                   out_frame := out3
                   stats := { link.stats with tx_chars := u32 ((link.stats.tx_chars : Int) + n3) } },
          cb out3 n3.toNat s1)

/-- The function `yam_slink_put_frame_delimiter`: the return value, the link
and the host state; `none` when a loop needs more than `fuel` rounds. -/
def yam_slink_put_frame_delimiter {σ : Type} (g : globals σ) (crc : List Nat → Nat)
    (fuel : Nat) (link : yam_slink σ) (s : σ) : Option (Int × yam_slink σ × σ) :=
  match yam_slink_drain fuel link.recv_buf.head link.recv_buf link.in_frame 0 with
  | none => none
  | some (rb, in_frame, p) =>
    let link1 := { link with recv_buf := rb, in_frame := in_frame, in_frame_len := p }
    if link1.in_frame_len < MODBUS_SERIAL_APDU_LEN_MIN then
      some (-YAM_ERR_FRAME,
        { link1 with stats := { link1.stats with
            bad_frames := u32 ((link1.stats.bad_frames : Int) + 1) } }, s)
    else if (link1.in_frame 0 : Int) ≠ link1.slave_id then some (-YAM_ERR_ADDR, link1, s)
    else
      let c := u16 (crc (buf_take link1.in_frame (link1.in_frame_len - MODBUS_CRC_SIZE)))
      if c / 256 ≠ link1.in_frame (link1.in_frame_len - 1)
          ∨ c % 256 ≠ link1.in_frame (link1.in_frame_len - MODBUS_CRC_SIZE) then
        some (-YAM_ERR_FRAME,
          { link1 with stats := { link1.stats with
              bad_frames := u32 ((link1.stats.bad_frames : Int) + 1) } }, s)
      else
        yam_slink_process_in_frame g crc fuel
          { link1 with stats := { link1.stats with
              good_frames := u32 ((link1.stats.good_frames : Int) + 1) } } s

/-! ## A recording host -/

/-- A callback invocation as recorded by the recording host. -/
inductive cb_call where
  | load (ref : Nat)
  | save (ref : Nat) (n : Int)
  | rec_read (type file_number rec_start : Int) (rec_num : Nat)
  | rec_write (type file_number rec_start : Int) (rec_num : Nat) (rc : packet_file_rec_t)
  | send_frame (frame : List Nat)
deriving DecidableEq, Repr

/-- Store callbacks that record their invocations; `load` reads the register
value from `mem`, `save` succeeds. -/
def rec_store_cb (mem : Nat → Int) : regstore_cb_t (List cb_call) :=
  { load_register := some (fun val ref s => (0, { val with n := mem ref }, s ++ [cb_call.load ref]))
    save_register := some (fun val ref s => (0, s ++ [cb_call.save ref val.n])) }

/-- A register without bounds and without callbacks of its own. -/
def plain_reg (σ : Type) (ref size tag : Nat) (mb_scale : Int) (perm : Nat) : reg_t σ :=
  { ref := ref, size := size, tag := tag, mb_scale := mb_scale, perm := perm,
    lower_bound := false, upper_bound := false, min := 0, max := 0,
    read_cb := none, write_cb := none }

/-- Globals of the recording host over a register table. -/
def rec_globals (registers : List (reg_t (List cb_call))) (mem : Nat → Int) :
    globals (List cb_call) :=
  { store_cb := rec_store_cb mem, registers := registers, float_fmt := float_fmt_b,
    rec_io_table := rec_io_table_init (List cb_call), junk := { n := 0, tag := 0 } }

/-- A record I/O backend that records its invocations and fails. -/
def rec_io_failing : yam_file_rec_io_t (List cb_call) :=
  { read := fun type file_number rec_start rec_num s =>
      (-1, none, s ++ [cb_call.rec_read type file_number rec_start rec_num])
    write := fun type file_number rec_start rec_num rc s =>
      (-1, s ++ [cb_call.rec_write type file_number rec_start rec_num rc]) }

/-- A record I/O backend that records its invocations and succeeds; `read`
hands out the record `rc`. -/
def rec_io_ok (rc : packet_file_rec_t) : yam_file_rec_io_t (List cb_call) :=
  { read := fun type file_number rec_start rec_num s =>
      (0, some rc, s ++ [cb_call.rec_read type file_number rec_start rec_num])
    write := fun type file_number rec_start rec_num r s =>
      (0, s ++ [cb_call.rec_write type file_number rec_start rec_num r]) }

/-- Globals of the recording host with a record I/O backend registered for
`MODBUS_PACKET_FILE`. -/
def rec_globals_io (io : yam_file_rec_io_t (List cb_call)) : globals (List cb_call) :=
  { store_cb := rec_store_cb (fun _ => 0), registers := [], float_fmt := float_fmt_b,
    rec_io_table := [ { type_code := MODBUS_PACKET_FILE, io := some io } ],
    junk := { n := 0, tag := 0 } }

/-- The outcome of `yam_app_input` on a request PDU given as a list, as seen by
its caller: return value, the first `k` bytes of the response buffer, host
state. -/
def run_pdu {σ : Type} (g : globals σ) (fuel : Nat) (pdu : List Nat) (k : Nat) (s : σ) :
    Option (Int × List Nat × σ) :=
  (yam_app_input g fuel 1 { payload := buf_of pdu (fun _ => 0), len := pdu.length }
    (fun _ => 0) MODBUS_PDU_LEN_MAX s).map (fun r => (r.1, buf_take r.2.1 k, r.2.2))

/-- A send-frame callback that records the `len` bytes of the frame it gets. -/
def rec_send_frame_cb : buf_t → Nat → List cb_call → List cb_call :=
  fun frame len s => s ++ [cb_call.send_frame (buf_take frame len)]

/-- A link of the recording host: created with `yam_create_slink`, the
recording callback installed, and the characters `cs` put in one by one. -/
def rec_link (slave_id : Int) (cs : List Nat) : yam_slink (List cb_call) :=
  cs.foldl yam_slink_putchar
    (yam_slink_set_send_frame_cb (yam_create_slink (List cb_call) slave_id)
      (some rec_send_frame_cb))

/-- The outcome of `yam_slink_put_frame_delimiter` with `modbus_crc` as seen
from outside: return value, statistics, host state. -/
def run_frame {σ : Type} (g : globals σ) (fuel : Nat) (link : yam_slink σ) (s : σ) :
    Option (Int × serial_link_stats_t × σ) :=
  (yam_slink_put_frame_delimiter g modbus_crc fuel link s).map
    (fun r => (r.1, r.2.1.stats, r.2.2))

/-! ## Reference behaviour -/

/-- The host state after `load` has been called once for each of the refs
`a`, `a + 1`, ..., `a + cnt - 1`, in this order.  Each call receives the value
that the previous call left, with the tag set to `tag`. -/
def load_walk {σ : Type} (load : regval_t → Nat → σ → Int × regval_t × σ) (tag : Nat) :
    Nat → Nat → regval_t → σ → σ
  | 0, _, _, s => s
  | cnt + 1, a, val, s =>
    load_walk load tag cnt (a + 1) (load { val with tag := tag } a s).2.1
      (load { val with tag := tag } a s).2.2

/-- The host state after `save` has been called once for each of the refs
`a`, `a + 1`, ..., `a + cnt - 1`, in this order, with the integer values
`w 0`, `w 1`, ... -/
def save_walk {σ : Type} (save : regval_t → Nat → σ → Int × σ) (w : Nat → Nat) :
    Nat → Nat → σ → σ
  | 0, _, s => s
  | cnt + 1, a, s =>
    save_walk save (fun i => w (i + 1)) cnt (a + 1) (save { n := w 0, tag := _integer } a s).2

/-- A configuration of the loops of `load_ref_mem` and `store_ref_mem` at the
loop test: the locals `start`, `len`, `p`, `val`, the buffer and the host
state. -/
structure mem_cfg (σ : Type) where
  start : Nat
  len : Nat
  buf : buf_t
  p : Nat
  val : regval_t
  s : σ

/-- One round of the loop of `load_ref_mem` that does not return: the
configuration at the next loop test, `none` when the round returns. -/
def load_ref_mem_round {σ : Type} (g : globals σ) (c : mem_cfg σ) : Option (mem_cfg σ) :=
  match register_read g.store_cb g.registers c.start 0 c.val c.s with
  | (_, none, _, _) => none
  | (n, some reg, val1, s1) =>
    if n < 0 then none
    else if (c.len : Int) < n * REGISTER_SIZE then none
    else
      let r := regval_encode_mb g.float_fmt val1 c.buf c.p reg.tag reg.size (reg_mb_scale reg)
      if r.1 ≠ 0 then none
      else
        some { start := u16 (c.start + n), len := u8 (c.len - n * REGISTER_SIZE), buf := r.2,
               p := c.p + (n * REGISTER_SIZE).toNat, val := val1, s := s1 }

/-- The walk of `load_ref_mem`: the configuration after `k` rounds none of
which returns, `none` when the loop ends or returns earlier. -/
def load_ref_mem_rounds {σ : Type} (g : globals σ) : Nat → mem_cfg σ → Option (mem_cfg σ)
  | 0, c => some c
  | k + 1, c =>
    if c.len = 0 then none
    else
      match load_ref_mem_round g c with
      | none => none
      | some c1 => load_ref_mem_rounds g k c1

/-- One round of the loop of `store_ref_mem` that does not return. -/
def store_ref_mem_round {σ : Type} (g : globals σ) (c : mem_cfg σ) : Option (mem_cfg σ) :=
  match register_find g.registers c.start 0 with
  | none => none
  | some reg =>
    if (c.len : Int) < reg.size * REGISTER_SIZE then none
    else
      let d := regval_decode_mb g.float_fmt c.buf c.p c.val reg.tag reg.size (reg_mb_scale reg)
      if d.1 ≠ 0 then none
      else
        let w := register_write g.store_cb c.start 0 reg d.2 c.s
        if w.1 < 0 then none
        else
          some { start := u16 (c.start + w.1), len := u8 (c.len - w.1 * REGISTER_SIZE),
                 buf := c.buf, p := c.p + (w.1 * REGISTER_SIZE).toNat, val := d.2, s := w.2 }

/-- The walk of `store_ref_mem`: the configuration after `k` rounds none of
which returns. -/
def store_ref_mem_rounds {σ : Type} (g : globals σ) : Nat → mem_cfg σ → Option (mem_cfg σ)
  | 0, c => some c
  | k + 1, c =>
    if c.len = 0 then none
    else
      match store_ref_mem_round g c with
      | none => none
      | some c1 => store_ref_mem_rounds g k c1

/-- The configuration in which `read_holding_regs_handler` enters the loop of
`load_ref_mem` for the 0-based reference `r` and the count `cnt`. -/
def holding_read_cfg {σ : Type} (g : globals σ) (r cnt : Nat) (resp_buf : buf_t) (s : σ) :
    mem_cfg σ :=
  { start := u16 ((r : Int) + HOLDING_REGS_REF_FIRST), len := u8 ((cnt : Int) * REGISTER_SIZE),
    buf := resp_buf, p := 2, val := g.junk, s := s }

/-- The configuration in which `write_regs_handler` (function 6) and
`write_regs_handlers` (function 16) enter the loop of `store_ref_mem`: the
0-based reference `r`, `len` bytes to store, the data at `data`. -/
def holding_write_cfg {σ : Type} (g : globals σ) (r len : Nat) (data : buf_t) (s : σ) :
    mem_cfg σ :=
  { start := u16 ((r : Int) + HOLDING_REGS_REF_FIRST), len := len,
    buf := data, p := 0, val := g.junk, s := s }

/-- Bit `q` of the two's complement integer `n`. -/
def int_bit (n : Int) (q : Nat) : Bool := decide (n / 2 ^ q % 2 = 1)

/-- The inbound frame: the bytes that wait in the ring buffer, oldest first. -/
def ring_frame (rb : recv_buf_t) : List Nat :=
  (List.range (CIRC_CNT rb.head rb.tail rb.size)).map (fun i => rb.buf ((rb.tail + i) % rb.size))

/-- The link after the waiting bytes have been moved from the ring buffer to
the start of `in_frame`: the ring buffer is empty (`tail = head`), `in_frame`
holds the frame and keeps its old bytes behind it, `in_frame_len` is the
length of the frame. -/
def drained {σ : Type} (link : yam_slink σ) : yam_slink σ :=
  { link with
    recv_buf := { link.recv_buf with tail := link.recv_buf.head }
    in_frame := buf_copy link.in_frame 0 (ring_frame link.recv_buf)
      (ring_frame link.recv_buf).length
    in_frame_len := (ring_frame link.recv_buf).length }

/-- The ring buffer after the characters `cs` have been stored at `head`. -/
def ring_store (rb : recv_buf_t) (cs : List Nat) : recv_buf_t :=
  { rb with
    buf := fun j =>
      if j < rb.size ∧ (j + rb.size - rb.head) % rb.size < cs.length then
        cs.getD ((j + rb.size - rb.head) % rb.size) 0
      else rb.buf j
    head := (rb.head + cs.length) % rb.size }

set_option exponentiation.threshold 600

theorem f32.ilog2_step_inv (n k : Nat) (p : Nat × Nat) (h : f32.ilog2_inv n p) :
    f32.ilog2_inv n (f32.ilog2_step p k) := by
  unfold f32.ilog2_step
  split
  · rename_i hk
    obtain ⟨h1, h2, h3⟩ := h
    have hpos : 0 < 2 ^ k := Nat.two_pow_pos k
    refine ⟨(Nat.le_div_iff_mul_le hpos).2 (by simpa using hk), ?_, ?_⟩
    · show p.1 / 2 ^ k * 2 ^ (p.2 + k) ≤ n
      have : p.1 / 2 ^ k * 2 ^ k ≤ p.1 := Nat.div_mul_le_self _ _
      calc p.1 / 2 ^ k * 2 ^ (p.2 + k) = (p.1 / 2 ^ k * 2 ^ k) * 2 ^ p.2 := by
            rw [pow_add]; ring
        _ ≤ p.1 * 2 ^ p.2 := Nat.mul_le_mul_right _ this
        _ ≤ n := h2
    · show n < (p.1 / 2 ^ k + 1) * 2 ^ (p.2 + k)
      have : p.1 + 1 ≤ (p.1 / 2 ^ k + 1) * 2 ^ k := by
        have := Nat.lt_succ_iff.1 (Nat.lt_succ_of_lt (Nat.lt_mul_div_succ p.1 hpos))
        have h' : p.1 < 2 ^ k * (p.1 / 2 ^ k + 1) := Nat.lt_mul_div_succ p.1 hpos
        rw [Nat.mul_comm] at h'
        exact h'
      calc n < (p.1 + 1) * 2 ^ p.2 := h3
        _ ≤ ((p.1 / 2 ^ k + 1) * 2 ^ k) * 2 ^ p.2 := Nat.mul_le_mul_right _ this
        _ = (p.1 / 2 ^ k + 1) * 2 ^ (p.2 + k) := by rw [pow_add]; ring
  · exact h

theorem f32.ilog2_step_lt (k : Nat) (p : Nat × Nat) (h : p.1 < 2 ^ (2 * k)) :
    (f32.ilog2_step p k).1 < 2 ^ k := by
  unfold f32.ilog2_step
  split
  · show p.1 / 2 ^ k < 2 ^ k
    rw [Nat.div_lt_iff_lt_mul (Nat.two_pow_pos k)]
    rw [← pow_add]
    have : 2 * k = k + k := by ring
    rwa [this] at h
  · rename_i hk
    exact Nat.lt_of_not_le hk

theorem f32.ilog2_spec (n : Nat) (h0 : 1 ≤ n) (h : n < 2 ^ 512) :
    2 ^ f32.ilog2 n ≤ n ∧ n < 2 ^ (f32.ilog2 n + 1) := by
  have i0 : f32.ilog2_inv n (n, 0) := ⟨h0, by simp, by simp⟩
  have b0 : (n, 0).1 < 2 ^ (2 * 256) := h
  unfold f32.ilog2
  simp only [List.foldl]
  generalize (n, 0) = p0 at i0 b0 ⊢
  have i1 := f32.ilog2_step_inv n 256 _ i0
  have b1 := f32.ilog2_step_lt 256 _ b0
  generalize f32.ilog2_step p0 256 = p1 at i1 b1 ⊢
  have i2 := f32.ilog2_step_inv n 128 _ i1
  have b2 := f32.ilog2_step_lt 128 _ b1
  generalize f32.ilog2_step p1 128 = p2 at i2 b2 ⊢
  have i3 := f32.ilog2_step_inv n 64 _ i2
  have b3 := f32.ilog2_step_lt 64 _ b2
  generalize f32.ilog2_step p2 64 = p3 at i3 b3 ⊢
  have i4 := f32.ilog2_step_inv n 32 _ i3
  have b4 := f32.ilog2_step_lt 32 _ b3
  generalize f32.ilog2_step p3 32 = p4 at i4 b4 ⊢
  have i5 := f32.ilog2_step_inv n 16 _ i4
  have b5 := f32.ilog2_step_lt 16 _ b4
  generalize f32.ilog2_step p4 16 = p5 at i5 b5 ⊢
  have i6 := f32.ilog2_step_inv n 8 _ i5
  have b6 := f32.ilog2_step_lt 8 _ b5
  generalize f32.ilog2_step p5 8 = p6 at i6 b6 ⊢
  have i7 := f32.ilog2_step_inv n 4 _ i6
  have b7 := f32.ilog2_step_lt 4 _ b6
  generalize f32.ilog2_step p6 4 = p7 at i7 b7 ⊢
  have i8 := f32.ilog2_step_inv n 2 _ i7
  have b8 := f32.ilog2_step_lt 2 _ b7
  generalize f32.ilog2_step p7 2 = p8 at i8 b8 ⊢
  have i9 := f32.ilog2_step_inv n 1 _ i8
  have b9 := f32.ilog2_step_lt 1 _ b8
  generalize f32.ilog2_step p8 1 = p9 at i9 b9 ⊢
  obtain ⟨h1, h2, h3⟩ := i9
  have : p9.1 = 1 := by omega
  rw [this] at h2 h3
  constructor
  · simpa using h2
  · rw [pow_succ]; omega

theorem f32.ilog2_unique (n e : Nat) (h1 : 2 ^ e ≤ n) (h2 : n < 2 ^ (e + 1)) (h : n < 2 ^ 512) :
    f32.ilog2 n = e := by
  have hn : 1 ≤ n := le_trans (Nat.one_le_two_pow) h1
  obtain ⟨a, b⟩ := ilog2_spec n hn h
  have c1 : f32.ilog2 n < e + 1 := (Nat.pow_lt_pow_iff_right (by norm_num : 1 < 2)).1 (lt_of_le_of_lt a h2)
  have c2 : e < f32.ilog2 n + 1 := (Nat.pow_lt_pow_iff_right (by norm_num : 1 < 2)).1 (lt_of_le_of_lt h1 b)
  omega

theorem f32.round_mag_exact (q sh : Nat) (hq1 : 8388608 ≤ q) (hq2 : q < 16777216)
    (hsh : sh ≤ 200) :
    f32.round_mag (q * 2 ^ sh) 1 = (sh + 1) * 8388608 + (q - 8388608) := by
  have hpos : 0 < 2 ^ sh := Nat.two_pow_pos sh
  have hlo : 2 ^ (23 + sh) ≤ q * 2 ^ sh := by
    rw [pow_add]; exact Nat.mul_le_mul_right _ (by norm_num; exact hq1)
  have hhi : q * 2 ^ sh < 2 ^ (23 + sh + 1) := by
    have : 23 + sh + 1 = 24 + sh := by omega
    rw [this, pow_add]
    exact Nat.mul_lt_mul_of_pos_right (by norm_num; exact hq2) hpos
  have hbig : q * 2 ^ sh < 2 ^ 512 :=
    lt_of_lt_of_le hhi (Nat.pow_le_pow_right (by norm_num) (by omega))
  have hlog : f32.ilog2 (q * 2 ^ sh) = 23 + sh := f32.ilog2_unique _ _ hlo hhi hbig
  have hrne : f32.rne (q * 2 ^ sh) (2 ^ sh) = q := by
    unfold f32.rne
    simp [Nat.mul_div_cancel _ hpos, hpos]
  unfold f32.round_mag
  simp only [Nat.div_one, hlog, Nat.add_sub_cancel_left, Nat.one_mul, hrne]
  unfold f32.pack
  have h23 : ¬ q * 2 ^ sh < 8388608 := by
    have : (8388608 : Nat) ≤ q * 2 ^ sh := le_trans hq1 (Nat.le_mul_of_pos_right _ hpos)
    omega
  have h277 : ¬ 277 ≤ 23 + sh := by omega
  simp only [h23, if_false, hlog, h277]
  have e1 : 23 + sh - 22 = sh + 1 := by omega
  have e2 : 23 + sh - 23 = sh := by omega
  rw [e1, e2, Nat.mul_div_cancel _ hpos]

theorem f32.decode_fields (b : Bool) (E F : Nat) (hE : E < 256) (hF : F < 8388608) :
    f32.expo (f32.sign_bit b + (E * 8388608 + F)) = E
      ∧ f32.frac (f32.sign_bit b + (E * 8388608 + F)) = F
      ∧ f32.sign (f32.sign_bit b + (E * 8388608 + F)) = b := by
  have hs : f32.sign_bit b = 0 ∨ f32.sign_bit b = 2147483648 := by
    cases b <;> simp [f32.sign_bit]
  refine ⟨?_, ?_, ?_⟩
  · unfold f32.expo; omega
  · unfold f32.frac; omega
  · unfold f32.sign
    cases b
    · have : f32.sign_bit false = 0 := rfl
      rw [this, decide_eq_false_iff_not]
      change ¬ ((0 + (E * 8388608 + F) : Nat) / 2147483648 % 2 = (1 : Nat))
      omega
    · have : f32.sign_bit true = 2147483648 := rfl
      rw [this, decide_eq_true_eq]
      change ((2147483648 + (E * 8388608 + F) : Nat) / 2147483648 % 2 = (1 : Nat))
      omega

theorem f32.to_int_of_int (n : Int) (h1 : -16777216 < n) (h2 : n < 16777216) :
    f32.to_int (f32.of_int n) = n := by
  by_cases h0 : n = 0
  · subst h0; decide
  have hm1 : 1 ≤ n.natAbs := by omega
  have hm2 : n.natAbs < 2 ^ 24 := by norm_num; omega
  obtain ⟨hL1, hL2⟩ := f32.ilog2_spec n.natAbs hm1
    (lt_of_lt_of_le hm2 (Nat.pow_le_pow_right (by norm_num) (by norm_num)))
  generalize hLe : f32.ilog2 n.natAbs = L at hL1 hL2
  have hL : L ≤ 23 := by
    have : 2 ^ L < 2 ^ 24 := lt_of_le_of_lt hL1 hm2
    have := (Nat.pow_lt_pow_iff_right (by norm_num : 1 < 2)).1 this
    omega
  have hq1 : 8388608 ≤ n.natAbs * 2 ^ (23 - L) := by
    have : 2 ^ L * 2 ^ (23 - L) ≤ n.natAbs * 2 ^ (23 - L) := Nat.mul_le_mul_right _ hL1
    rw [← pow_add] at this
    have e : L + (23 - L) = 23 := by omega
    rw [e] at this
    norm_num at this
    exact this
  have hq2 : n.natAbs * 2 ^ (23 - L) < 16777216 := by
    have : n.natAbs * 2 ^ (23 - L) < 2 ^ (L + 1) * 2 ^ (23 - L) :=
      Nat.mul_lt_mul_of_pos_right hL2 (Nat.two_pow_pos _)
    rw [← pow_add] at this
    have e : L + 1 + (23 - L) = 24 := by omega
    rw [e] at this
    norm_num at this
    exact this
  have hK : n.natAbs * 2 ^ 149 = n.natAbs * 2 ^ (23 - L) * 2 ^ (L + 126) := by
    rw [Nat.mul_assoc, ← pow_add]
    have e : 23 - L + (L + 126) = 149 := by omega
    rw [e]
  have hround := f32.round_mag_exact (n.natAbs * 2 ^ (23 - L)) (L + 126) hq1 hq2 (by omega)
  rw [← hK] at hround
  obtain ⟨dE, dF, dS⟩ := f32.decode_fields (decide (n < 0)) (L + 126 + 1)
    (n.natAbs * 2 ^ (23 - L) - 8388608) (by omega) (by omega)
  have hmag : f32.mag (f32.of_int n) = n.natAbs * 2 ^ 149 := by
    unfold f32.mag f32.of_int
    rw [hround, dE, dF]
    have : ¬ (L + 126 + 1 = 0) := by omega
    simp only [this, if_false]
    have e : 8388608 + (n.natAbs * 2 ^ (23 - L) - 8388608) = n.natAbs * 2 ^ (23 - L) := by omega
    rw [e, hK]
    simp
  have hexp : f32.expo (f32.of_int n) = L + 126 + 1 := by
    unfold f32.of_int; rw [hround, dE]
  have hsign : f32.sign (f32.of_int n) = decide (n < 0) := by
    unfold f32.of_int; rw [hround, dS]
  unfold f32.to_int f32.is_nan f32.is_inf
  rw [hexp, hmag, hsign]
  have e255 : ¬ (L + 126 + 1 = 255) := by omega
  simp only [e255, decide_False, Bool.false_and, Bool.false_eq_true, if_false]
  rw [Nat.mul_div_cancel _ (Nat.two_pow_pos _)]
  by_cases hn : n < 0
  · simp only [hn, decide_True, if_true]
    have : ¬ (2147483648 < n.natAbs) := by omega
    simp only [this, if_false]
    omega
  · simp only [hn, decide_False, Bool.false_eq_true, if_false]
    have : ¬ (2147483647 < n.natAbs) := by omega
    simp only [this, if_false]
    omega

/-! ## Machine integers and buffers -/

theorem u8_of_lt (n : Nat) (h : n < 256) : u8 (n : Int) = n := by
  unfold u8; omega

theorem u16_of_lt (n : Nat) (h : n < 65536) : u16 (n : Int) = n := by
  unfold u16; omega

theorem u16_succ (a : Nat) (n : Int) : u16 ((u16 (a : Int) : Int) + n) = u16 ((a : Int) + n) := by
  unfold u16; omega

@[simp] theorem buf_set_same (buf : buf_t) (i v : Nat) : buf_set buf i v i = v := by
  simp [buf_set]

theorem buf_set_ne (buf : buf_t) (i v j : Nat) (h : j ≠ i) : buf_set buf i v j = buf j := by
  simp [buf_set, h]

theorem buf_of_lt (l : List Nat) (rest : buf_t) (i : Nat) (h : i < l.length) :
    buf_of l rest i = l.getD i 0 := by
  simp [buf_of, h]

/-! ## The register model -/

theorem register_find_exact {σ : Type} (registers : List (reg_t σ)) (ref : Nat) (reg : reg_t σ)
    (h : register_find registers ref 0 = some reg) : reg ∈ registers ∧ reg.ref = ref := by
  unfold register_find at h
  have h0 : ¬ (0 &&& OPT_BITMAP ≠ 0) := by decide
  rw [if_neg h0] at h
  refine ⟨List.mem_of_find?_eq_some h, ?_⟩
  have := List.find?_some h
  simpa using this

theorem register_read_plain {σ : Type} (g : globals σ)
    (load : regval_t → Nat → σ → Int × regval_t × σ) (a : Nat) (reg : reg_t σ) (val : regval_t)
    (s : σ) (hload : g.store_cb.load_register = some load)
    (hfind : register_find g.registers a 0 = some reg)
    (hperm : reg.perm &&& REG_PERM_RD ≠ 0) (hcb : reg.read_cb = none)
    (hok : 0 ≤ (load { val with tag := reg.tag } a s).1) :
    register_read g.store_cb g.registers a 0 val s
      = ((reg.size : Int), some reg, (load { val with tag := reg.tag } a s).2.1,
          (load { val with tag := reg.tag } a s).2.2) := by
  have href := (register_find_exact _ _ _ hfind).2
  unfold register_read
  rw [hfind]
  simp only [hperm, if_false, hcb, read_reg, hload, href]
  have : ¬ (load { n := val.n, tag := reg.tag } a s).1 < 0 := by omega
  simp only [this, if_false, register_read_ok]
  have h0 : ¬ (0 &&& OPT_BITMAP ≠ 0) := by decide
  rw [if_neg h0]

/-! ## The value codec -/

theorem regval_encode_mb_short (float_fmt : Nat → Nat) (val : regval_t) (buf : buf_t) (p : Nat)
    (v : Nat) (hv : v < 65536) (hn : val.n = v) :
    regval_encode_mb float_fmt val buf p _integer 1 0
      = (0, buf_set (buf_set buf p (v / 256)) (p + 1) (v % 256)) := by
  have hrt : f32.to_int (f32.of_int (v : Int)) = v := f32.to_int_of_int _ (by omega) (by omega)
  have e1 : u8 ((v : Int) / 256) = v / 256 := by unfold u8; omega
  have e2 : u8 (v : Int) = v % 256 := by unfold u8; omega
  simp [regval_encode_mb, val_codec_spec_table, List.find?, _integer, _float,
    integer_to_mb_short, integer_prescale, hn, hrt, e1, e2]

/-! ## Application dispatch: reading holding registers -/

theorem load_ref_mem_step {σ : Type} (g : globals σ) (fuel start len : Nat) (buf : buf_t)
    (p : Nat) (val : regval_t) (s : σ) (hlen : len ≠ 0) :
    load_ref_mem g (fuel + 1) start len buf p val s =
      match register_read g.store_cb g.registers start 0 val s with
      | (n, none, _, s1) => some (n, buf, s1)
      | (n, some reg, val1, s1) =>
        if n < 0 then some (n, buf, s1)
        else if (len : Int) < n * REGISTER_SIZE then some (-1, buf, s1)
        else
          if (regval_encode_mb g.float_fmt val1 buf p reg.tag reg.size (reg_mb_scale reg)).1 ≠ 0
          then some (-REG_ERR_ADDRESS_NOT_FOUND,
            (regval_encode_mb g.float_fmt val1 buf p reg.tag reg.size (reg_mb_scale reg)).2, s1)
          else
            load_ref_mem g fuel (u16 (start + n)) (u8 (len - n * REGISTER_SIZE))
              (regval_encode_mb g.float_fmt val1 buf p reg.tag reg.size (reg_mb_scale reg)).2
              (p + (n * REGISTER_SIZE).toNat) val1 s1 := by
  rw [load_ref_mem]
  simp only [hlen, if_false]

theorem load_ref_mem_done {σ : Type} (g : globals σ) (fuel start : Nat) (buf : buf_t)
    (p : Nat) (val : regval_t) (s : σ) :
    load_ref_mem g fuel start 0 buf p val s = some (0, buf, s) := by
  rw [load_ref_mem.eq_def]
  simp

theorem load_ref_mem_regs {σ : Type} (g : globals σ)
    (load : regval_t → Nat → σ → Int × regval_t × σ)
    (hload : g.store_cb.load_register = some load) :
    ∀ (k fuel a p : Nat) (buf : buf_t) (val : regval_t) (s : σ) (v : Nat → Nat),
      k ≤ fuel → 2 * k < 256 → (∀ i, i < k → a + i < 65536) →
      (∀ i, i < k → ∃ reg, register_find g.registers (a + i) 0 = some reg ∧ reg.size = 1
        ∧ reg.tag = _integer ∧ reg.mb_scale = 0 ∧ reg.perm &&& REG_PERM_RD ≠ 0
        ∧ reg.read_cb = none) →
      (∀ i, i < k → ∀ val s, 0 ≤ (load val (a + i) s).1 ∧ (load val (a + i) s).2.1.n = v i) →
      (∀ i, i < k → v i < 65536) →
      ∃ buf', load_ref_mem g fuel (u16 a) (2 * k) buf p val s
          = some (0, buf', load_walk load _integer k a val s)
        ∧ (∀ j, j < p → buf' j = buf j)
        ∧ (∀ i, i < k → buf' (p + 2 * i) = v i / 256 ∧ buf' (p + 2 * i + 1) = v i % 256) := by
  intro k
  induction k with
  | zero =>
    intro fuel a p buf val s v _ _ _ _ _ _
    refine ⟨buf, ?_, fun _ _ => rfl, fun i hi => absurd hi (Nat.not_lt_zero i)⟩
    simp [load_ref_mem_done, load_walk]
  | succ k ih =>
    intro fuel a p buf val s v hfuel hk ha hreg hval hv
    obtain ⟨fuel, rfl⟩ : ∃ f, fuel = f + 1 := ⟨fuel - 1, by omega⟩
    obtain ⟨reg, hfind, hsize, htag, hscale, hperm, hcb⟩ := hreg 0 (Nat.succ_pos k)
    have ha0 : a < 65536 := by simpa using ha 0 (Nat.succ_pos k)
    have hval0 := hval 0 (Nat.succ_pos k) { val with tag := reg.tag } s
    simp only [Nat.add_zero] at hfind hval0
    have hread := register_read_plain g load a reg val s hload hfind hperm hcb hval0.1
    have hv0 : v 0 < 65536 := hv 0 (Nat.succ_pos k)
    have henc := regval_encode_mb_short g.float_fmt (load { val with tag := reg.tag } a s).2.1
      buf p (v 0) hv0 hval0.2
    have hms : reg_mb_scale reg = 0 := by simp [reg_mb_scale, hscale]
    obtain ⟨buf', hrun, hpre, hbytes⟩ := ih fuel (a + 1) (p + 2)
      (buf_set (buf_set buf p (v 0 / 256)) (p + 1) (v 0 % 256))
      (load { val with tag := reg.tag } a s).2.1 (load { val with tag := reg.tag } a s).2.2
      (fun i => v (i + 1)) (by omega) (by omega)
      (fun i hi => by have := ha (i + 1) (by omega); omega)
      (fun i hi => by
        have := hreg (i + 1) (by omega)
        rwa [show a + (i + 1) = a + 1 + i by omega] at this)
      (fun i hi => by
        have := hval (i + 1) (by omega)
        rwa [show a + (i + 1) = a + 1 + i by omega] at this)
      (fun i hi => hv (i + 1) (by omega))
    simp only [htag] at hread henc hrun
    refine ⟨buf', ?_, ?_, ?_⟩
    · rw [load_ref_mem_step g fuel _ _ buf p val s (by omega), u16_of_lt a ha0, hread]
      simp only [hsize, htag, hms, henc]
      have e1 : u16 ((a : Int) + ((1 : Nat) : Int)) = u16 ((a + 1 : Nat) : Int) := by
        push_cast; rfl
      have e2 : u8 (((2 * (k + 1) : Nat) : Int) - ((1 : Nat) : Int) * REGISTER_SIZE) = 2 * k := by
        unfold u8 REGISTER_SIZE; omega
      have e3 : p + (((1 : Nat) : Int) * REGISTER_SIZE).toNat = p + 2 := by
        unfold REGISTER_SIZE; omega
      have c1 : ¬ (((1 : Nat) : Int) < 0) := by omega
      have c2 : ¬ (((2 * (k + 1) : Nat) : Int) < ((1 : Nat) : Int) * REGISTER_SIZE) := by
        unfold REGISTER_SIZE; omega
      simp only [c1, c2, if_false, ne_eq, not_true_eq_false, e1, e2, e3]
      rw [hrun]
      simp only [load_walk]
    · intro j hj
      rw [hpre j (by omega), buf_set_ne _ _ _ _ (by omega), buf_set_ne _ _ _ _ (by omega)]
    · intro i hi
      cases i with
      | zero =>
        constructor
        · rw [Nat.mul_zero, Nat.add_zero, hpre p (by omega), buf_set_ne _ _ _ _ (by omega),
            buf_set_same]
        · rw [Nat.mul_zero, Nat.add_zero, hpre (p + 1) (by omega), buf_set_same]
      | succ i =>
        have := hbytes i (by omega)
        rw [show p + 2 * (i + 1) = p + 2 + 2 * i by omega]
        exact this

theorem yam_app_input_holding {σ : Type} (g : globals σ) (fuel slave : Nat) (req : mb_pbuf_t)
    (resp_buf : buf_t) (buf_sz : Nat) (s : σ) (hf : req.payload 0 = 3) :
    yam_app_input g fuel slave req resp_buf buf_sz s
      = read_holding_regs_handler g fuel 3 (buf_shift req.payload 1) (u8 ((req.len : Int) - 1))
          resp_buf buf_sz s := by
  simp [yam_app_input, func_handlers, List.find?, hf, MBF_READ_COILS, MBF_READ_DISCRETE_INPUTS,
    MBF_READ_HOLDING_REGS]

/-- C1 (as the code behaves): a request PDU whose function code is not one of
1, 2, 3, 6, 16, 20, 21 makes `yam_app_input` return `-YAM_ERR_UNKNOWN_MESSAGE`
(-2); the response buffer and the host state are left as they were, no
exception response is produced. -/
theorem C1_unknown_function_is_an_error {σ : Type} (g : globals σ) (fuel slave : Nat)
    (req : mb_pbuf_t) (resp_buf : buf_t) (buf_sz : Nat) (s : σ)
    (hf : req.payload 0 ∉ [1, 2, 3, 6, 16, 20, 21]) :
    yam_app_input g fuel slave req resp_buf buf_sz s
      = some (-YAM_ERR_UNKNOWN_MESSAGE, resp_buf, s) := by
  simp only [List.mem_cons, List.mem_singleton, List.not_mem_nil, or_false, not_or] at hf
  obtain ⟨h1, h2, h3, h6, h16, h20, h21⟩ := hf
  replace h1 : (1 != req.payload 0) = true := bne_iff_ne.2 (Ne.symm h1)
  replace h2 : (2 != req.payload 0) = true := bne_iff_ne.2 (Ne.symm h2)
  replace h3 : (3 != req.payload 0) = true := bne_iff_ne.2 (Ne.symm h3)
  replace h6 : (6 != req.payload 0) = true := bne_iff_ne.2 (Ne.symm h6)
  replace h16 : (16 != req.payload 0) = true := bne_iff_ne.2 (Ne.symm h16)
  replace h20 : (20 != req.payload 0) = true := bne_iff_ne.2 (Ne.symm h20)
  replace h21 : (21 != req.payload 0) = true := bne_iff_ne.2 (Ne.symm h21)
  simp [yam_app_input, func_handlers, List.find?, MBF_READ_COILS, MBF_READ_DISCRETE_INPUTS,
    MBF_READ_HOLDING_REGS, MBF_WRITE_REG, MBF_WRITE_REGS, MBF_READ_FILE, MBF_WRITE_FILE,
    h1, h2, h3, h6, h16, h20, h21]

/-- Witness of C1: the request `09 00 00` of the specification. -/
theorem C1_unknown_function_witness :
    buf_of [9, 0, 0] (fun _ => 0) 0 ∉ [1, 2, 3, 6, 16, 20, 21]
      ∧ yam_app_input (rec_globals [] (fun _ => 0)) 0 1
          { payload := buf_of [9, 0, 0] (fun _ => 0), len := 3 } (fun _ => 0) 253 []
        = some (-YAM_ERR_UNKNOWN_MESSAGE, fun _ => 0, []) :=
  ⟨by decide, C1_unknown_function_is_an_error _ _ _ _ _ _ _ (by decide)⟩

/-- C1 as stated fails: for the request `09 00 00` the code returns -2 and
writes nothing, where the claim promises the response `89 01` of length 2. -/
theorem C1_counterexample :
    run_pdu (rec_globals [] (fun _ => 0)) 0 [9, 0, 0] 2 [] = some (-2, [0, 0], [])
      ∧ run_pdu (rec_globals [] (fun _ => 0)) 0 [9, 0, 0] 2 [] ≠ some (2, [0x89, 0x01], []) := by
  decide

/-- C2: Read Holding Registers, happy path.  When the `cnt` (1..125) addresses
from `r + 40001` on hold registers of size 1, tag INTEGER, scale 0 with READ
permission whose load succeeds with values `v i` in 0..65535, the request
`[3, r_hi, r_lo, cnt_hi, cnt_lo]` yields a response of length `2 + 2 * cnt`
whose bytes are `3`, `2 * cnt`, then the big-endian pairs of the `v i`; the
host state is the one left by one load per register in ascending order. -/
theorem C2_read_holding_registers {σ : Type} (g : globals σ)
    (load : regval_t → Nat → σ → Int × regval_t × σ) (fuel slave r cnt : Nat)
    (v : Nat → Nat) (rest resp_buf : buf_t) (buf_sz : Nat) (s : σ)
    (hload : g.store_cb.load_register = some load)
    (hwf : ∀ reg, reg ∈ g.registers → reg.ref < 65536)
    (hr : r < 65536) (hcnt1 : 1 ≤ cnt) (hcnt2 : cnt ≤ 125)
    (hreg : ∀ i, i < cnt → ∃ reg, register_find g.registers (r + 40001 + i) 0 = some reg
      ∧ reg.size = 1 ∧ reg.tag = _integer ∧ reg.mb_scale = 0 ∧ reg.perm &&& REG_PERM_RD ≠ 0
      ∧ reg.read_cb = none)
    (hval : ∀ i, i < cnt → ∀ val s,
      0 ≤ (load val (r + 40001 + i) s).1 ∧ (load val (r + 40001 + i) s).2.1.n = v i)
    (hv : ∀ i, i < cnt → v i < 65536)
    (hfuel : cnt ≤ fuel) (hbuf : 2 + 2 * cnt ≤ buf_sz) :
    ∃ buf, yam_app_input g fuel slave
          { payload := buf_of [3, r / 256, r % 256, cnt / 256, cnt % 256] rest, len := 5 }
          resp_buf buf_sz s
        = some (((2 + 2 * cnt : Nat) : Int), buf, load_walk load _integer cnt (r + 40001) g.junk s)
      ∧ buf 0 = 3 ∧ buf 1 = 2 * cnt
      ∧ ∀ i, i < cnt → buf (2 + 2 * i) = v i / 256 ∧ buf (2 + 2 * i + 1) = v i % 256 := by
  have haddr : ∀ i, i < cnt → r + 40001 + i < 65536 := by
    intro i hi
    obtain ⟨reg, hfind, _⟩ := hreg i hi
    have := register_find_exact _ _ _ hfind
    have := hwf reg this.1
    omega
  obtain ⟨buf', hrun, _, hbytes⟩ := load_ref_mem_regs g load hload cnt fuel (r + 40001) 2
    resp_buf g.junk s v hfuel (by omega) haddr hreg hval hv
  refine ⟨rd_resp_header 3 (2 * cnt) buf', ?_, ?_, ?_, ?_⟩
  · rw [yam_app_input_holding _ _ _ _ _ _ _ (by simp [buf_of])]
    have e0 : u8 (((5 : Nat) : Int) - 1) = 4 := by decide
    have e1 : u16 ((buf_shift (buf_of [3, r / 256, r % 256, cnt / 256, cnt % 256] rest) 1 0 : Nat)
        * 256 + (buf_shift (buf_of [3, r / 256, r % 256, cnt / 256, cnt % 256] rest) 1 1 : Nat)) = r := by
      simp [buf_shift, buf_of, u16]; omega
    have e2 : u16 ((buf_shift (buf_of [3, r / 256, r % 256, cnt / 256, cnt % 256] rest) 1 2 : Nat)
        * 256 + (buf_shift (buf_of [3, r / 256, r % 256, cnt / 256, cnt % 256] rest) 1 3 : Nat)) = cnt := by
      simp [buf_shift, buf_of, u16]; omega
    have e3 : u8 ((cnt : Int) * REGISTER_SIZE) = 2 * cnt := by unfold u8 REGISTER_SIZE; omega
    have e4 : u16 ((r : Int) + HOLDING_REGS_REF_FIRST) = u16 ((r + 40001 : Nat) : Int) := by
      unfold HOLDING_REGS_REF_FIRST; push_cast; rfl
    have c : ¬ (buf_sz < 2 + 2 * cnt) := by omega
    unfold read_holding_regs_handler
    simp only [e0, ne_eq, not_true_eq_false, if_false, e1, e2, e3, e4, c, hrun, Option.map_some',
      catch_modbus_exception, lt_irrefl]
    push_cast
    rfl
  · simp [rd_resp_header, buf_set_ne, u8]
  · simp only [rd_resp_header, buf_set_same]
    unfold u8; omega
  · intro i hi
    have := hbytes i hi
    simp only [rd_resp_header]
    rw [buf_set_ne _ _ _ _ (by omega), buf_set_ne _ _ _ _ (by omega),
      buf_set_ne _ _ _ _ (by omega), buf_set_ne _ _ _ _ (by omega)]
    exact this

/-- Witness of C2: two registers 40001 and 40002 holding 0x1234 and 0xABCD,
request `03 00 00 00 02`. -/
theorem C2_read_holding_registers_witness :
    run_pdu (rec_globals [plain_reg _ 40001 1 _integer 0 REG_PERM_RW,
        plain_reg _ 40002 1 _integer 0 REG_PERM_RD]
        (fun ref => if ref = 40001 then 0x1234 else 0xABCD)) 2 [3, 0, 0, 0, 2] 6 []
      = some (6, [3, 4, 0x12, 0x34, 0xAB, 0xCD], [cb_call.load 40001, cb_call.load 40002]) := by
  obtain ⟨buf, hrun, h0, h1, hb⟩ := C2_read_holding_registers
    (rec_globals [plain_reg _ 40001 1 _integer 0 REG_PERM_RW,
        plain_reg _ 40002 1 _integer 0 REG_PERM_RD]
        (fun ref => if ref = 40001 then 0x1234 else 0xABCD))
    (fun val ref s => (0, { val with n := if ref = 40001 then 0x1234 else 0xABCD },
      s ++ [cb_call.load ref]))
    2 1 0 2 (fun i => if i = 0 then 0x1234 else 0xABCD) (fun _ => 0) (fun _ => 0) 253 [] rfl
    (by intro reg hreg; simp [rec_globals, plain_reg] at hreg; rcases hreg with h | h <;> simp [h])
    (by decide) (by decide) (by decide)
    (by
      intro i hi
      interval_cases i
      · exact ⟨plain_reg _ 40001 1 _integer 0 REG_PERM_RW, rfl, rfl, rfl, rfl, by decide, rfl⟩
      · exact ⟨plain_reg _ 40002 1 _integer 0 REG_PERM_RD, rfl, rfl, rfl, rfl, by decide, rfl⟩)
    (by
      intro i hi val s
      interval_cases i <;> simp)
    (by intro i hi; interval_cases i <;> simp)
    (by decide) (by decide)
  have hb0 := hb 0 (by decide)
  have hb1 := hb 1 (by decide)
  simp at hb0 hb1
  unfold run_pdu
  erw [hrun]
  simp [buf_take, List.range, List.range.loop, h0, h1, hb0, hb1, load_walk]

/-! ## Application dispatch: writing holding registers -/

theorem store_ref_mem_step {σ : Type} (g : globals σ) (fuel start len : Nat) (buf : buf_t)
    (p : Nat) (val : regval_t) (s : σ) (hlen : len ≠ 0) :
    store_ref_mem g (fuel + 1) start len buf p val s =
      match register_find g.registers start 0 with
      | none => some (-REG_ERR_ADDRESS_NOT_FOUND, s)
      | some reg =>
        if (len : Int) < reg.size * REGISTER_SIZE then some (-REG_ERR_ADDRESS_NOT_FOUND, s)
        else
          if (regval_decode_mb g.float_fmt buf p val reg.tag reg.size (reg_mb_scale reg)).1 ≠ 0
          then some (-REG_ERR_ADDRESS_NOT_FOUND, s)
          else
            if (register_write g.store_cb start 0 reg
                (regval_decode_mb g.float_fmt buf p val reg.tag reg.size (reg_mb_scale reg)).2 s).1 < 0
            then some (register_write g.store_cb start 0 reg
                (regval_decode_mb g.float_fmt buf p val reg.tag reg.size (reg_mb_scale reg)).2 s)
            else
              store_ref_mem g fuel
                (u16 (start + (register_write g.store_cb start 0 reg
                  (regval_decode_mb g.float_fmt buf p val reg.tag reg.size (reg_mb_scale reg)).2 s).1))
                (u8 (len - (register_write g.store_cb start 0 reg
                  (regval_decode_mb g.float_fmt buf p val reg.tag reg.size (reg_mb_scale reg)).2 s).1
                    * REGISTER_SIZE))
                buf
                (p + ((register_write g.store_cb start 0 reg
                  (regval_decode_mb g.float_fmt buf p val reg.tag reg.size (reg_mb_scale reg)).2 s).1
                    * REGISTER_SIZE).toNat)
                (regval_decode_mb g.float_fmt buf p val reg.tag reg.size (reg_mb_scale reg)).2
                (register_write g.store_cb start 0 reg
                  (regval_decode_mb g.float_fmt buf p val reg.tag reg.size (reg_mb_scale reg)).2 s).2 := by
  rw [store_ref_mem]
  simp only [hlen, if_false]

theorem store_ref_mem_done {σ : Type} (g : globals σ) (fuel start : Nat) (buf : buf_t)
    (p : Nat) (val : regval_t) (s : σ) :
    store_ref_mem g fuel start 0 buf p val s = some (0, s) := by
  rw [store_ref_mem.eq_def]
  simp

theorem regval_decode_mb_short (float_fmt : Nat → Nat) (buf : buf_t) (p : Nat) (val : regval_t)
    (h0 : buf p < 256) (h1 : buf (p + 1) < 256) :
    regval_decode_mb float_fmt buf p val _integer 1 0
      = (0, { n := ((buf p * 256 + buf (p + 1) : Nat) : Int), tag := _integer }) := by
  have hrt : f32.to_int (f32.of_int ((buf p : Int) * 256 + (buf (p + 1) : Int)))
      = (buf p : Int) * 256 + (buf (p + 1) : Int) :=
    f32.to_int_of_int _ (by omega) (by omega)
  simp [regval_decode_mb, val_codec_spec_table, List.find?, _integer, _float,
    mb_short_to_integer, integer_scale, regval_put_integer, hrt]

theorem register_write_plain {σ : Type} (g : globals σ) (save : regval_t → Nat → σ → Int × σ)
    (ref options : Nat) (reg : reg_t σ) (val : regval_t) (s : σ)
    (hsave : g.store_cb.save_register = some save)
    (hperm : reg.perm &&& REG_PERM_WR ≠ 0)
    (hrange : register_chk_value_range reg val = false) (hcb : reg.write_cb = none)
    (hok : 0 ≤ (save val reg.ref s).1) :
    register_write g.store_cb ref options reg val s = ((reg.size : Int), (save val reg.ref s).2) := by
  unfold register_write
  have : ¬ (save val reg.ref s).1 < 0 := by omega
  simp [hperm, hrange, hcb, write_reg, hsave, this]

theorem store_ref_mem_regs {σ : Type} (g : globals σ) (save : regval_t → Nat → σ → Int × σ)
    (hsave : g.store_cb.save_register = some save) (buf : buf_t) :
    ∀ (k fuel a p : Nat) (val : regval_t) (s : σ) (w : Nat → Nat),
      k ≤ fuel → 2 * k < 256 → (∀ i, i < k → a + i < 65536) →
      (∀ i, i < k → buf (p + 2 * i) < 256 ∧ buf (p + 2 * i + 1) < 256
        ∧ w i = buf (p + 2 * i) * 256 + buf (p + 2 * i + 1)) →
      (∀ i, i < k → ∃ reg, register_find g.registers (a + i) 0 = some reg ∧ reg.size = 1
        ∧ reg.tag = _integer ∧ reg.mb_scale = 0 ∧ reg.perm &&& REG_PERM_WR ≠ 0
        ∧ reg.write_cb = none
        ∧ register_chk_value_range reg { n := w i, tag := _integer } = false) →
      (∀ i, i < k → ∀ val s, 0 ≤ (save val (a + i) s).1) →
      store_ref_mem g fuel (u16 a) (2 * k) buf p val s = some (0, save_walk save w k a s) := by
  intro k
  induction k with
  | zero =>
    intro fuel a p val s w _ _ _ _ _ _
    simp [store_ref_mem_done, save_walk]
  | succ k ih =>
    intro fuel a p val s w hfuel hk ha hdata hreg hok
    obtain ⟨fuel, rfl⟩ : ∃ f, fuel = f + 1 := ⟨fuel - 1, by omega⟩
    obtain ⟨reg, hfind, hsize, htag, hscale, hperm, hcb, hrange⟩ := hreg 0 (Nat.succ_pos k)
    obtain ⟨hd0, hd1, hw0⟩ := hdata 0 (Nat.succ_pos k)
    have ha0 : a < 65536 := by simpa using ha 0 (Nat.succ_pos k)
    simp only [Nat.add_zero, Nat.mul_zero] at hfind hd0 hd1 hw0
    have href := (register_find_exact _ _ _ hfind).2
    have hms : reg_mb_scale reg = 0 := by simp [reg_mb_scale, hscale]
    have hdec := regval_decode_mb_short g.float_fmt buf p val hd0 hd1
    rw [← hw0] at hdec
    have hok0 := hok 0 (Nat.succ_pos k) { n := w 0, tag := _integer } s
    simp only [Nat.add_zero] at hok0
    have hwr := register_write_plain g save a 0 reg { n := w 0, tag := _integer } s hsave hperm
      hrange hcb (by rw [href]; exact hok0)
    rw [href, hsize] at hwr
    have hrun := ih fuel (a + 1) (p + 2) { n := w 0, tag := _integer }
      (save { n := w 0, tag := _integer } a s).2 (fun i => w (i + 1)) (by omega) (by omega)
      (fun i hi => by have := ha (i + 1) (by omega); omega)
      (fun i hi => by
        have := hdata (i + 1) (by omega)
        rwa [show p + 2 * (i + 1) = p + 2 + 2 * i by omega] at this)
      (fun i hi => by
        have := hreg (i + 1) (by omega)
        rwa [show a + (i + 1) = a + 1 + i by omega] at this)
      (fun i hi => by
        have := hok (i + 1) (by omega)
        rwa [show a + (i + 1) = a + 1 + i by omega] at this)
    rw [store_ref_mem_step g fuel _ _ buf p val s (by omega), u16_of_lt a ha0, hfind]
    simp only [hsize, htag, hms, hdec, hwr]
    have e1 : u16 ((a : Int) + ((1 : Nat) : Int)) = u16 ((a + 1 : Nat) : Int) := by
      push_cast; rfl
    have e2 : u8 (((2 * (k + 1) : Nat) : Int) - ((1 : Nat) : Int) * REGISTER_SIZE) = 2 * k := by
      unfold u8 REGISTER_SIZE; omega
    have e3 : p + (((1 : Nat) : Int) * REGISTER_SIZE).toNat = p + 2 := by
      unfold REGISTER_SIZE; omega
    have c1 : ¬ (((1 : Nat) : Int) < 0) := by omega
    have c2 : ¬ (((2 * (k + 1) : Nat) : Int) < ((1 : Nat) : Int) * REGISTER_SIZE) := by
      unfold REGISTER_SIZE; omega
    simp only [c1, c2, if_false, ne_eq, not_true_eq_false, e1, e2, e3]
    rw [hrun]
    simp only [save_walk]

theorem yam_app_input_write_reg {σ : Type} (g : globals σ) (fuel slave : Nat) (req : mb_pbuf_t)
    (resp_buf : buf_t) (buf_sz : Nat) (s : σ) (hf : req.payload 0 = 6) :
    yam_app_input g fuel slave req resp_buf buf_sz s
      = write_regs_handler g fuel 6 (buf_shift req.payload 1) (u8 ((req.len : Int) - 1))
          resp_buf buf_sz s := by
  simp [yam_app_input, func_handlers, List.find?, hf, MBF_READ_COILS, MBF_READ_DISCRETE_INPUTS,
    MBF_READ_HOLDING_REGS, MBF_WRITE_REG]

theorem yam_app_input_write_regs {σ : Type} (g : globals σ) (fuel slave : Nat) (req : mb_pbuf_t)
    (resp_buf : buf_t) (buf_sz : Nat) (s : σ) (hf : req.payload 0 = 16) :
    yam_app_input g fuel slave req resp_buf buf_sz s
      = write_regs_handlers g fuel 16 (buf_shift req.payload 1) (u8 ((req.len : Int) - 1))
          resp_buf buf_sz s := by
  simp [yam_app_input, func_handlers, List.find?, hf, MBF_READ_COILS, MBF_READ_DISCRETE_INPUTS,
    MBF_READ_HOLDING_REGS, MBF_WRITE_REG, MBF_WRITE_REGS]

theorem buf_take_wr_resp (func ref_start : Nat) (word : Int) (resp_buf : buf_t) :
    buf_take (wr_resp func ref_start word resp_buf) 5
      = [u8 func, u8 (ref_start / 256 : Nat), u8 ref_start, u8 (word / 256), u8 word] := by
  simp [buf_take, List.range, List.range.loop, wr_resp, buf_set]

/-- C3: Write Single Register.  When the register at `r + 40001`
(`r = 256 * r_hi + r_lo`) has size 1, tag INTEGER, scale 0, WRITE permission,
no range bounds and its save succeeds, the request
`[6, r_hi, r_lo, w_hi, w_lo]` returns 5 with the response equal to the
request, and the host state is the one left by a single call of `save` with
ref `r + 40001` and the integer value `256 * w_hi + w_lo`. -/
theorem C3_write_single_register {σ : Type} (g : globals σ)
    (save : regval_t → Nat → σ → Int × σ) (fuel slave r_hi r_lo w_hi w_lo : Nat)
    (rest resp_buf : buf_t) (buf_sz : Nat) (s : σ) (reg : reg_t σ)
    (hsave : g.store_cb.save_register = some save)
    (hwf : ∀ reg, reg ∈ g.registers → reg.ref < 65536)
    (hr1 : r_hi < 256) (hr2 : r_lo < 256) (hw1 : w_hi < 256) (hw2 : w_lo < 256)
    (hfind : register_find g.registers (256 * r_hi + r_lo + 40001) 0 = some reg)
    (hsize : reg.size = 1) (htag : reg.tag = _integer) (hscale : reg.mb_scale = 0)
    (hperm : reg.perm &&& REG_PERM_WR ≠ 0)
    (hlb : reg.lower_bound = false) (hub : reg.upper_bound = false)
    (hcb : reg.write_cb = none)
    (hok : 0 ≤ (save { n := ((256 * w_hi + w_lo : Nat) : Int), tag := _integer }
      (256 * r_hi + r_lo + 40001) s).1)
    (hfuel : 1 ≤ fuel) (hbuf : 5 ≤ buf_sz) :
    ∃ buf, yam_app_input g fuel slave
          { payload := buf_of [6, r_hi, r_lo, w_hi, w_lo] rest, len := 5 } resp_buf buf_sz s
        = some (5, buf, (save { n := ((256 * w_hi + w_lo : Nat) : Int), tag := _integer }
            (256 * r_hi + r_lo + 40001) s).2)
      ∧ buf_take buf 5 = [6, r_hi, r_lo, w_hi, w_lo] := by
  have href := register_find_exact _ _ _ hfind
  have haddr : 256 * r_hi + r_lo + 40001 < 65536 := by
    have := hwf reg href.1; omega
  have hrange : register_chk_value_range reg
      { n := ((256 * w_hi + w_lo : Nat) : Int), tag := _integer } = false := by
    simp [register_chk_value_range, hlb, hub]
  have hwr := register_write_plain g save (256 * r_hi + r_lo + 40001) 0 reg
    { n := ((256 * w_hi + w_lo : Nat) : Int), tag := _integer } s hsave hperm hrange hcb
    (by rw [href.2]; exact hok)
  rw [href.2, hsize] at hwr
  have hms : reg_mb_scale reg = 0 := by simp [reg_mb_scale, hscale]
  refine ⟨wr_resp 6 (256 * r_hi + r_lo) ((256 * w_hi + w_lo : Nat) : Int) resp_buf, ?_, ?_⟩
  · obtain ⟨fuel, rfl⟩ : ∃ f, fuel = f + 1 := ⟨fuel - 1, by omega⟩
    rw [yam_app_input_write_reg _ _ _ _ _ _ _ (by simp [buf_of])]
    have e0 : u8 (((5 : Nat) : Int) - 1) = 4 := by decide
    have e1 : u16 ((buf_shift (buf_of [6, r_hi, r_lo, w_hi, w_lo] rest) 1 0 : Nat)
        * 256 + (buf_shift (buf_of [6, r_hi, r_lo, w_hi, w_lo] rest) 1 1 : Nat))
        = 256 * r_hi + r_lo := by
      simp [buf_shift, buf_of, u16]; omega
    have e2 : ((buf_shift (buf_of [6, r_hi, r_lo, w_hi, w_lo] rest) 1 2 : Nat) : Int)
        * 256 + (buf_shift (buf_of [6, r_hi, r_lo, w_hi, w_lo] rest) 1 3 : Nat)
        = ((256 * w_hi + w_lo : Nat) : Int) := by
      simp [buf_shift, buf_of]; omega
    have e3 : u8 REGISTER_SIZE = 2 := by decide
    have e4 : u16 (((256 * r_hi + r_lo : Nat) : Int) + HOLDING_REGS_REF_FIRST)
        = 256 * r_hi + r_lo + 40001 := by
      unfold HOLDING_REGS_REF_FIRST u16; omega
    have hdec := regval_decode_mb_short g.float_fmt
      (buf_shift (buf_shift (buf_of [6, r_hi, r_lo, w_hi, w_lo] rest) 1) 2) 0 g.junk
      (by simp [buf_shift, buf_of]; omega) (by simp [buf_shift, buf_of]; omega)
    have hd : (buf_shift (buf_shift (buf_of [6, r_hi, r_lo, w_hi, w_lo] rest) 1) 2 0 * 256
        + buf_shift (buf_shift (buf_of [6, r_hi, r_lo, w_hi, w_lo] rest) 1) 2 (0 + 1))
        = 256 * w_hi + w_lo := by
      simp [buf_shift, buf_of]; omega
    rw [hd] at hdec
    have c : ¬ (buf_sz < 5) := by omega
    unfold write_regs_handler
    simp only [e0, lt_irrefl, if_false, e1, e2, e3, e4, c]
    rw [store_ref_mem_step g fuel _ _ _ _ _ _ (by decide), hfind]
    simp only [hsize, htag, hms, hdec, hwr]
    have c1 : ¬ (((1 : Nat) : Int) < 0) := by omega
    have c2 : ¬ (((2 : Nat) : Int) < ((1 : Nat) : Int) * REGISTER_SIZE) := by decide
    have e5 : u8 (((2 : Nat) : Int) - ((1 : Nat) : Int) * REGISTER_SIZE) = 0 := by decide
    simp only [c1, c2, if_false, ne_eq, not_true_eq_false, e5, store_ref_mem_done,
      Option.map_some', catch_modbus_exception, lt_irrefl]
  · rw [buf_take_wr_resp]
    simp only [List.cons.injEq, and_true]
    refine ⟨by decide, ?_, ?_, ?_, ?_⟩ <;> unfold u8 <;> omega

/-- Witness of C3: the request `06 00 00 AB CD` of the specification. -/
theorem C3_write_single_register_witness :
    run_pdu (rec_globals [plain_reg _ 40001 1 _integer 0 REG_PERM_RW] (fun _ => 0)) 1
        [6, 0, 0, 0xAB, 0xCD] 5 []
      = some (5, [6, 0, 0, 0xAB, 0xCD], [cb_call.save 40001 0xABCD]) := by
  obtain ⟨buf, hrun, hb⟩ := C3_write_single_register
    (rec_globals [plain_reg _ 40001 1 _integer 0 REG_PERM_RW] (fun _ => 0))
    (fun val ref s => (0, s ++ [cb_call.save ref val.n])) 1 1 0 0 0xAB 0xCD
    (fun _ => 0) (fun _ => 0) 253 [] (plain_reg _ 40001 1 _integer 0 REG_PERM_RW) rfl
    (by intro reg hreg; simp [rec_globals, plain_reg] at hreg; simp [hreg])
    (by decide) (by decide) (by decide) (by decide) rfl rfl rfl rfl (by decide) rfl rfl rfl
    (by decide) (by decide) (by decide)
  unfold run_pdu
  erw [hrun]
  simp [hb]

theorem buf_take_make_exception (func : Nat) (expt : Int) (resp_buf : buf_t) :
    buf_take (make_exception func expt resp_buf).2 2 = [u8 (func ||| 0x80 : Nat), u8 expt] := by
  simp [buf_take, List.range, List.range.loop, make_exception, buf_set]

/-- C4: Write Multiple Registers validation.  For a function-16 request PDU
(bytes below 256, PDU length 1..255, so the body has `req.len - 1` bytes)
with byte count `req.payload 5` and count `req.payload 3 * 256 + req.payload 4`:
if the body is shorter than `5 + byte_count` or `byte_count ≠ cnt * 2`, the
response is the exception `[0x90, 0x03]` of length 2 and the host state is
unchanged (no callback is invoked). -/
theorem C4_write_multiple_validation {σ : Type} (g : globals σ) (fuel slave : Nat)
    (req : mb_pbuf_t) (resp_buf : buf_t) (buf_sz : Nat) (s : σ)
    (hf : req.payload 0 = 16) (hbytes : ∀ i, req.payload i < 256)
    (hlen1 : 1 ≤ req.len) (hlen2 : req.len ≤ 255)
    (hbad : req.len - 1 < 5 + req.payload 5
      ∨ req.payload 5 ≠ (req.payload 3 * 256 + req.payload 4) * 2) :
    ∃ buf, yam_app_input g fuel slave req resp_buf buf_sz s = some (2, buf, s)
      ∧ buf_take buf 2 = [0x90, 0x03] := by
  have hex : buf_take (make_exception 16 ERR_ILLEGAL_DATA_VALUE resp_buf).2 2 = [0x90, 0x03] := by
    rw [buf_take_make_exception]; decide
  refine ⟨(make_exception 16 ERR_ILLEGAL_DATA_VALUE resp_buf).2, ?_, hex⟩
  rw [yam_app_input_write_regs _ _ _ _ _ _ _ hf]
  have e0 : u8 ((req.len : Int) - 1) = req.len - 1 := by unfold u8; omega
  have h3 := hbytes 3
  have h4 := hbytes 4
  have h5 := hbytes 5
  have e1 : u16 ((buf_shift req.payload 1 2 : Nat) * 256 + (buf_shift req.payload 1 3 : Nat))
      = req.payload 3 * 256 + req.payload 4 := by
    show u16 ((req.payload 3 : Nat) * 256 + (req.payload 4 : Nat)) = _
    unfold u16; omega
  have e3 : buf_shift req.payload 1 4 = req.payload 5 := rfl
  have e2 : u8 (req.payload 5 : Nat) = req.payload 5 := by
    unfold u8; omega
  unfold write_regs_handlers
  simp only [e0, e1, e3, e2]
  by_cases c1 : req.len - 1 < 5
  · simp [c1, make_exception]
  · by_cases c2 : req.len - 1 < 5 + req.payload 5
    · simp [c1, c2, make_exception]
    · have c3 : req.payload 5 ≠ (req.payload 3 * 256 + req.payload 4) * 2 := by
        rcases hbad with h | h
        · exact absurd h c2
        · exact h
      have c3' : ((req.payload 5 : Nat) : Int)
          ≠ ((req.payload 3 * 256 + req.payload 4 : Nat) : Int) * REGISTER_SIZE := by
        unfold REGISTER_SIZE; omega
      simp only [c1, c2, if_false, ne_eq, c3', not_false_eq_true, if_true]
      rfl

/-- Witness of C4: byte count 2 for a count of 2 registers. -/
theorem C4_write_multiple_validation_witness :
    run_pdu (rec_globals [plain_reg _ 40001 1 _integer 0 REG_PERM_RW,
        plain_reg _ 40002 1 _integer 0 REG_PERM_RW] (fun _ => 0)) 4
        [16, 0, 0, 0, 2, 2, 0x12, 0x34] 2 []
      = some (2, [0x90, 0x03], []) := by
  obtain ⟨buf, hrun, hb⟩ := C4_write_multiple_validation
    (rec_globals [plain_reg _ 40001 1 _integer 0 REG_PERM_RW,
        plain_reg _ 40002 1 _integer 0 REG_PERM_RW] (fun _ => 0)) 4 1
    { payload := buf_of [16, 0, 0, 0, 2, 2, 0x12, 0x34] (fun _ => 0), len := 8 } (fun _ => 0)
    253 [] rfl
    (by
      intro i
      by_cases h : i < 8
      · interval_cases i <;> decide
      · simp [buf_of, h])
    (by decide) (by decide) (Or.inr (by decide))
  unfold run_pdu
  erw [hrun]
  simp [hb]

theorem buf_of_cons6 (a0 a1 a2 a3 a4 a5 : Nat) (data : List Nat) (rest : buf_t) (j : Nat)
    (hj : j < data.length) :
    buf_of (a0 :: a1 :: a2 :: a3 :: a4 :: a5 :: data) rest (j + 6) = data.getD j 0 := by
  have : j + 6 < (a0 :: a1 :: a2 :: a3 :: a4 :: a5 :: data).length := by
    simp only [List.length_cons]; omega
  rw [buf_of_lt _ _ _ this]
  simp [List.getD_cons_succ]

theorem getD_lt_of_forall (data : List Nat) (hdata : ∀ x, x ∈ data → x < 256) (j : Nat)
    (hj : j < data.length) : data.getD j 0 < 256 := by
  rw [List.getD_eq_getElem _ _ hj]
  exact hdata _ (List.getElem_mem hj)

/-- C5: Write Multiple Registers, success.  For a function-16 request with
byte count `2 * cnt`, at least `2 * cnt` data bytes, over `cnt` consecutive
registers from `r + 40001` on that have size 1, tag INTEGER, scale 0, WRITE
permission, no bound violated by the value written, and whose save succeeds:
the response is `[16, r_hi, r_lo, cnt_hi, cnt_lo]` of length 5 and the host
state is the one left by one `save` per register in ascending address order,
with the 16-bit value of the corresponding data pair. -/
theorem C5_write_multiple_registers {σ : Type} (g : globals σ)
    (save : regval_t → Nat → σ → Int × σ) (fuel slave r cnt : Nat) (data : List Nat)
    (rest resp_buf : buf_t) (buf_sz : Nat) (s : σ)
    (hsave : g.store_cb.save_register = some save)
    (hwf : ∀ reg, reg ∈ g.registers → reg.ref < 65536)
    (hr : r < 65536) (hcnt : 2 * cnt < 256)
    (hdata : ∀ x, x ∈ data → x < 256) (hdlen : 2 * cnt ≤ data.length)
    (hpdu : 6 + data.length ≤ 255)
    (hreg : ∀ i, i < cnt → ∃ reg, register_find g.registers (r + 40001 + i) 0 = some reg
      ∧ reg.size = 1 ∧ reg.tag = _integer ∧ reg.mb_scale = 0 ∧ reg.perm &&& REG_PERM_WR ≠ 0
      ∧ reg.write_cb = none
      ∧ register_chk_value_range reg
          { n := ((data.getD (2 * i) 0 * 256 + data.getD (2 * i + 1) 0 : Nat) : Int),
            tag := _integer } = false)
    (hok : ∀ i, i < cnt → ∀ val s, 0 ≤ (save val (r + 40001 + i) s).1)
    (hfuel : cnt ≤ fuel) (hbuf : 5 ≤ buf_sz) :
    ∃ buf, yam_app_input g fuel slave
          { payload := buf_of (16 :: r / 256 :: r % 256 :: cnt / 256 :: cnt % 256 :: (2 * cnt)
              :: data) rest,
            len := 6 + data.length } resp_buf buf_sz s
        = some (5, buf, save_walk save
            (fun i => data.getD (2 * i) 0 * 256 + data.getD (2 * i + 1) 0) cnt (r + 40001) s)
      ∧ buf_take buf 5 = [16, r / 256, r % 256, cnt / 256, cnt % 256] := by
  have haddr : ∀ i, i < cnt → r + 40001 + i < 65536 := by
    intro i hi
    obtain ⟨reg, hfind, _⟩ := hreg i hi
    have := register_find_exact _ _ _ hfind
    have := hwf reg this.1
    omega
  have hlen6 : 6 ≤ (16 :: r / 256 :: r % 256 :: cnt / 256 :: cnt % 256 :: (2 * cnt)
      :: data).length := by simp only [List.length_cons]; omega
  have hshift : ∀ j, j < data.length →
      buf_shift (buf_shift (buf_of (16 :: r / 256 :: r % 256 :: cnt / 256 :: cnt % 256
        :: (2 * cnt) :: data) rest) 1) 5 j = data.getD j 0 := by
    intro j hj
    show buf_of _ rest (j + 5 + 1) = _
    exact buf_of_cons6 _ _ _ _ _ _ data rest j hj
  have hrun := store_ref_mem_regs g save hsave
    (buf_shift (buf_shift (buf_of (16 :: r / 256 :: r % 256 :: cnt / 256 :: cnt % 256
        :: (2 * cnt) :: data) rest) 1) 5) cnt fuel (r + 40001) 0 g.junk s
    (fun i => data.getD (2 * i) 0 * 256 + data.getD (2 * i + 1) 0) hfuel hcnt haddr
    (by
      intro i hi
      rw [Nat.zero_add, hshift _ (by omega), hshift _ (by omega)]
      exact ⟨getD_lt_of_forall data hdata _ (by omega),
        getD_lt_of_forall data hdata _ (by omega), rfl⟩)
    hreg hok
  refine ⟨wr_resp 16 r (cnt : Int) resp_buf, ?_, ?_⟩
  · rw [yam_app_input_write_regs _ _ _ _ _ _ _ (by simp [buf_of])]
    have e0 : u8 (((6 + data.length : Nat) : Int) - 1) = 5 + data.length := by
      unfold u8; omega
    have e1 : u16 ((buf_shift (buf_of (16 :: r / 256 :: r % 256 :: cnt / 256 :: cnt % 256
        :: (2 * cnt) :: data) rest) 1 0 : Nat) * 256
        + (buf_shift (buf_of (16 :: r / 256 :: r % 256 :: cnt / 256 :: cnt % 256
        :: (2 * cnt) :: data) rest) 1 1 : Nat)) = r := by
      simp [buf_shift, buf_of, u16]; omega
    have e2 : u16 ((buf_shift (buf_of (16 :: r / 256 :: r % 256 :: cnt / 256 :: cnt % 256
        :: (2 * cnt) :: data) rest) 1 2 : Nat) * 256
        + (buf_shift (buf_of (16 :: r / 256 :: r % 256 :: cnt / 256 :: cnt % 256
        :: (2 * cnt) :: data) rest) 1 3 : Nat)) = cnt := by
      simp [buf_shift, buf_of, u16]; omega
    have e3 : buf_shift (buf_of (16 :: r / 256 :: r % 256 :: cnt / 256 :: cnt % 256
        :: (2 * cnt) :: data) rest) 1 4 = 2 * cnt := by
      simp [buf_shift, buf_of]
    have e4 : u8 ((2 * cnt : Nat) : Int) = 2 * cnt := by unfold u8; omega
    have e5 : u16 ((r : Int) + HOLDING_REGS_REF_FIRST) = u16 ((r + 40001 : Nat) : Int) := by
      unfold HOLDING_REGS_REF_FIRST; push_cast; rfl
    have c1 : ¬ (5 + data.length < 5) := by omega
    have c2 : ¬ (5 + data.length < 5 + 2 * cnt) := by omega
    have c3 : ¬ (((2 * cnt : Nat) : Int) ≠ (cnt : Int) * REGISTER_SIZE) := by
      unfold REGISTER_SIZE; omega
    have c4 : ¬ (buf_sz < 5) := by omega
    unfold write_regs_handlers
    simp only [e0, e1, e2, e3, e4, e5, c1, c2, c3, c4, if_false, hrun, Option.map_some',
      catch_modbus_exception, lt_irrefl]
  · rw [buf_take_wr_resp]
    simp only [List.cons.injEq, and_true]
    refine ⟨by decide, ?_, ?_, ?_, ?_⟩ <;> unfold u8 <;> omega

/-- Witness of C5: the request `10 00 00 00 02 04 12 34 AB CD`. -/
theorem C5_write_multiple_registers_witness :
    run_pdu (rec_globals [plain_reg _ 40001 1 _integer 0 REG_PERM_RW,
        plain_reg _ 40002 1 _integer 0 REG_PERM_WR] (fun _ => 0)) 2
        [16, 0, 0, 0, 2, 4, 0x12, 0x34, 0xAB, 0xCD] 5 []
      = some (5, [16, 0, 0, 0, 2], [cb_call.save 40001 0x1234, cb_call.save 40002 0xABCD]) := by
  obtain ⟨buf, hrun, hb⟩ := C5_write_multiple_registers
    (rec_globals [plain_reg _ 40001 1 _integer 0 REG_PERM_RW,
        plain_reg _ 40002 1 _integer 0 REG_PERM_WR] (fun _ => 0))
    (fun val ref s => (0, s ++ [cb_call.save ref val.n])) 2 1 0 2 [0x12, 0x34, 0xAB, 0xCD]
    (fun _ => 0) (fun _ => 0) 253 [] rfl
    (by intro reg hreg; simp [rec_globals, plain_reg] at hreg; rcases hreg with h | h <;> simp [h])
    (by decide) (by decide) (by decide) (by decide) (by decide)
    (by
      intro i hi
      interval_cases i
      · exact ⟨plain_reg _ 40001 1 _integer 0 REG_PERM_RW, rfl, rfl, rfl, rfl, by decide, rfl, rfl⟩
      · exact ⟨plain_reg _ 40002 1 _integer 0 REG_PERM_WR, rfl, rfl, rfl, rfl, by decide, rfl, rfl⟩)
    (by intro i hi val s; simp)
    (by decide) (by decide)
  unfold run_pdu
  erw [hrun]
  simp [hb, save_walk]

/-! ## Walks that end in an exception -/

theorem load_ref_mem_round_some {σ : Type} (g : globals σ) (fuel : Nat) (c c1 : mem_cfg σ)
    (hlen : c.len ≠ 0) (h : load_ref_mem_round g c = some c1) :
    load_ref_mem g (fuel + 1) c.start c.len c.buf c.p c.val c.s
      = load_ref_mem g fuel c1.start c1.len c1.buf c1.p c1.val c1.s := by
  rw [load_ref_mem_step g fuel _ _ _ _ _ _ hlen]
  unfold load_ref_mem_round at h
  rcases hrd : register_read g.store_cb g.registers c.start 0 c.val c.s with ⟨n, _ | reg, val1, s1⟩
  · rw [hrd] at h; simp at h
  · rw [hrd] at h
    simp only at h ⊢
    by_cases c1' : n < 0
    · simp [c1'] at h
    · by_cases c2 : (c.len : Int) < n * REGISTER_SIZE
      · simp [c1', c2] at h
      · by_cases c3 : (regval_encode_mb g.float_fmt val1 c.buf c.p reg.tag reg.size
            (reg_mb_scale reg)).1 ≠ 0
        · simp [c1', c2, c3] at h
        · simp only [c1', c2, c3, if_false, Option.some.injEq] at h
          simp only [c1', c2, c3, if_false]
          rw [← h]

theorem load_ref_mem_rounds_run {σ : Type} (g : globals σ) :
    ∀ (k fuel : Nat) (c0 c : mem_cfg σ), load_ref_mem_rounds g k c0 = some c →
      load_ref_mem g (fuel + k) c0.start c0.len c0.buf c0.p c0.val c0.s
        = load_ref_mem g fuel c.start c.len c.buf c.p c.val c.s := by
  intro k
  induction k with
  | zero =>
    intro fuel c0 c h
    simp only [load_ref_mem_rounds, Option.some.injEq] at h
    rw [h]; rfl
  | succ k ih =>
    intro fuel c0 c h
    rw [load_ref_mem_rounds] at h
    by_cases hlen : c0.len = 0
    · simp [hlen] at h
    · rw [if_neg hlen] at h
      rcases hr : load_ref_mem_round g c0 with _ | c1
      · rw [hr] at h; simp at h
      · rw [hr] at h
        simp only at h
        rw [show fuel + (k + 1) = (fuel + k) + 1 by omega,
          load_ref_mem_round_some g _ c0 c1 hlen hr]
        exact ih fuel c1 c h

theorem store_ref_mem_round_some {σ : Type} (g : globals σ) (fuel : Nat) (c c1 : mem_cfg σ)
    (hlen : c.len ≠ 0) (h : store_ref_mem_round g c = some c1) :
    store_ref_mem g (fuel + 1) c.start c.len c.buf c.p c.val c.s
      = store_ref_mem g fuel c1.start c1.len c1.buf c1.p c1.val c1.s := by
  rw [store_ref_mem_step g fuel _ _ _ _ _ _ hlen]
  unfold store_ref_mem_round at h
  rcases hrd : register_find g.registers c.start 0 with _ | reg
  · rw [hrd] at h; simp at h
  · rw [hrd] at h
    simp only at h ⊢
    by_cases c1' : (c.len : Int) < reg.size * REGISTER_SIZE
    · simp [c1'] at h
    · by_cases c2 : (regval_decode_mb g.float_fmt c.buf c.p c.val reg.tag reg.size
          (reg_mb_scale reg)).1 ≠ 0
      · simp [c1', c2] at h
      · by_cases c3 : (register_write g.store_cb c.start 0 reg
            (regval_decode_mb g.float_fmt c.buf c.p c.val reg.tag reg.size
              (reg_mb_scale reg)).2 c.s).1 < 0
        · simp [c1', c2, c3] at h
        · simp only [c1', c2, c3, if_false, Option.some.injEq] at h
          simp only [c1', c2, c3, if_false]
          rw [← h]

theorem store_ref_mem_rounds_run {σ : Type} (g : globals σ) :
    ∀ (k fuel : Nat) (c0 c : mem_cfg σ), store_ref_mem_rounds g k c0 = some c →
      store_ref_mem g (fuel + k) c0.start c0.len c0.buf c0.p c0.val c0.s
        = store_ref_mem g fuel c.start c.len c.buf c.p c.val c.s := by
  intro k
  induction k with
  | zero =>
    intro fuel c0 c h
    simp only [store_ref_mem_rounds, Option.some.injEq] at h
    rw [h]; rfl
  | succ k ih =>
    intro fuel c0 c h
    rw [store_ref_mem_rounds] at h
    by_cases hlen : c0.len = 0
    · simp [hlen] at h
    · rw [if_neg hlen] at h
      rcases hr : store_ref_mem_round g c0 with _ | c1
      · rw [hr] at h; simp at h
      · rw [hr] at h
        simp only at h
        rw [show fuel + (k + 1) = (fuel + k) + 1 by omega,
          store_ref_mem_round_some g _ c0 c1 hlen hr]
        exact ih fuel c1 c h

theorem load_ref_mem_fails {σ : Type} (g : globals σ) (fuel : Nat) (c : mem_cfg σ)
    (reg : Option (reg_t σ)) (hlen : c.len ≠ 0)
    (h : register_read g.store_cb g.registers c.start 0 c.val c.s
      = (-REG_ERR_ADDRESS_NOT_FOUND, reg, c.val, c.s)) :
    load_ref_mem g (fuel + 1) c.start c.len c.buf c.p c.val c.s
      = some (-REG_ERR_ADDRESS_NOT_FOUND, c.buf, c.s) := by
  rw [load_ref_mem_step g fuel _ _ _ _ _ _ hlen, h]
  cases reg with
  | none => rfl
  | some reg =>
    have : -REG_ERR_ADDRESS_NOT_FOUND < 0 := by decide
    simp only [this, if_true]

theorem register_read_denied {σ : Type} (g : globals σ) (ref options : Nat) (val : regval_t) (s : σ)
    (reg : reg_t σ) (h : register_find g.registers ref options = some reg)
    (hperm : reg.perm &&& REG_PERM_RD = 0) :
    register_read g.store_cb g.registers ref options val s
      = (-REG_ERR_ADDRESS_NOT_FOUND, some reg, val, s) := by
  unfold register_read; rw [h]; simp only [hperm, if_true]

theorem read_holding_walk_fails {σ : Type} (g : globals σ) (fuel slave r cnt : Nat)
    (rest resp_buf : buf_t) (buf_sz : Nat) (s : σ) (k : Nat) (c : mem_cfg σ)
    (reg : Option (reg_t σ))
    (hr : r < 65536) (hcnt2 : cnt ≤ 125) (hbuf : 2 + 2 * cnt ≤ buf_sz)
    (hwalk : load_ref_mem_rounds g k (holding_read_cfg g r cnt resp_buf s) = some c)
    (hlen : c.len ≠ 0)
    (hread : register_read g.store_cb g.registers c.start 0 c.val c.s
      = (-REG_ERR_ADDRESS_NOT_FOUND, reg, c.val, c.s))
    (hfuel : k < fuel) :
    ∃ buf, yam_app_input g fuel slave
          { payload := buf_of [3, r / 256, r % 256, cnt / 256, cnt % 256] rest, len := 5 }
          resp_buf buf_sz s = some (2, buf, c.s)
      ∧ buf_take buf 2 = [0x83, 0x02] := by
  obtain ⟨f, rfl⟩ : ∃ f, fuel = f + 1 + k := ⟨fuel - 1 - k, by omega⟩
  have hrun := load_ref_mem_rounds_run g k (f + 1) _ c hwalk
  rw [load_ref_mem_fails g f c reg hlen hread] at hrun
  refine ⟨(make_exception 3 2 c.buf).2, ?_, by rw [buf_take_make_exception]; decide⟩
  rw [yam_app_input_holding _ _ _ _ _ _ _ (by simp [buf_of])]
  have e0 : u8 (((5 : Nat) : Int) - 1) = 4 := by decide
  have e1 : u16 ((buf_shift (buf_of [3, r / 256, r % 256, cnt / 256, cnt % 256] rest) 1 0 : Nat)
      * 256 + (buf_shift (buf_of [3, r / 256, r % 256, cnt / 256, cnt % 256] rest) 1 1 : Nat)) = r := by
    simp [buf_shift, buf_of, u16]; omega
  have e2 : u16 ((buf_shift (buf_of [3, r / 256, r % 256, cnt / 256, cnt % 256] rest) 1 2 : Nat)
      * 256 + (buf_shift (buf_of [3, r / 256, r % 256, cnt / 256, cnt % 256] rest) 1 3 : Nat)) = cnt := by
    simp [buf_shift, buf_of, u16]; omega
  have e3 : u8 ((cnt : Int) * REGISTER_SIZE) = 2 * cnt := by unfold u8 REGISTER_SIZE; omega
  have c0 : ¬ (buf_sz < 2 + u8 ((cnt : Int) * REGISTER_SIZE)) := by rw [e3]; omega
  unfold read_holding_regs_handler
  simp only [e0, ne_eq, not_true_eq_false, if_false, e1, e2, c0]
  simp only [holding_read_cfg] at hrun
  rw [hrun]
  simp [catch_modbus_exception, REG_ERR_ADDRESS_NOT_FOUND, make_exception]


theorem store_ref_mem_denied {σ : Type} (g : globals σ) (fuel : Nat) (c : mem_cfg σ)
    (reg : reg_t σ) (hlen : c.len ≠ 0)
    (hfind : register_find g.registers c.start 0 = some reg)
    (hperm : reg.perm &&& REG_PERM_WR = 0) :
    store_ref_mem g (fuel + 1) c.start c.len c.buf c.p c.val c.s
      = some (-REG_ERR_ADDRESS_NOT_FOUND, c.s) := by
  rw [store_ref_mem_step g fuel _ _ _ _ _ _ hlen, hfind]
  simp only
  by_cases c1 : (c.len : Int) < reg.size * REGISTER_SIZE
  · rw [if_pos c1]
  · rw [if_neg c1]
    by_cases c2 : (regval_decode_mb g.float_fmt c.buf c.p c.val reg.tag reg.size
        (reg_mb_scale reg)).1 ≠ 0
    · rw [if_pos c2]
    · rw [if_neg c2]
      have hw : ∀ val, register_write g.store_cb c.start 0 reg val c.s
          = (-REG_ERR_ADDRESS_NOT_FOUND, c.s) := by
        intro val; unfold register_write; simp only [hperm, if_true]
      have : -REG_ERR_ADDRESS_NOT_FOUND < 0 := by decide
      simp only [hw, this, if_true]

theorem store_walk_denied {σ : Type} (g : globals σ) (fuel k : Nat) (c0 c : mem_cfg σ)
    (reg : reg_t σ) (hwalk : store_ref_mem_rounds g k c0 = some c) (hlen : c.len ≠ 0)
    (hfind : register_find g.registers c.start 0 = some reg)
    (hperm : reg.perm &&& REG_PERM_WR = 0) (hfuel : k < fuel) :
    store_ref_mem g fuel c0.start c0.len c0.buf c0.p c0.val c0.s
      = some (-REG_ERR_ADDRESS_NOT_FOUND, c.s) := by
  obtain ⟨f, rfl⟩ : ∃ f, fuel = f + 1 + k := ⟨fuel - 1 - k, by omega⟩
  rw [store_ref_mem_rounds_run g k (f + 1) _ c hwalk]
  exact store_ref_mem_denied g f c reg hlen hfind hperm

/-- C7: permission gating.  `c` is a configuration of the walk (after `k`
successful rounds) at which `register_find` returns the register `reg`.
(1) A Write Single Register request that so reaches a register without the
WRITE bit yields the exception `[0x86, 0x02]`; (2) a Write Multiple Registers
request yields `[0x90, 0x02]`; (3) a Read Holding Registers request that
reaches a register without the READ bit yields `[0x83, 0x02]`.  In each case
the host state returned is the state `c.s` in which the register was reached:
no callback is invoked for it. -/
theorem C7_permission_gating {σ : Type} (g : globals σ) (fuel slave : Nat)
    (rest resp_buf : buf_t) (buf_sz : Nat) (s : σ) (k : Nat) (c : mem_cfg σ) (reg : reg_t σ)
    (hlen : c.len ≠ 0) (hfind : register_find g.registers c.start 0 = some reg)
    (hfuel : k < fuel) :
    (∀ r_hi r_lo w_hi w_lo : Nat, r_hi < 256 → r_lo < 256 → 5 ≤ buf_sz →
      store_ref_mem_rounds g k (holding_write_cfg g (256 * r_hi + r_lo) 2
        (buf_shift (buf_of [6, r_hi, r_lo, w_hi, w_lo] rest) 3) s) = some c →
      reg.perm &&& REG_PERM_WR = 0 →
      ∃ buf, yam_app_input g fuel slave
            { payload := buf_of [6, r_hi, r_lo, w_hi, w_lo] rest, len := 5 } resp_buf buf_sz s
          = some (2, buf, c.s)
        ∧ buf_take buf 2 = [0x86, 0x02])
    ∧ (∀ (r cnt : Nat) (data : List Nat), r < 65536 → 2 * cnt < 256 → 2 * cnt ≤ data.length →
      6 + data.length ≤ 255 → 5 ≤ buf_sz →
      store_ref_mem_rounds g k (holding_write_cfg g r (2 * cnt)
        (buf_shift (buf_of (16 :: r / 256 :: r % 256 :: cnt / 256 :: cnt % 256 :: (2 * cnt)
          :: data) rest) 6) s) = some c →
      reg.perm &&& REG_PERM_WR = 0 →
      ∃ buf, yam_app_input g fuel slave
            { payload := buf_of (16 :: r / 256 :: r % 256 :: cnt / 256 :: cnt % 256 :: (2 * cnt)
                :: data) rest,
              len := 6 + data.length } resp_buf buf_sz s
          = some (2, buf, c.s)
        ∧ buf_take buf 2 = [0x90, 0x02])
    ∧ (∀ r cnt : Nat, r < 65536 → cnt ≤ 125 → 2 + 2 * cnt ≤ buf_sz →
      load_ref_mem_rounds g k (holding_read_cfg g r cnt resp_buf s) = some c →
      reg.perm &&& REG_PERM_RD = 0 →
      ∃ buf, yam_app_input g fuel slave
            { payload := buf_of [3, r / 256, r % 256, cnt / 256, cnt % 256] rest, len := 5 }
            resp_buf buf_sz s
          = some (2, buf, c.s)
        ∧ buf_take buf 2 = [0x83, 0x02]) := by
  refine ⟨?_, ?_, ?_⟩
  · intro r_hi r_lo w_hi w_lo hr1 hr2 hbuf hwalk hperm
    have hrun := store_walk_denied g fuel k _ c reg hwalk hlen hfind hperm hfuel
    refine ⟨(make_exception 6 2 resp_buf).2, ?_, by rw [buf_take_make_exception]; decide⟩
    rw [yam_app_input_write_reg _ _ _ _ _ _ _ (by simp [buf_of])]
    have e0 : u8 (((5 : Nat) : Int) - 1) = 4 := by decide
    have e1 : u16 ((buf_shift (buf_of [6, r_hi, r_lo, w_hi, w_lo] rest) 1 0 : Nat)
        * 256 + (buf_shift (buf_of [6, r_hi, r_lo, w_hi, w_lo] rest) 1 1 : Nat))
        = 256 * r_hi + r_lo := by
      simp [buf_shift, buf_of, u16]; omega
    have e3 : u8 REGISTER_SIZE = 2 := by decide
    have e4 : buf_shift (buf_shift (buf_of [6, r_hi, r_lo, w_hi, w_lo] rest) 1) 2
        = buf_shift (buf_of [6, r_hi, r_lo, w_hi, w_lo] rest) 3 := rfl
    have c0 : ¬ (buf_sz < 5) := by omega
    unfold write_regs_handler
    simp only [e0, lt_irrefl, if_false, e1, e3, e4, c0]
    simp only [holding_write_cfg] at hrun
    rw [hrun]
    simp [catch_modbus_exception, REG_ERR_ADDRESS_NOT_FOUND, make_exception]
  · intro r cnt data hr hcnt hdlen hpdu hbuf hwalk hperm
    have hrun := store_walk_denied g fuel k _ c reg hwalk hlen hfind hperm hfuel
    refine ⟨(make_exception 16 2 resp_buf).2, ?_, by rw [buf_take_make_exception]; decide⟩
    rw [yam_app_input_write_regs _ _ _ _ _ _ _ (by simp [buf_of])]
    have e0 : u8 (((6 + data.length : Nat) : Int) - 1) = 5 + data.length := by
      unfold u8; omega
    have e1 : u16 ((buf_shift (buf_of (16 :: r / 256 :: r % 256 :: cnt / 256 :: cnt % 256
        :: (2 * cnt) :: data) rest) 1 0 : Nat) * 256
        + (buf_shift (buf_of (16 :: r / 256 :: r % 256 :: cnt / 256 :: cnt % 256
        :: (2 * cnt) :: data) rest) 1 1 : Nat)) = r := by
      simp [buf_shift, buf_of, u16]; omega
    have e2 : u16 ((buf_shift (buf_of (16 :: r / 256 :: r % 256 :: cnt / 256 :: cnt % 256
        :: (2 * cnt) :: data) rest) 1 2 : Nat) * 256
        + (buf_shift (buf_of (16 :: r / 256 :: r % 256 :: cnt / 256 :: cnt % 256
        :: (2 * cnt) :: data) rest) 1 3 : Nat)) = cnt := by
      simp [buf_shift, buf_of, u16]; omega
    have e3 : buf_shift (buf_of (16 :: r / 256 :: r % 256 :: cnt / 256 :: cnt % 256
        :: (2 * cnt) :: data) rest) 1 4 = 2 * cnt := by
      simp [buf_shift, buf_of]
    have e4 : u8 ((2 * cnt : Nat) : Int) = 2 * cnt := by unfold u8; omega
    have e5 : buf_shift (buf_shift (buf_of (16 :: r / 256 :: r % 256 :: cnt / 256 :: cnt % 256
        :: (2 * cnt) :: data) rest) 1) 5
        = buf_shift (buf_of (16 :: r / 256 :: r % 256 :: cnt / 256 :: cnt % 256
        :: (2 * cnt) :: data) rest) 6 := rfl
    have c1 : ¬ (5 + data.length < 5) := by omega
    have c2 : ¬ (5 + data.length < 5 + 2 * cnt) := by omega
    have c3 : ¬ (((2 * cnt : Nat) : Int) ≠ (cnt : Int) * REGISTER_SIZE) := by
      unfold REGISTER_SIZE; omega
    have c4 : ¬ (buf_sz < 5) := by omega
    unfold write_regs_handlers
    simp only [e0, e1, e2, e3, e4, e5, c1, c2, c3, c4, if_false]
    simp only [holding_write_cfg] at hrun
    rw [hrun]
    simp [catch_modbus_exception, REG_ERR_ADDRESS_NOT_FOUND, make_exception]
  · intro r cnt hr hcnt hbuf hwalk hperm
    exact read_holding_walk_fails g fuel slave r cnt rest resp_buf buf_sz s k c (some reg) hr hcnt
      hbuf hwalk hlen (register_read_denied g _ _ _ _ reg hfind hperm) hfuel

/-- Witness of C7: a read-only register 40001 and a write-only register
40002; writing 40001 (functions 6 and 16) and reading 40002 is refused, and no
callback is invoked for the refused register. -/
theorem C7_permission_gating_witness :
    run_pdu (rec_globals [plain_reg _ 40001 1 _integer 0 REG_PERM_RD,
        plain_reg _ 40002 1 _integer 0 REG_PERM_WR] (fun _ => 7)) 2
        [6, 0, 0, 0xAB, 0xCD] 2 [] = some (2, [0x86, 0x02], [])
      ∧ run_pdu (rec_globals [plain_reg _ 40001 1 _integer 0 REG_PERM_RD,
        plain_reg _ 40002 1 _integer 0 REG_PERM_WR] (fun _ => 7)) 2
        [16, 0, 0, 0, 1, 2, 0xAB, 0xCD] 2 [] = some (2, [0x90, 0x02], [])
      ∧ run_pdu (rec_globals [plain_reg _ 40001 1 _integer 0 REG_PERM_RD,
        plain_reg _ 40002 1 _integer 0 REG_PERM_WR] (fun _ => 7)) 2
        [3, 0, 0, 0, 2] 2 [] = some (2, [0x83, 0x02], [cb_call.load 40001]) := by
  refine ⟨?_, ?_, ?_⟩
  · obtain ⟨buf, hrun, hb⟩ := (C7_permission_gating
      (rec_globals [plain_reg _ 40001 1 _integer 0 REG_PERM_RD,
        plain_reg _ 40002 1 _integer 0 REG_PERM_WR] (fun _ => 7)) 2 1 (fun _ => 0) (fun _ => 0)
      253 [] 0
      { start := 40001, len := 2, buf := buf_shift (buf_of [6, 0, 0, 0xAB, 0xCD] (fun _ => 0)) 3,
        p := 0, val := { n := 0, tag := 0 }, s := [] }
      (plain_reg _ 40001 1 _integer 0 REG_PERM_RD) (by decide) rfl (by decide)).1
      0 0 0xAB 0xCD (by decide) (by decide) (by decide) rfl (by decide)
    unfold run_pdu
    erw [hrun]
    simp [hb]
  · obtain ⟨buf, hrun, hb⟩ := (C7_permission_gating
      (rec_globals [plain_reg _ 40001 1 _integer 0 REG_PERM_RD,
        plain_reg _ 40002 1 _integer 0 REG_PERM_WR] (fun _ => 7)) 2 1 (fun _ => 0) (fun _ => 0)
      253 [] 0
      { start := 40001, len := 2,
        buf := buf_shift (buf_of [16, 0, 0, 0, 1, 2, 0xAB, 0xCD] (fun _ => 0)) 6,
        p := 0, val := { n := 0, tag := 0 }, s := [] }
      (plain_reg _ 40001 1 _integer 0 REG_PERM_RD) (by decide) rfl (by decide)).2.1
      0 1 [0xAB, 0xCD] (by decide) (by decide) (by decide) (by decide) (by decide) rfl (by decide)
    unfold run_pdu
    erw [hrun]
    simp [hb]
  · obtain ⟨buf, hrun, hb⟩ := (C7_permission_gating
      (rec_globals [plain_reg _ 40001 1 _integer 0 REG_PERM_RD,
        plain_reg _ 40002 1 _integer 0 REG_PERM_WR] (fun _ => 7)) 2 1 (fun _ => 0) (fun _ => 0)
      253 [] 1
      { start := 40002, len := 2,
        buf := integer_to_mb_short { n := 7, tag := _integer } 0 (fun _ => 0) 2,
        p := 4, val := { n := 7, tag := _integer }, s := [cb_call.load 40001] }
      (plain_reg _ 40002 1 _integer 0 REG_PERM_WR) (by decide) rfl (by decide)).2.2
      0 2 (by decide) (by decide) (by decide) rfl (by decide)
    unfold run_pdu
    erw [hrun]
    simp [hb]


/-! ## Range gating and internal errors: what the code does -/

/-- C8, evaluated at the failing input: a writable INTEGER register with
`lower_bound` set and `min = 0.5` (pattern 0x3F000000), value 0.
`regval_compare_f` returns `(int)(0 - 0.5) = 0`, so the range check passes,
`register_write` invokes `save` and returns the size 1, and the request
`06 00 00 00 00` is echoed instead of being answered with exception 3. -/
theorem C8_range_check_truncates :
    regval_compare_f { n := 0, tag := _integer } 0x3F000000 = 0
      ∧ register_write (rec_store_cb (fun _ => 0)) 40001 0
          { plain_reg (List cb_call) 40001 1 _integer 0 REG_PERM_RW with
            lower_bound := true, min := 0x3F000000 }
          { n := 0, tag := _integer } [] = (1, [cb_call.save 40001 0])
      ∧ run_pdu (rec_globals [{ plain_reg (List cb_call) 40001 1 _integer 0 REG_PERM_RW with
            lower_bound := true, min := 0x3F000000 }] (fun _ => 0)) 1 [6, 0, 0, 0, 0] 5 []
          = some (5, [6, 0, 0, 0, 0], [cb_call.save 40001 0]) := by
  decide

/-- C9, evaluated at failing inputs: a Read File and a Write File request of
type 16 with no backend registered, and a Write File request whose backend
returns -1, are answered with exception code 1 (`REG_ERR_INTERNAL = 1`), not
with code 4. -/
theorem C9_internal_error_is_code_1 :
    run_pdu (rec_globals [] (fun _ => 0)) 0 [20, 7, 16, 0, 1, 0, 0, 0, 0] 2 []
        = some (2, [0x94, 0x01], [])
      ∧ run_pdu (rec_globals [] (fun _ => 0)) 0 [21, 8, 16, 0, 1, 0xFF, 0xFF, 5, 0, 0x41] 2 []
        = some (2, [0x95, 0x01], [])
      ∧ run_pdu (rec_globals_io rec_io_failing) 0 [21, 8, 16, 0, 1, 0xFF, 0xFF, 5, 0, 0x41] 2 []
        = some (2, [0x95, 0x01],
            [cb_call.rec_write 16 1 5 1 { content := [0x41], len := 1, remaining_recs_num := 0 }])
      ∧ run_pdu (rec_globals_io rec_io_failing) 0 [20, 7, 16, 0, 1, 0xFF, 0xFF, 0, 9] 2 []
        = some (2, [0x94, 0x01], [cb_call.rec_read 16 1 9 1]) := by
  decide

/-! ## Reading coils -/

theorem int_ediv_ediv (a : Int) (b c : Nat) (hb : 0 < b) (hc : 0 < c) :
    a / (b : Int) / (c : Int) = a / ((b * c : Nat) : Int) := by
  have hb' : (0 : Int) < b := by exact_mod_cast hb
  have hc' : (0 : Int) < c := by exact_mod_cast hc
  have hbc' : (0 : Int) < ((b * c : Nat) : Int) := by exact_mod_cast Nat.mul_pos hb hc
  cases a with
  | ofNat n =>
    show ((n : Int) / (b : Int)) / (c : Int) = (n : Int) / ((b * c : Nat) : Int)
    norm_cast
    exact Nat.div_div_eq_div_mul n b c
  | negSucc n =>
    rw [Int.negSucc_ediv n hb', Int.negSucc_ediv n hbc']
    have h1 : (n : Int).ediv (b : Int) = ((n / b : Nat) : Int) := by
      show (n : Int) / (b : Int) = _
      norm_cast
    have h2 : (n : Int).ediv ((b * c : Nat) : Int) = ((n / (b * c) : Nat) : Int) := by
      show (n : Int) / ((b * c : Nat) : Int) = _
      norm_cast
    rw [h1, h2]
    have : -(((n / b : Nat) : Int) + 1) = Int.negSucc (n / b) := by
      rw [Int.negSucc_eq]
    rw [this, Int.negSucc_ediv _ hc']
    have h3 : ((n / b : Nat) : Int).ediv (c : Int) = ((n / b / c : Nat) : Int) := by
      show ((n / b : Nat) : Int) / (c : Int) = _
      norm_cast
    rw [h3, Nat.div_div_eq_div_mul]

theorem int_bit_shift (v : Int) (a q : Nat) : int_bit (v / 2 ^ a) q = int_bit v (a + q) := by
  unfold int_bit
  have h := int_ediv_ediv v (2 ^ a) (2 ^ q) (Nat.two_pow_pos a) (Nat.two_pow_pos q)
  push_cast at h
  rw [h, ← pow_add]

theorem testBit_u8_or (x y t : Nat) :
    (u8 ((x ||| y : Nat) : Int)).testBit t = (decide (t < 8) && (x.testBit t || y.testBit t)) := by
  have : u8 ((x ||| y : Nat) : Int) = (x ||| y) % 2 ^ 8 := by
    unfold u8; omega
  rw [this, Nat.testBit_mod_two_pow, Nat.testBit_or]

theorem testBit_int_and_bit (n : Int) (off t : Nat) :
    (int_and_bit n off).testBit t = (decide (t = off) && int_bit n off) := by
  unfold int_and_bit int_bit
  rcases Int.emod_two_eq (n / 2 ^ off) with h | h
  · rw [h]; simp
  · rw [h]
    simp only [Int.toNat_one, Nat.one_mul, decide_True, Bool.and_true]
    rw [Nat.testBit_two_pow]
    by_cases c : t = off
    · simp [c]
    · have : ¬ off = t := fun e => c e.symm
      simp [c, this]

theorem load_ref_bitmap_bits_spec :
    ∀ (m : Nat) (n : Int) (start : Nat) (buf : buf_t) (p off : Nat) (val : regval_t),
      (m : Int) ≤ n → off < 8 → (∀ t, off ≤ t → (buf p).testBit t = false) →
      (load_ref_bitmap_bits m n start buf p off val).nbits = 0
      ∧ (∀ j, j < p → (load_ref_bitmap_bits m n start buf p off val).buf j = buf j)
      ∧ (∀ q, q < off →
          ((load_ref_bitmap_bits m n start buf p off val).buf p).testBit q = (buf p).testBit q)
      ∧ (∀ q, off ≤ q → q < off + m →
          ((load_ref_bitmap_bits m n start buf p off val).buf (p + q / 8)).testBit (q % 8)
            = int_bit val.n q)
      ∧ (∀ q, off + m ≤ q → q / 8 = (off + m) / 8 →
          ((load_ref_bitmap_bits m n start buf p off val).buf (p + q / 8)).testBit (q % 8)
            = false) := by
  intro m
  induction m with
  | zero =>
    intro n start buf p off val _ hoff hz
    refine ⟨rfl, fun _ _ => rfl, fun _ _ => rfl, fun q h1 h2 => by omega, ?_⟩
    intro q h1 h2
    have hq : q < 8 := by omega
    have e1 : q / 8 = 0 := by omega
    have e2 : q % 8 = q := by omega
    show (buf (p + q / 8)).testBit (q % 8) = false
    rw [e1, e2]
    exact hz q (by omega)
  | succ m ih =>
    intro n start buf p off val hn hoff hz
    have hn0 : ¬ n = 0 := by omega
    have hB1 : ∀ t, (buf_set buf p (u8 ((buf p ||| int_and_bit val.n off : Nat) : Int)) p).testBit t
        = (decide (t < 8) && ((buf p).testBit t || (decide (t = off) && int_bit val.n off))) := by
      intro t
      rw [buf_set_same, testBit_u8_or, testBit_int_and_bit]
    rw [load_ref_bitmap_bits]
    simp only [hn0, if_false]
    by_cases hw : off + 1 = 8
    · simp only [hw, if_true]
      have hoff7 : off = 7 := by omega
      subst hoff7
      obtain ⟨i1, i2, _, i4, i5⟩ := ih (n - 1) (u16 (start + 1))
        (buf_set (buf_set buf p (u8 ((buf p ||| int_and_bit val.n 7 : Nat) : Int))) (p + 1) 0)
        (p + 1) 0 { val with n := val.n / 256 } (by omega) (by omega)
        (by intro t _; rw [buf_set_same]; simp)
      have hp : (load_ref_bitmap_bits m (n - 1) (u16 (start + 1))
          (buf_set (buf_set buf p (u8 ((buf p ||| int_and_bit val.n 7 : Nat) : Int))) (p + 1) 0)
          (p + 1) 0 { val with n := val.n / 256 }).buf p
          = buf_set buf p (u8 ((buf p ||| int_and_bit val.n 7 : Nat) : Int)) p := by
        rw [i2 p (by omega), buf_set_ne _ _ _ _ (by omega)]
      refine ⟨i1, ?_, ?_, ?_, ?_⟩
      · intro j hj
        rw [i2 j (by omega), buf_set_ne _ _ _ _ (by omega), buf_set_ne _ _ _ _ (by omega)]
      · intro q hq
        rw [hp, hB1]
        have : ¬ q = 7 := by omega
        simp [this, show q < 8 by omega]
      · intro q h1 h2
        by_cases hq7 : q = 7
        · subst hq7
          have e1 : p + 7 / 8 = p := by omega
          rw [e1, hp, hB1, hz 7 (by omega)]
          simp
        · obtain ⟨q', rfl⟩ : ∃ q', q = q' + 8 := ⟨q - 8, by omega⟩
          have e1 : p + (q' + 8) / 8 = p + 1 + q' / 8 := by omega
          have e2 : (q' + 8) % 8 = q' % 8 := by omega
          rw [e1, e2, i4 q' (by omega) (by omega)]
          have := int_bit_shift val.n 8 q'
          rw [show (8 + q') = q' + 8 by omega] at this
          rw [← this]
          norm_num
      · intro q h1 h2
        obtain ⟨q', rfl⟩ : ∃ q', q = q' + 8 := ⟨q - 8, by omega⟩
        have e1 : p + (q' + 8) / 8 = p + 1 + q' / 8 := by omega
        have e2 : (q' + 8) % 8 = q' % 8 := by omega
        rw [e1, e2]
        exact i5 q' (by omega) (by omega)
    · simp only [hw, if_false]
      obtain ⟨i1, i2, i3, i4, i5⟩ := ih (n - 1) (u16 (start + 1))
        (buf_set buf p (u8 ((buf p ||| int_and_bit val.n off : Nat) : Int))) p (off + 1) val
        (by omega) (by omega)
        (by
          intro t ht
          rw [hB1, hz t (by omega)]
          have : ¬ t = off := by omega
          simp [this])
      refine ⟨i1, ?_, ?_, ?_, ?_⟩
      · intro j hj
        rw [i2 j hj, buf_set_ne _ _ _ _ (by omega)]
      · intro q hq
        rw [i3 q (by omega), hB1]
        have : ¬ q = off := by omega
        simp [this, show q < 8 by omega]
      · intro q h1 h2
        by_cases hqo : q = off
        · subst hqo
          have e1 : p + q / 8 = p := by omega
          have e2 : q % 8 = q := by omega
          rw [e1, e2, i3 q (by omega), hB1, hz q (by omega)]
          simp [hoff]
        · exact i4 q (by omega) (by omega)
      · intro q h1 h2
        exact i5 q (by omega) (by rw [h2]; congr 1; omega)

theorem yam_app_input_coils {σ : Type} (g : globals σ) (fuel slave : Nat) (req : mb_pbuf_t)
    (resp_buf : buf_t) (buf_sz : Nat) (s : σ) (hf : req.payload 0 = 1) :
    yam_app_input g fuel slave req resp_buf buf_sz s
      = read_coils_handler g fuel 1 (buf_shift req.payload 1) (u8 ((req.len : Int) - 1))
          resp_buf buf_sz s := by
  simp [yam_app_input, func_handlers, List.find?, hf, MBF_READ_COILS]

theorem register_read_bitmap {σ : Type} (g : globals σ)
    (load : regval_t → Nat → σ → Int × regval_t × σ) (b k : Nat) (reg : reg_t σ)
    (val : regval_t) (s : σ) (hload : g.store_cb.load_register = some load)
    (hfind : register_find g.registers (b + k) OPT_BITMAP = some reg) (href : reg.ref = b)
    (hperm : reg.perm &&& REG_PERM_RD ≠ 0) (hcb : reg.read_cb = none)
    (hok : 0 ≤ (load { val with tag := reg.tag } b s).1) :
    register_read g.store_cb g.registers (b + k) OPT_BITMAP val s
      = ((reg.size : Int) - k, some reg,
          { n := (load { val with tag := reg.tag } b s).2.1.n / 2 ^ k, tag := _integer },
          (load { val with tag := reg.tag } b s).2.2) := by
  unfold register_read
  rw [hfind]
  simp only [hperm, if_false, hcb, read_reg, hload, href]
  have : ¬ (load { n := val.n, tag := reg.tag } b s).1 < 0 := by omega
  simp only [this, if_false, register_read_ok]
  have h1 : OPT_BITMAP &&& OPT_BITMAP ≠ 0 := by decide
  rw [if_pos h1]
  simp only [href, regval_put_integer, Nat.add_sub_cancel_left]
  congr 1
  push_cast
  omega

theorem load_ref_bitmap_loop_done {σ : Type} (g : globals σ) (fuel start : Nat) (buf : buf_t)
    (p off : Nat) (val : regval_t) (s : σ) :
    load_ref_bitmap_loop g fuel start 0 buf p off val s = some (0, buf, s) := by
  rw [load_ref_bitmap_loop.eq_def]
  simp

/-- C10: bitmap packing within one block.  `reg` is the readable register
that `register_find` returns for the coil address `b + k` (`reg.ref = b`,
`reg.size = sz`, `1 ≤ sz ≤ 32`, `k < sz`), its load succeeds with the integer
`bits`, and `1 ≤ n ≤ sz - k`.  The Read Coils request for `n` coils from
address `b + k` on returns length `2 + ⌈n/8⌉` with bytes `1`, `⌈n/8⌉`, then
the bitmap: for `i < n`, bit `i mod 8` of byte `⌊i/8⌋` is bit `k + i` of
`bits`, and the remaining bits of the last byte are 0. -/
theorem C10_bitmap_packing {σ : Type} (g : globals σ)
    (load : regval_t → Nat → σ → Int × regval_t × σ) (fuel slave b sz k n : Nat) (bits : Int)
    (reg : reg_t σ) (rest resp_buf : buf_t) (buf_sz : Nat) (s : σ)
    (hload : g.store_cb.load_register = some load)
    (hfind : register_find g.registers (b + k) OPT_BITMAP = some reg)
    (href : reg.ref = b) (hsize : reg.size = sz) (hsz : sz ≤ 32) (hk : k < sz)
    (hn1 : 1 ≤ n) (hn2 : n ≤ sz - k) (haddr1 : 1 ≤ b + k) (haddr2 : b + k < 65536)
    (hperm : reg.perm &&& REG_PERM_RD ≠ 0) (hcb : reg.read_cb = none)
    (hok : 0 ≤ (load { g.junk with tag := reg.tag } b s).1)
    (hval : (load { g.junk with tag := reg.tag } b s).2.1.n = bits)
    (hfuel : 1 ≤ fuel) (hbuf : 2 + (n + 7) / 8 ≤ buf_sz) :
    ∃ buf, yam_app_input g fuel slave
          { payload := buf_of [1, (b + k - 1) / 256, (b + k - 1) % 256, n / 256, n % 256] rest,
            len := 5 } resp_buf buf_sz s
        = some (((2 + (n + 7) / 8 : Nat) : Int), buf, (load { g.junk with tag := reg.tag } b s).2.2)
      ∧ buf 0 = 1 ∧ buf 1 = (n + 7) / 8
      ∧ (∀ i, i < n → (buf (2 + i / 8)).testBit (i % 8) = int_bit bits (k + i))
      ∧ (∀ i, n ≤ i → i < 8 * ((n + 7) / 8) → (buf (2 + i / 8)).testBit (i % 8) = false) := by
  obtain ⟨fuel, rfl⟩ : ∃ f, fuel = f + 1 := ⟨fuel - 1, by omega⟩
  have hread := register_read_bitmap g load b k reg g.junk s hload hfind href hperm hcb hok
  rw [hval, hsize] at hread
  obtain ⟨i1, i2, _, i4, i5⟩ := load_ref_bitmap_bits_spec n ((sz : Int) - k) (b + k)
    (buf_set resp_buf 2 0) 2 0 { n := bits / 2 ^ k, tag := _integer } (by omega) (by omega)
    (by intro t _; rw [buf_set_same]; simp)
  refine ⟨rd_resp_header 1 ((n + 7) / 8) (load_ref_bitmap_bits n ((sz : Int) - k) (b + k)
    (buf_set resp_buf 2 0) 2 0 { n := bits / 2 ^ k, tag := _integer }).buf, ?_, ?_, ?_, ?_, ?_⟩
  · rw [yam_app_input_coils _ _ _ _ _ _ _ (by simp [buf_of])]
    have e0 : u8 (((5 : Nat) : Int) - 1) = 4 := by decide
    have e1 : u16 ((buf_shift (buf_of [1, (b + k - 1) / 256, (b + k - 1) % 256, n / 256, n % 256]
        rest) 1 0 : Nat) * 256 + (buf_shift (buf_of [1, (b + k - 1) / 256, (b + k - 1) % 256,
        n / 256, n % 256] rest) 1 1 : Nat)) = b + k - 1 := by
      simp [buf_shift, buf_of, u16]; omega
    have e2 : u16 ((buf_shift (buf_of [1, (b + k - 1) / 256, (b + k - 1) % 256, n / 256, n % 256]
        rest) 1 2 : Nat) * 256 + (buf_shift (buf_of [1, (b + k - 1) / 256, (b + k - 1) % 256,
        n / 256, n % 256] rest) 1 3 : Nat)) = n := by
      simp [buf_shift, buf_of, u16]; omega
    have e3 : u8 (((n : Int) + COILS_PER_BYTE - 1) / 8) = (n + 7) / 8 := by
      unfold u8 COILS_PER_BYTE; omega
    have e4 : u16 (((b + k - 1 : Nat) : Int) + (if 1 = MBF_READ_COILS then COILS_REF_FIRST
        else DISCRETE_INPUT_REF_FIRST)) = b + k := by
      simp only [MBF_READ_COILS, if_true, COILS_REF_FIRST]; unfold u16; omega
    have e5 : u8 (n : Int) = n := by unfold u8; omega
    have c0 : ¬ (buf_sz < 2 + (n + 7) / 8) := by omega
    have hn0 : n ≠ 0 := by omega
    unfold read_coils_handler
    simp only [e0, ne_eq, not_true_eq_false, if_false, e1, e2, e3, e4, e5, c0]
    unfold load_ref_bitmap
    simp only [ne_eq, hn0, not_false_eq_true, if_true]
    rw [load_ref_bitmap_loop]
    simp only [hn0, if_false, hread]
    have c1 : ¬ ((sz : Int) - k < 0) := by omega
    simp only [c1, if_false, i1, load_ref_bitmap_loop_done, Option.map_some',
      catch_modbus_exception, lt_irrefl]
    push_cast
    rfl
  · simp [rd_resp_header, buf_set_ne, u8]
  · simp only [rd_resp_header, buf_set_same]
    unfold u8; omega
  · intro i hi
    simp only [rd_resp_header]
    rw [buf_set_ne _ _ _ _ (by omega), buf_set_ne _ _ _ _ (by omega), i4 i (by omega) (by omega)]
    exact int_bit_shift bits k i
  · intro i h1 h2
    simp only [rd_resp_header]
    rw [buf_set_ne _ _ _ _ (by omega), buf_set_ne _ _ _ _ (by omega)]
    exact i5 i (by omega) (by omega)

/-- Witness of C10: register ref 1 of size 16 holding 0xA5C3, request
`01 00 04 00 05` for the 5 coils from address 5 on (offset 4 in the block):
the bitmap byte holds bits 4..8 of the value (0, 0, 1, 1, 1) in its bits
0..4 and zeros above. -/
theorem C10_bitmap_packing_witness :
    (yam_app_input (rec_globals [plain_reg _ 1 16 _integer 0 REG_PERM_RW] (fun _ => 0xA5C3))
        1 1 { payload := buf_of [1, 0, 4, 0, 5] (fun _ => 0), len := 5 } (fun _ => 0) 253 []).map
      (fun r => (r.1, r.2.2, r.2.1 0, r.2.1 1,
        (List.range 8).map (fun i => (r.2.1 (2 + i / 8)).testBit (i % 8))))
      = some (3, [cb_call.load 1], 1, 1,
          [false, false, true, true, true, false, false, false]) := by
  obtain ⟨buf, hrun, h0, h1, hbits, hz⟩ := C10_bitmap_packing
    (rec_globals [plain_reg _ 1 16 _integer 0 REG_PERM_RW] (fun _ => 0xA5C3))
    (fun val ref s => (0, { val with n := 0xA5C3 }, s ++ [cb_call.load ref])) 1 1 1 16 4 5 0xA5C3
    (plain_reg _ 1 16 _integer 0 REG_PERM_RW) (fun _ => 0) (fun _ => 0) 253 [] rfl rfl rfl rfl
    (by decide) (by decide) (by decide) (by decide) (by decide) (by decide) (by decide) rfl
    (by decide) rfl (by decide) (by decide)
  have b0 := hbits 0 (by decide)
  have b1 := hbits 1 (by decide)
  have b2 := hbits 2 (by decide)
  have b3 := hbits 3 (by decide)
  have b4 := hbits 4 (by decide)
  have z5 := hz 5 (by decide) (by decide)
  have z6 := hz 6 (by decide) (by decide)
  have z7 := hz 7 (by decide) (by decide)
  have v0 : int_bit 0xA5C3 (4 + 0) = false := by decide
  have v1 : int_bit 0xA5C3 (4 + 1) = false := by decide
  have v2 : int_bit 0xA5C3 (4 + 2) = true := by decide
  have v3 : int_bit 0xA5C3 (4 + 3) = true := by decide
  have v4 : int_bit 0xA5C3 (4 + 4) = true := by decide
  rw [v0] at b0
  rw [v1] at b1
  rw [v2] at b2
  rw [v3] at b3
  rw [v4] at b4
  erw [hrun]
  simp only [Option.map_some', Option.some.injEq, Prod.mk.injEq, List.range, List.range.loop,
    List.map, h0, h1, true_and]
  refine ⟨rfl, rfl, ?_⟩
  simp only [List.cons.injEq, and_true]
  exact ⟨b0, b1, b2, b3, b4, z5, z6, z7⟩

/-! ## The value codec: supported pairs and round trips -/

/-- C16: codec support.  For every tag, register size and scale,
`regval_encode_mb` returns 0 exactly when the tag is INTEGER or FLOAT and the
size is 1 or 2, and so does `regval_decode_mb`; for every other pair both
return a negative value, the encoder leaves the buffer as it was and the
decoder leaves the value as it was. -/
theorem C16_codec_support (float_fmt : Nat → Nat) (val out : regval_t) (buf : buf_t) (p : Nat)
    (tag mb_size : Nat) (mb_scale : Int) :
    ((regval_encode_mb float_fmt val buf p tag mb_size mb_scale).1 = 0
        ↔ (tag = _integer ∨ tag = _float) ∧ (mb_size = 1 ∨ mb_size = 2))
    ∧ ((regval_decode_mb float_fmt buf p out tag mb_size mb_scale).1 = 0
        ↔ (tag = _integer ∨ tag = _float) ∧ (mb_size = 1 ∨ mb_size = 2))
    ∧ (((tag = _integer ∨ tag = _float) ∧ (mb_size = 1 ∨ mb_size = 2))
        ∨ ((regval_encode_mb float_fmt val buf p tag mb_size mb_scale).1 < 0
          ∧ (regval_encode_mb float_fmt val buf p tag mb_size mb_scale).2 = buf
          ∧ (regval_decode_mb float_fmt buf p out tag mb_size mb_scale).1 < 0
          ∧ (regval_decode_mb float_fmt buf p out tag mb_size mb_scale).2 = out)) := by
  rcases tag with _ | _ | tag <;> rcases mb_size with _ | _ | _ | mb_size <;>
    simp [regval_encode_mb, regval_decode_mb, val_codec_spec_table, List.find?, _integer, _float]

/-- C17, counterexample: the value -1 with tag INTEGER, size 1, scale 0 is
encoded as the bytes FF FF, and these two bytes decode to 65535, not to -1. -/
theorem C17_counterexample :
    (regval_encode_mb float_fmt_b { n := -1, tag := _integer } (fun _ => 0) 0 _integer 1 0).1 = 0
    ∧ buf_take
        (regval_encode_mb float_fmt_b { n := -1, tag := _integer } (fun _ => 0) 0 _integer 1 0).2 2
        = [0xFF, 0xFF]
    ∧ regval_decode_mb float_fmt_b
        (regval_encode_mb float_fmt_b { n := -1, tag := _integer } (fun _ => 0) 0 _integer 1 0).2
        0 { n := 0, tag := _integer } _integer 1 0
        = (0, { n := 65535, tag := _integer }) := by
  decide

theorem regval_encode_mb_short_int (float_fmt : Nat → Nat) (val : regval_t) (buf : buf_t) (p : Nat)
    (h1 : -32768 ≤ val.n) (h2 : val.n ≤ 32767) :
    regval_encode_mb float_fmt val buf p _integer 1 0
      = (0, buf_set (buf_set buf p ((val.n % 65536).toNat / 256)) (p + 1)
          ((val.n % 65536).toNat % 256)) := by
  have hrt : f32.to_int (f32.of_int val.n) = val.n := f32.to_int_of_int _ (by omega) (by omega)
  have e1 : u8 (val.n / 256) = (val.n % 65536).toNat / 256 := by unfold u8; omega
  have e2 : u8 val.n = (val.n % 65536).toNat % 256 := by unfold u8; omega
  simp [regval_encode_mb, val_codec_spec_table, List.find?, _integer, _float,
    integer_to_mb_short, integer_prescale, hrt, e1, e2]

/-- C17, amended: 16-bit integer round trip.  For tag INTEGER, size 1, scale 0
and every `n` in -32768..32767, `regval_encode_mb` returns 0 and writes the
big-endian two-byte two-complement form of `n` (the bytes of `n mod 65536`) at
`p` and `p + 1` and nothing else; `regval_decode_mb` on these bytes returns 0
and the unsigned value: `n` itself when `0 ≤ n`, and `n + 65536` when `n < 0`. -/
theorem C17_short_integer_round_trip (float_fmt : Nat → Nat) (n : Int) (buf : buf_t) (p : Nat)
    (out : regval_t) (h1 : -32768 ≤ n) (h2 : n ≤ 32767) :
    (regval_encode_mb float_fmt { n := n, tag := _integer } buf p _integer 1 0).1 = 0
    ∧ (regval_encode_mb float_fmt { n := n, tag := _integer } buf p _integer 1 0).2 p
        = (n % 65536).toNat / 256
    ∧ (regval_encode_mb float_fmt { n := n, tag := _integer } buf p _integer 1 0).2 (p + 1)
        = (n % 65536).toNat % 256
    ∧ (∀ j, j ≠ p ∧ j ≠ p + 1 →
        (regval_encode_mb float_fmt { n := n, tag := _integer } buf p _integer 1 0).2 j = buf j)
    ∧ regval_decode_mb float_fmt
        (regval_encode_mb float_fmt { n := n, tag := _integer } buf p _integer 1 0).2 p out
        _integer 1 0
        = (0, { n := if 0 ≤ n then n else n + 65536, tag := _integer }) := by
  rw [regval_encode_mb_short_int float_fmt _ buf p h1 h2]
  dsimp only
  have hp : buf_set (buf_set buf p ((n % 65536).toNat / 256)) (p + 1) ((n % 65536).toNat % 256) p
      = (n % 65536).toNat / 256 := by
    rw [buf_set_ne _ _ _ _ (by omega), buf_set_same]
  have hp1 : buf_set (buf_set buf p ((n % 65536).toNat / 256)) (p + 1) ((n % 65536).toNat % 256)
      (p + 1) = (n % 65536).toNat % 256 := buf_set_same _ _ _
  refine ⟨rfl, hp, hp1, ?_, ?_⟩
  · intro j hj
    rw [buf_set_ne _ _ _ _ hj.2, buf_set_ne _ _ _ _ hj.1]
  · rw [regval_decode_mb_short _ _ _ _ (by rw [hp]; omega) (by rw [hp1]; omega), hp, hp1]
    have e : (((n % 65536).toNat / 256 * 256 + (n % 65536).toNat % 256 : Nat) : Int)
        = if 0 ≤ n then n else n + 65536 := by
      split <;> omega
    rw [e]

theorem C17_short_integer_round_trip_witness :
    (regval_encode_mb float_fmt_b { n := -2, tag := _integer } (fun _ => 0) 0 _integer 1 0).2 0
        = 255
    ∧ (regval_encode_mb float_fmt_b { n := -2, tag := _integer } (fun _ => 0) 0 _integer 1 0).2 1
        = 254
    ∧ regval_decode_mb float_fmt_b
        (regval_encode_mb float_fmt_b { n := -2, tag := _integer } (fun _ => 0) 0 _integer 1 0).2
        0 { n := 0, tag := _integer } _integer 1 0
        = (0, { n := 65534, tag := _integer }) :=
  have h := C17_short_integer_round_trip float_fmt_b (-2) (fun _ => 0) 0 { n := 0, tag := _integer }
    (by decide) (by decide)
  ⟨h.2.1, h.2.2.1, h.2.2.2.2⟩

theorem f32.byte_sum (h : Nat) (hh : h < 4294967296) :
    f32.byte h 0 + f32.byte h 1 * 256 + f32.byte h 2 * 65536 + f32.byte h 3 * 16777216 = h := by
  unfold f32.byte
  norm_num
  omega

theorem float_fmt_perm_cases (fmt : Nat → Nat)
    (hperm : List.Perm [fmt 0, fmt 1, fmt 2, fmt 3] [0, 1, 2, 3]) :
    (fmt 0 < 4 ∧ fmt 1 < 4 ∧ fmt 2 < 4 ∧ fmt 3 < 4)
    ∧ fmt 0 ≠ fmt 1 ∧ fmt 0 ≠ fmt 2 ∧ fmt 0 ≠ fmt 3 ∧ fmt 1 ≠ fmt 2 ∧ fmt 1 ≠ fmt 3
      ∧ fmt 2 ≠ fmt 3 := by
  have hmem : ∀ x, x ∈ [fmt 0, fmt 1, fmt 2, fmt 3] → x ∈ [0, 1, 2, 3] := fun x hx =>
    hperm.mem_iff.1 hx
  have hnd : [fmt 0, fmt 1, fmt 2, fmt 3].Nodup := hperm.nodup_iff.2 (by decide)
  have h0 := hmem (fmt 0) (by simp)
  have h1 := hmem (fmt 1) (by simp)
  have h2 := hmem (fmt 2) (by simp)
  have h3 := hmem (fmt 3) (by simp)
  simp only [List.mem_cons, List.mem_singleton, List.not_mem_nil, or_false] at h0 h1 h2 h3
  simp only [List.nodup_cons, List.mem_cons, List.mem_singleton, List.not_mem_nil, or_false,
    not_or, List.nodup_nil, and_true, not_false_eq_true] at hnd
  refine ⟨⟨by omega, by omega, by omega, by omega⟩, ?_⟩
  obtain ⟨⟨a, b, c⟩, ⟨d, e⟩, f⟩ := hnd
  exact ⟨a, b, c, d, e, f⟩

theorem float_round_trip (fmt : Nat → Nat) (h : Nat)
    (hh : h < 4294967296)
    (hperm : List.Perm [fmt 0, fmt 1, fmt 2, fmt 3] [0, 1, 2, 3]) :
    (let b : buf_t := buf_set (buf_set (buf_set (buf_set (fun _ => 0)
        (fmt 0) (f32.byte h (fmt 0))) (fmt 1) (f32.byte h (fmt 1))) (fmt 2) (f32.byte h (fmt 2)))
        (fmt 3) (f32.byte h (fmt 3))
     b 0 + b 1 * 256 + b 2 * 65536 + b 3 * 16777216) = h := by
  obtain ⟨⟨l0, l1, l2, l3⟩, n01, n02, n03, n12, n13, n23⟩ := float_fmt_perm_cases fmt hperm
  have key : ∀ j, j < 4 →
      buf_set (buf_set (buf_set (buf_set (fun _ => 0)
        (fmt 0) (f32.byte h (fmt 0))) (fmt 1) (f32.byte h (fmt 1))) (fmt 2) (f32.byte h (fmt 2)))
        (fmt 3) (f32.byte h (fmt 3)) j = f32.byte h j := by
    intro j hj
    unfold buf_set
    by_cases c3 : j = fmt 3
    · simp [c3]
    by_cases c2 : j = fmt 2
    · simp [c2, n23]
    by_cases c1 : j = fmt 1
    · simp [c1, n12, n13]
    by_cases c0 : j = fmt 0
    · simp [c0, n01, n02, n03]
    exfalso; omega
  simp only [key 0 (by omega), key 1 (by omega), key 2 (by omega), key 3 (by omega)]
  exact f32.byte_sum h hh

/-- C18: float byte-order permutation.  Let `fmt` be a permutation of
{0,1,2,3} installed with `regval_set_float_fmt` (which returns 0).  For tag
FLOAT, size 2, scale 0 and every value `val` with host bytes
`f32.byte val.f 0..3`: `regval_encode_mb` returns 0, writes
`f32.byte val.f (fmt i)` at `p + i` for `i = 0..3` and nothing else, and
`regval_decode_mb` on that buffer returns 0 and a FLOAT value with the same 32
bits as `val`. -/
theorem C18_float_byte_order (float_fmt0 fmt : Nat → Nat) (val out : regval_t) (buf : buf_t)
    (p : Nat) (hperm : List.Perm [fmt 0, fmt 1, fmt 2, fmt 3] [0, 1, 2, 3]) :
    (regval_set_float_fmt float_fmt0 fmt).1 = 0
    ∧ (regval_encode_mb (regval_set_float_fmt float_fmt0 fmt).2 val buf p _float 2 0).1 = 0
    ∧ (∀ i, i < 4 →
        (regval_encode_mb (regval_set_float_fmt float_fmt0 fmt).2 val buf p _float 2 0).2 (p + i)
          = f32.byte val.f (fmt i))
    ∧ (∀ j, j < p ∨ p + 4 ≤ j →
        (regval_encode_mb (regval_set_float_fmt float_fmt0 fmt).2 val buf p _float 2 0).2 j
          = buf j)
    ∧ (regval_decode_mb (regval_set_float_fmt float_fmt0 fmt).2
        (regval_encode_mb (regval_set_float_fmt float_fmt0 fmt).2 val buf p _float 2 0).2 p out
        _float 2 0).1 = 0
    ∧ (regval_decode_mb (regval_set_float_fmt float_fmt0 fmt).2
        (regval_encode_mb (regval_set_float_fmt float_fmt0 fmt).2 val buf p _float 2 0).2 p out
        _float 2 0).2.tag = _float
    ∧ (regval_decode_mb (regval_set_float_fmt float_fmt0 fmt).2
        (regval_encode_mb (regval_set_float_fmt float_fmt0 fmt).2 val buf p _float 2 0).2 p out
        _float 2 0).2.f = val.f := by
  have hh : val.f < 4294967296 := by
    show (val.n % 4294967296).toNat < 4294967296
    omega
  have hs : ∀ w : Nat, w < 4294967296 → ((s32 (w : Int)) % 4294967296).toNat = w := by
    intro w hw; unfold s32; omega
  obtain ⟨B, hB⟩ : ∃ B : buf_t, B = buf_set (buf_set (buf_set (buf_set buf p
      (f32.byte val.f (fmt 0))) (p + 1) (f32.byte val.f (fmt 1))) (p + 2) (f32.byte val.f (fmt 2)))
      (p + 3) (f32.byte val.f (fmt 3)) := ⟨_, rfl⟩
  have henc : regval_encode_mb fmt val buf p _float 2 0 = (0, B) := by
    simp [hB, regval_encode_mb, val_codec_spec_table, List.find?, _integer, _float,
      float_to_mb_float, float_prescale]
  have hw : ∀ i, i < 4 → B (p + i) = f32.byte val.f (fmt i) := by
    intro i hi
    rw [hB]
    unfold buf_set
    have : i = 0 ∨ i = 1 ∨ i = 2 ∨ i = 3 := by omega
    rcases this with rfl | rfl | rfl | rfl <;> simp
  have hout : ∀ j, j < p ∨ p + 4 ≤ j → B j = buf j := by
    intro j hj
    rw [hB]
    unfold buf_set
    rw [if_neg (by omega), if_neg (by omega), if_neg (by omega), if_neg (by omega)]
  have hdec : regval_decode_mb fmt B p out _float 2 0 = (0, regval_put_float out val.f) := by
    have r := float_round_trip fmt val.f hh hperm
    have w0 : B p = f32.byte val.f (fmt 0) := hw 0 (Nat.succ_pos 3)
    have w1 := hw 1 (Nat.succ_lt_succ (Nat.succ_pos 2))
    have w2 := hw 2 (Nat.succ_lt_succ (Nat.succ_lt_succ (Nat.succ_pos 1)))
    have w3 := hw 3 (Nat.lt_succ_self 3)
    have hfind : regval_decode_mb fmt B p out _float 2 0
        = (0, mb_float_to_float fmt B p out 0) := by
      simp [regval_decode_mb, val_codec_spec_table, List.find?, _integer, _float]
    rw [hfind]
    unfold mb_float_to_float
    rw [w0, w1, w2, w3]
    dsimp only at r ⊢
    rw [r]
    simp [float_scale]
  have e : (regval_set_float_fmt float_fmt0 fmt).2 = fmt := rfl
  rw [e, henc]
  dsimp only
  rw [hdec]
  exact ⟨rfl, rfl, hw, hout, rfl, rfl, hs _ hh⟩

theorem C18_float_byte_order_witness :
    (List.Perm [float_fmt_b 0, float_fmt_b 1, float_fmt_b 2, float_fmt_b 3] [0, 1, 2, 3]
      ∧ (regval_decode_mb (regval_set_float_fmt float_fmt_l float_fmt_b).2
          (regval_encode_mb (regval_set_float_fmt float_fmt_l float_fmt_b).2
            { n := 1067030938, tag := _float } (fun _ => 0) 0 _float 2 0).2 0
          { n := 0, tag := _integer } _float 2 0).2.f
        = regval_t.f { n := 1067030938, tag := _float })
    ∧ (List.Perm [float_fmt_bb 0, float_fmt_bb 1, float_fmt_bb 2, float_fmt_bb 3] [0, 1, 2, 3]
      ∧ (regval_decode_mb (regval_set_float_fmt float_fmt_b float_fmt_bb).2
          (regval_encode_mb (regval_set_float_fmt float_fmt_b float_fmt_bb).2
            { n := 1067030938, tag := _float } (fun _ => 0) 0 _float 2 0).2 0
          { n := 0, tag := _integer } _float 2 0).2.f
        = regval_t.f { n := 1067030938, tag := _float })
    ∧ (List.Perm [float_fmt_l 0, float_fmt_l 1, float_fmt_l 2, float_fmt_l 3] [0, 1, 2, 3]
      ∧ (regval_decode_mb (regval_set_float_fmt float_fmt_b float_fmt_l).2
          (regval_encode_mb (regval_set_float_fmt float_fmt_b float_fmt_l).2
            { n := 1067030938, tag := _float } (fun _ => 0) 0 _float 2 0).2 0
          { n := 0, tag := _integer } _float 2 0).2.f
        = regval_t.f { n := 1067030938, tag := _float })
    ∧ (List.Perm [float_fmt_lb 0, float_fmt_lb 1, float_fmt_lb 2, float_fmt_lb 3] [0, 1, 2, 3]
      ∧ (regval_decode_mb (regval_set_float_fmt float_fmt_b float_fmt_lb).2
          (regval_encode_mb (regval_set_float_fmt float_fmt_b float_fmt_lb).2
            { n := 1067030938, tag := _float } (fun _ => 0) 0 _float 2 0).2 0
          { n := 0, tag := _integer } _float 2 0).2.f
        = regval_t.f { n := 1067030938, tag := _float }) :=
  ⟨⟨by decide, (C18_float_byte_order float_fmt_l float_fmt_b { n := 1067030938, tag := _float }
      { n := 0, tag := _integer } (fun _ => 0) 0 (by decide)).2.2.2.2.2.2⟩,
   ⟨by decide, (C18_float_byte_order float_fmt_b float_fmt_bb { n := 1067030938, tag := _float }
      { n := 0, tag := _integer } (fun _ => 0) 0 (by decide)).2.2.2.2.2.2⟩,
   ⟨by decide, (C18_float_byte_order float_fmt_b float_fmt_l { n := 1067030938, tag := _float }
      { n := 0, tag := _integer } (fun _ => 0) 0 (by decide)).2.2.2.2.2.2⟩,
   ⟨by decide, (C18_float_byte_order float_fmt_b float_fmt_lb { n := 1067030938, tag := _float }
      { n := 0, tag := _integer } (fun _ => 0) 0 (by decide)).2.2.2.2.2.2⟩⟩

/-! ## Registration of a record I/O backend -/

/-- C19: what `yam_register_file_rec_io` returns on success.  On the initial
table, where no backend is registered for type 16, the call with type 16 and a
backend `io` installs `io` (the packet-file handlers find it afterwards) and
returns -1, not 0. -/
theorem C19_registration_returns_failure {σ : Type} (io : yam_file_rec_io_t σ) :
    find_rec_io (rec_io_table_init σ) MODBUS_PACKET_FILE = none
    ∧ find_rec_io (yam_register_file_rec_io (rec_io_table_init σ) MODBUS_PACKET_FILE (some io)).2
        MODBUS_PACKET_FILE = some io
    ∧ (yam_register_file_rec_io (rec_io_table_init σ) MODBUS_PACKET_FILE (some io)).1 = -1 := by
  simp [find_rec_io, yam_register_file_rec_io, rec_io_table_init, MODBUS_PACKET_FILE, List.find?]

theorem find_rec_io_register {σ : Type} (tbl : List (rec_io_map_t σ)) (type : Int)
    (io1 : yam_file_rec_io_t σ) (io2 : Option (yam_file_rec_io_t σ))
    (h : find_rec_io tbl type = some io1) :
    find_rec_io (yam_register_file_rec_io tbl type io2).2 type = some io1 := by
  induction tbl with
  | nil => simp [find_rec_io] at h
  | cons m tbl ih =>
    by_cases hm : m.type_code = type
    · have hio : m.io = some io1 := by
        simpa [find_rec_io, List.find?, hm] using h
      simp [find_rec_io, yam_register_file_rec_io, List.find?, hm, hio]
    · have hb : (m.type_code == type) = false := by simpa using hm
      have h1 : find_rec_io tbl type = some io1 := by
        simpa [find_rec_io, List.find?, hb] using h
      have := ih h1
      simpa [find_rec_io, yam_register_file_rec_io, List.find?, hm, hb] using this

theorem register_absent_type {σ : Type} (tbl : List (rec_io_map_t σ)) (type : Int)
    (io : Option (yam_file_rec_io_t σ)) (h : ∀ m ∈ tbl, m.type_code ≠ type) :
    (yam_register_file_rec_io tbl type io).2 = tbl := by
  induction tbl with
  | nil => rfl
  | cons m tbl ih =>
    have hm : m.type_code ≠ type := h m (List.mem_cons_self _ _)
    have := ih (fun x hx => h x (List.mem_cons_of_mem _ hx))
    simp only [yam_register_file_rec_io] at this ⊢
    simp [hm, this]

/-- C20: registration is one-shot.  When the packet-file handlers find the
backend `io1` for type 16, a call `yam_register_file_rec_io(16, io2)` leaves
`io1` as the backend they find and returns a negative value; and a call with a
type code that no entry of the table has leaves the table as it was. -/
theorem C20_registration_is_one_shot {σ : Type} (tbl : List (rec_io_map_t σ))
    (io1 : yam_file_rec_io_t σ) (io2 io3 : Option (yam_file_rec_io_t σ)) (type : Int)
    (h : find_rec_io tbl MODBUS_PACKET_FILE = some io1)
    (habs : ∀ m ∈ tbl, m.type_code ≠ type) :
    find_rec_io (yam_register_file_rec_io tbl MODBUS_PACKET_FILE io2).2 MODBUS_PACKET_FILE
        = some io1
    ∧ (yam_register_file_rec_io tbl MODBUS_PACKET_FILE io2).1 < 0
    ∧ (yam_register_file_rec_io tbl type io3).2 = tbl :=
  ⟨find_rec_io_register tbl _ io1 io2 h, by simp [yam_register_file_rec_io],
    register_absent_type tbl type io3 habs⟩

theorem C20_registration_is_one_shot_witness :
    find_rec_io
        (yam_register_file_rec_io
          (yam_register_file_rec_io (rec_io_table_init (List cb_call)) MODBUS_PACKET_FILE
            (some rec_io_failing)).2 MODBUS_PACKET_FILE none).2 MODBUS_PACKET_FILE
        = some rec_io_failing
    ∧ (yam_register_file_rec_io
          (yam_register_file_rec_io (rec_io_table_init (List cb_call)) MODBUS_PACKET_FILE
            (some rec_io_failing)).2 MODBUS_PACKET_FILE none).1 < 0
    ∧ (yam_register_file_rec_io
          (yam_register_file_rec_io (rec_io_table_init (List cb_call)) MODBUS_PACKET_FILE
            (some rec_io_failing)).2 17 (some rec_io_failing)).2
        = (yam_register_file_rec_io (rec_io_table_init (List cb_call)) MODBUS_PACKET_FILE
            (some rec_io_failing)).2 :=
  C20_registration_is_one_shot _ rec_io_failing none (some rec_io_failing) 17
    (by simp [find_rec_io, yam_register_file_rec_io, rec_io_table_init, MODBUS_PACKET_FILE,
      List.find?])
    (by simp [yam_register_file_rec_io, rec_io_table_init, MODBUS_PACKET_FILE])

/-! ## The CRC -/

theorem crc16_bit_lt (c : Nat) (h : c < 65536) : crc16_bit c < 65536 := by
  unfold crc16_bit
  split
  · exact Nat.xor_lt_two_pow (n := 16) (by omega) (by norm_num)
  · omega

theorem crc16_bit_iterate_lt (k c : Nat) (h : c < 65536) : crc16_bit^[k] c < 65536 := by
  induction k generalizing c with
  | zero => simpa using h
  | succ k ih => rw [Function.iterate_succ_apply]; exact ih _ (crc16_bit_lt c h)

theorem crc16_byte_lt (c b : Nat) (h : c < 65536) : crc16_byte c b < 65536 := by
  unfold crc16_byte
  exact crc16_bit_iterate_lt 8 _ (Nat.xor_lt_two_pow (n := 16) h (by omega))

theorem foldl_crc16_byte_lt (l : List Nat) (c : Nat) (h : c < 65536) :
    l.foldl crc16_byte c < 65536 := by
  induction l generalizing c with
  | nil => simpa using h
  | cons b l ih => exact ih _ (crc16_byte_lt c b h)

theorem modbus_crc_lt (l : List Nat) : modbus_crc l < 65536 :=
  foldl_crc16_byte_lt l _ (by norm_num)

theorem crc16_bit_double (y : Nat) : crc16_bit (2 * y) = y := by
  unfold crc16_bit
  rw [if_neg (by omega)]; omega

theorem crc16_bit_iterate_shift (h : Nat) : crc16_bit^[8] (h * 256) = h := by
  have e : h * 256 = 2 * (2 * (2 * (2 * (2 * (2 * (2 * (2 * h))))))) := by omega
  rw [e]
  simp only [Function.iterate_succ_apply, Function.iterate_zero, id, crc16_bit_double]

theorem xor_low_byte (c : Nat) : c ^^^ (c % 256) = c / 256 * 256 := by
  apply Nat.eq_of_testBit_eq
  intro i
  have e1 : c % 256 = c % 2 ^ 8 := by norm_num
  have e2 : c / 256 * 256 = 2 ^ 8 * (c / 2 ^ 8) := by norm_num; omega
  rw [Nat.testBit_xor, e1, Nat.testBit_mod_two_pow, e2, Nat.testBit_mul_pow_two,
    ← Nat.shiftRight_eq_div_pow, Nat.testBit_shiftRight]
  by_cases hi : i < 8
  · simp [hi]
  · have : 8 ≤ i := by omega
    simp [hi, this]

theorem crc16_byte_low (c : Nat) : crc16_byte c (c % 256) = c / 256 := by
  unfold crc16_byte
  rw [Nat.mod_mod, xor_low_byte, crc16_bit_iterate_shift]

theorem crc16_byte_self (h : Nat) (hh : h < 256) : crc16_byte h h = 0 := by
  unfold crc16_byte
  rw [Nat.mod_eq_of_lt hh, Nat.xor_self]
  decide

/-- C15: CRC round trip.  For every list of bytes `b`, with `c = modbus_crc b`
(CRC-16, reflected polynomial 0xA001, initial value 0xFFFF, no final xor), the
CRC of `b` followed by the low byte `c & 0xFF` and the high byte `c >> 8` is 0. -/
theorem C15_crc_round_trip (b : List Nat) :
    modbus_crc (b ++ [modbus_crc b &&& 0xFF, modbus_crc b >>> 8]) = 0 := by
  have hlt := modbus_crc_lt b
  have e1 : modbus_crc b &&& 0xFF = modbus_crc b % 256 :=
    Nat.and_pow_two_sub_one_eq_mod (modbus_crc b) 8
  have e2 : modbus_crc b >>> 8 = modbus_crc b / 256 := by
    rw [Nat.shiftRight_eq_div_pow]
  rw [e1, e2]
  unfold modbus_crc at *
  rw [List.foldl_append]
  simp only [List.foldl_cons, List.foldl_nil]
  rw [crc16_byte_low, crc16_byte_self _ (by omega)]

/-! ## The serial link: the ring buffer -/

theorem CIRC_CNT_eq (h t : Nat) (hh : h < 512) (ht : t < 512) :
    CIRC_CNT (h : Int) (t : Int) 512 = (h + 512 - t) % 512 := by
  unfold CIRC_CNT size_t
  have e : (512 - 1 : Nat) = 2 ^ 9 - 1 := by norm_num
  rw [e, Nat.and_pow_two_sub_one_eq_mod]
  norm_num
  omega

theorem ring_next (t : Nat) :
    size_t ((t : Int) + 1) &&& (512 - 1) = (t + 1) % 512 := by
  unfold size_t
  have e : (512 - 1 : Nat) = 2 ^ 9 - 1 := by norm_num
  rw [e, Nat.and_pow_two_sub_one_eq_mod]
  norm_num
  omega

theorem CIRC_SPACE_eq (h t : Nat) (hh : h < 512) (ht : t < 512) :
    CIRC_SPACE (h : Int) (t : Int) 512 = 511 - (h + 512 - t) % 512 := by
  unfold CIRC_SPACE CIRC_CNT size_t
  have e : (512 - 1 : Nat) = 2 ^ 9 - 1 := by norm_num
  rw [e, Nat.and_pow_two_sub_one_eq_mod]
  norm_num
  omega

theorem yam_slink_drain_spec (buf : buf_t) (h h0 : Nat) (hh : h < 512) :
    ∀ (cnt fuel t : Nat) (in_frame : buf_t) (p : Nat), t < 512 → (h + 512 - t) % 512 = cnt →
      cnt ≤ fuel →
      yam_slink_drain fuel h { buf := buf, head := h0, tail := t, size := 512 } in_frame p
        = some ({ buf := buf, head := h0, tail := h, size := 512 },
            (fun i => if p ≤ i ∧ i < p + cnt then buf ((t + (i - p)) % 512) else in_frame i),
            p + cnt) := by
  intro cnt
  induction cnt with
  | zero =>
    intro fuel t in_frame p ht hc _
    have e : t = h := by omega
    subst e
    unfold yam_slink_drain
    rw [if_neg (by rw [CIRC_CNT_eq _ _ hh ht]; omega)]
    simp
    funext i
    rw [if_neg (by omega)]
  | succ cnt ih =>
    intro fuel t in_frame p ht hc hf
    obtain ⟨fuel, rfl⟩ : ∃ f, fuel = f + 1 := ⟨fuel - 1, by omega⟩
    unfold yam_slink_drain
    rw [if_pos (by rw [CIRC_CNT_eq _ _ hh ht]; omega)]
    dsimp only
    rw [ring_next t, ih fuel ((t + 1) % 512) _ (p + 1) (by omega) (by omega) (by omega)]
    refine congrArg some (Prod.ext rfl (Prod.ext ?_ (by dsimp only; omega)))
    dsimp only
    funext i
    by_cases c1 : p + 1 ≤ i ∧ i < p + 1 + cnt
    · rw [if_pos c1, if_pos (by omega)]
      congr 1; omega
    · rw [if_neg c1]
      by_cases c2 : i = p
      · subst c2
        rw [buf_set_same, if_pos (by omega)]
        congr 1
        simp; omega
      · rw [buf_set_ne _ _ _ _ c2, if_neg (by omega)]

theorem ring_frame_length (rb : recv_buf_t) :
    (ring_frame rb).length = CIRC_CNT rb.head rb.tail rb.size := by
  simp [ring_frame]

theorem ring_frame_getD (rb : recv_buf_t) (i : Nat) (hi : i < CIRC_CNT rb.head rb.tail rb.size) :
    (ring_frame rb).getD i 0 = rb.buf ((rb.tail + i) % rb.size) := by
  unfold ring_frame
  rw [List.getD_eq_getElem _ _ (by simpa using hi)]
  simp

theorem yam_slink_drain_link {σ : Type} (link : yam_slink σ) (fuel : Nat)
    (hsize : link.recv_buf.size = CIRC_BUF_SZ) (hhead : link.recv_buf.head < CIRC_BUF_SZ)
    (htail : link.recv_buf.tail < CIRC_BUF_SZ)
    (hfuel : (ring_frame link.recv_buf).length ≤ fuel) :
    yam_slink_drain fuel link.recv_buf.head link.recv_buf link.in_frame 0
      = some ((drained link).recv_buf, (drained link).in_frame, (drained link).in_frame_len) := by
  obtain ⟨rb, inf, len, sid, outf, cb, st⟩ := link
  obtain ⟨buf, h, t, sz⟩ := rb
  simp only [CIRC_BUF_SZ] at hsize hhead htail
  dsimp only at hsize hhead htail hfuel
  subst hsize
  have hlen : (ring_frame { buf := buf, head := h, tail := t, size := 512 }).length
      = (h + 512 - t) % 512 := by
    rw [ring_frame_length]; exact CIRC_CNT_eq h t hhead htail
  rw [hlen] at hfuel
  dsimp only
  rw [yam_slink_drain_spec buf h h hhead _ fuel t inf 0 htail rfl hfuel]
  unfold drained
  dsimp only
  rw [hlen]
  refine congrArg some (Prod.ext rfl (Prod.ext ?_ (by dsimp only; omega)))
  dsimp only
  funext i
  unfold buf_copy
  by_cases c : i < (h + 512 - t) % 512
  · rw [if_pos (by omega), if_pos (by omega),
      ring_frame_getD _ _ (by dsimp only; rw [CIRC_CNT_eq h t hhead htail]; omega)]
  · rw [if_neg (by omega), if_neg (by omega)]

theorem yam_slink_putchar_store {σ : Type} (link : yam_slink σ) (c : Nat)
    (hsize : link.recv_buf.size = 512) (hhead : link.recv_buf.head < 512)
    (htail : link.recv_buf.tail < 512)
    (hcnt : (link.recv_buf.head + 512 - link.recv_buf.tail) % 512 < 511) :
    yam_slink_putchar link c
      = { link with
          recv_buf := { link.recv_buf with
            buf := buf_set link.recv_buf.buf link.recv_buf.head c
            head := (link.recv_buf.head + 1) % 512 }
          stats := { link.stats with rx_chars := u32 ((link.stats.rx_chars : Int) + 1) } } := by
  unfold yam_slink_putchar
  dsimp only
  rw [hsize, CIRC_SPACE_eq _ _ hhead htail, if_neg (by omega), ring_next]

theorem yam_slink_putchar_full {σ : Type} (link : yam_slink σ) (c : Nat)
    (hsize : link.recv_buf.size = 512) (hhead : link.recv_buf.head < 512)
    (htail : link.recv_buf.tail < 512)
    (hcnt : (link.recv_buf.head + 512 - link.recv_buf.tail) % 512 = 511) :
    yam_slink_putchar link c = link := by
  unfold yam_slink_putchar
  dsimp only
  rw [hsize, CIRC_SPACE_eq _ _ hhead htail, if_pos (by omega)]

theorem ring_store_cons (buf : buf_t) (h t : Nat) (c : Nat) (cs : List Nat) (hh : h < 512)
    (hlen : cs.length + 1 ≤ 511) :
    ring_store { buf := buf_set buf h c, head := (h + 1) % 512, tail := t, size := 512 } cs
      = ring_store { buf := buf, head := h, tail := t, size := 512 } (c :: cs) := by
  unfold ring_store
  dsimp only
  congr 1
  · funext j
    by_cases hj : j < 512
    · by_cases h0 : j = h
      · subst h0
        rw [if_neg (by omega), buf_set_same, if_pos (by simp; omega)]
        have : (j + 512 - j) % 512 = 0 := by omega
        rw [this]; rfl
      · obtain ⟨k, hk⟩ : ∃ k, (j + 512 - h) % 512 = k + 1 := ⟨(j + 512 - h) % 512 - 1, by omega⟩
        have e : (j + 512 - (h + 1) % 512) % 512 = k := by omega
        rw [hk, e, List.getD_cons_succ, buf_set_ne _ _ _ _ h0]
        simp only [List.length_cons, hj, true_and, Nat.add_lt_add_iff_right]
    · rw [if_neg (by omega), if_neg (by omega), buf_set_ne _ _ _ _ (by omega)]
  · simp only [List.length_cons]; omega

theorem foldl_putchar {σ : Type} (cs : List Nat) :
    ∀ link : yam_slink σ, link.recv_buf.size = 512 → link.recv_buf.head < 512 →
      link.recv_buf.tail < 512 →
      (link.recv_buf.head + 512 - link.recv_buf.tail) % 512 + cs.length ≤ 511 →
      link.stats.rx_chars < 4294967296 →
      cs.foldl yam_slink_putchar link
        = { link with
            recv_buf := ring_store link.recv_buf cs
            stats := { link.stats with
              rx_chars := (link.stats.rx_chars + cs.length) % 4294967296 } } := by
  induction cs with
  | nil =>
    intro link hsize hhead _ _ hrx
    obtain ⟨⟨buf, h, t, sz⟩, inf, len, sid, outf, cb, ⟨rx, tx, bad, good⟩⟩ := link
    dsimp only at hsize hhead hrx
    subst hsize
    simp only [List.foldl_nil, ring_store, List.length_nil, Nat.add_zero, Nat.not_lt_zero,
      and_false, if_false, Nat.mod_eq_of_lt hhead, Nat.mod_eq_of_lt hrx]
  | cons c cs ih =>
    intro link hsize hhead htail hcnt hrx
    rw [List.length_cons] at hcnt
    rw [List.foldl_cons, yam_slink_putchar_store link c hsize hhead htail (by omega)]
    obtain ⟨⟨buf, h, t, sz⟩, inf, len, sid, outf, cb, ⟨rx, tx, bad, good⟩⟩ := link
    dsimp only at hsize hhead htail hcnt hrx ⊢
    subst hsize
    rw [ih _ rfl (by dsimp only; omega) htail (by dsimp only; omega)
      (by dsimp only; unfold u32; omega)]
    dsimp only
    rw [ring_store_cons buf h t c cs hhead (by omega)]
    congr 2
    unfold u32
    rw [List.length_cons]
    omega

/-! ## The serial link: dropping characters on a full ring buffer -/

theorem ring_frame_ring_store (buf : buf_t) (h t : Nat) (cs : List Nat) (hh : h < 512)
    (ht : t < 512) (hlen : (h + 512 - t) % 512 + cs.length ≤ 511) :
    ring_frame (ring_store { buf := buf, head := h, tail := t, size := 512 } cs)
      = ring_frame { buf := buf, head := h, tail := t, size := 512 } ++ cs := by
  have hc0 : CIRC_CNT ((h : Nat) : Int) ((t : Nat) : Int) 512 = (h + 512 - t) % 512 :=
    CIRC_CNT_eq h t hh ht
  have hc1 : CIRC_CNT (((h + cs.length) % 512 : Nat) : Int) ((t : Nat) : Int) 512
      = (h + 512 - t) % 512 + cs.length := by
    rw [CIRC_CNT_eq _ t (by omega) ht]; omega
  apply List.ext_getElem
  · rw [List.length_append, ring_frame_length, ring_frame_length]
    unfold ring_store
    dsimp only
    rw [hc0, hc1]
  · intro i h1 h2
    rw [ring_frame_length] at h1
    unfold ring_store at h1
    dsimp only at h1
    rw [hc1] at h1
    unfold ring_frame ring_store
    dsimp only
    rw [List.getElem_map, List.getElem_range]
    by_cases hi : i < (h + 512 - t) % 512
    · rw [List.getElem_append_left (by simpa [hc0] using hi), List.getElem_map,
        List.getElem_range, if_neg (by omega)]
    · rw [List.getElem_append_right (by simp [hc0]; omega), if_pos (by omega),
        List.getD_eq_getElem _ _ (by omega)]
      congr 1
      simp only [List.length_map, List.length_range, hc0]
      omega

/-- C14: drop on full.  Take a link whose ring buffer has size 512 and is
empty (`tail = head`, at any position) and put the 511 characters `cs` in with
`yam_slink_putchar`, without a drain.  Then every further `yam_slink_putchar`
call, for any characters `more`, leaves the whole link as it is: buffer
contents, head, tail and `rx_chars`.  `rx_chars` has grown by 511 (counters
are `unsigned int`, hence modulo 2^32), each of the 511 calls has added exactly
1, the 511 characters are the bytes that wait in the ring buffer, in order, and
`tail` has not moved. -/
theorem C14_drop_on_full {σ : Type} (link : yam_slink σ) (cs more : List Nat)
    (hsize : link.recv_buf.size = CIRC_BUF_SZ) (hhead : link.recv_buf.head < CIRC_BUF_SZ)
    (hempty : link.recv_buf.tail = link.recv_buf.head)
    (hrx : link.stats.rx_chars < 4294967296) (hcs : cs.length = CIRC_BUF_SZ - 1) :
    more.foldl yam_slink_putchar (cs.foldl yam_slink_putchar link)
        = cs.foldl yam_slink_putchar link
    ∧ (cs.foldl yam_slink_putchar link).stats.rx_chars
        = (link.stats.rx_chars + 511) % 4294967296
    ∧ (∀ k, k < 511 →
        ((cs.take (k + 1)).foldl yam_slink_putchar link).stats.rx_chars
          = (((cs.take k).foldl yam_slink_putchar link).stats.rx_chars + 1) % 4294967296)
    ∧ ring_frame (cs.foldl yam_slink_putchar link).recv_buf = cs
    ∧ (cs.foldl yam_slink_putchar link).recv_buf.tail = link.recv_buf.tail := by
  simp only [CIRC_BUF_SZ] at hsize hhead hcs
  have htail : link.recv_buf.tail < 512 := by omega
  have hcnt : (link.recv_buf.head + 512 - link.recv_buf.tail) % 512 = 0 := by omega
  have hfold : ∀ l : List Nat, l.length ≤ 511 →
      l.foldl yam_slink_putchar link
        = { link with
            recv_buf := ring_store link.recv_buf l
            stats := { link.stats with
              rx_chars := (link.stats.rx_chars + l.length) % 4294967296 } } :=
    fun l hl => foldl_putchar l link hsize hhead htail (by omega) hrx
  have hfull : ∀ c, yam_slink_putchar (cs.foldl yam_slink_putchar link) c
      = cs.foldl yam_slink_putchar link := by
    intro c
    apply yam_slink_putchar_full
    · rw [hfold cs (by omega)]; exact hsize
    · rw [hfold cs (by omega)]; unfold ring_store; dsimp only; rw [hsize]; omega
    · rw [hfold cs (by omega)]; exact htail
    · rw [hfold cs (by omega)]; unfold ring_store; dsimp only; rw [hsize]; omega
  refine ⟨?_, ?_, ?_, ?_, ?_⟩
  · induction more with
    | nil => rfl
    | cons c more ih => rw [List.foldl_cons, hfull c, ih]
  · rw [hfold cs (by omega), hcs]
  · intro k hk
    rw [hfold _ (by rw [List.length_take]; omega), hfold _ (by rw [List.length_take]; omega)]
    dsimp only
    rw [List.length_take, List.length_take, Nat.min_eq_left (by omega),
      Nat.min_eq_left (by omega)]
    omega
  · rw [hfold cs (by omega)]
    obtain ⟨⟨buf, h, t, sz⟩, inf, len, sid, outf, cb, st⟩ := link
    dsimp only at hsize hhead htail hempty hcnt ⊢
    subst hsize
    rw [ring_frame_ring_store buf h t cs hhead htail (by omega)]
    have : ring_frame { buf := buf, head := h, tail := t, size := 512 } = [] := by
      apply List.eq_nil_of_length_eq_zero
      rw [ring_frame_length]; dsimp only
      rw [CIRC_CNT_eq h t hhead htail]; exact hcnt
    rw [this, List.nil_append]
  · rw [hfold cs (by omega)]; rfl

theorem C14_drop_on_full_witness :
    [1, 2, 3].foldl yam_slink_putchar
        ((List.replicate 511 7).foldl yam_slink_putchar (yam_create_slink Unit 1))
        = (List.replicate 511 7).foldl yam_slink_putchar (yam_create_slink Unit 1)
    ∧ ((List.replicate 511 7).foldl yam_slink_putchar (yam_create_slink Unit 1)).stats.rx_chars
        = 511 :=
  have h := C14_drop_on_full (yam_create_slink Unit 1) (List.replicate 511 7) [1, 2, 3]
    rfl (by decide) rfl (by decide) (List.length_replicate 511 7)
  ⟨h.1, h.2.1⟩

/-! ## The serial link: inbound frames and responses -/

theorem buf_take_succ (b : buf_t) (k : Nat) : buf_take b (k + 1) = buf_take b k ++ [b k] := by
  simp [buf_take, List.range_succ]

theorem buf_take_cons (b : buf_t) (k : Nat) :
    buf_take b (k + 1) = b 0 :: buf_take (buf_shift b 1) k := by
  simp [buf_take, List.range_succ_eq_map, buf_shift, Function.comp_def]

theorem buf_take_congr (b c : buf_t) (k : Nat) (h : ∀ i, i < k → b i = c i) :
    buf_take b k = buf_take c k := by
  unfold buf_take
  apply List.map_congr_left
  intro i hi
  exact h i (List.mem_range.1 hi)

theorem buf_take_buf_copy (dst : buf_t) (l : List Nat) (k : Nat) (hk : k ≤ l.length) :
    buf_take (buf_copy dst 0 l l.length) k = l.take k := by
  apply List.ext_getElem
  · simp [buf_take]; omega
  · intro i h1 h2
    have hi : i < k := by simpa [buf_take] using h1
    simp only [buf_take, List.getElem_map, List.getElem_range, buf_copy, List.getElem_take]
    rw [if_pos (by omega), List.getD_eq_getElem _ _ (by omega)]
    rfl

theorem drained_in_frame {σ : Type} (link : yam_slink σ) (i : Nat)
    (hi : i < (ring_frame link.recv_buf).length) :
    (drained link).in_frame i = (ring_frame link.recv_buf).getD i 0 := by
  unfold drained buf_copy
  dsimp only
  rw [if_pos (by omega)]
  rfl

theorem put_frame_delimiter_drained {σ : Type} (g : globals σ) (crc : List Nat → Nat)
    (fuel : Nat) (link : yam_slink σ) (s : σ)
    (hsize : link.recv_buf.size = CIRC_BUF_SZ) (hhead : link.recv_buf.head < CIRC_BUF_SZ)
    (htail : link.recv_buf.tail < CIRC_BUF_SZ)
    (hfuel : (ring_frame link.recv_buf).length ≤ fuel) :
    yam_slink_put_frame_delimiter g crc fuel link s
      = if (drained link).in_frame_len < MODBUS_SERIAL_APDU_LEN_MIN then
          some (-YAM_ERR_FRAME,
            { drained link with stats := { link.stats with
                bad_frames := u32 ((link.stats.bad_frames : Int) + 1) } }, s)
        else if ((drained link).in_frame 0 : Int) ≠ link.slave_id then
          some (-YAM_ERR_ADDR, drained link, s)
        else if u16 (crc (buf_take (drained link).in_frame
              ((drained link).in_frame_len - MODBUS_CRC_SIZE))) / 256
              ≠ (drained link).in_frame ((drained link).in_frame_len - 1)
            ∨ u16 (crc (buf_take (drained link).in_frame
              ((drained link).in_frame_len - MODBUS_CRC_SIZE))) % 256
              ≠ (drained link).in_frame ((drained link).in_frame_len - MODBUS_CRC_SIZE) then
          some (-YAM_ERR_FRAME,
            { drained link with stats := { link.stats with
                bad_frames := u32 ((link.stats.bad_frames : Int) + 1) } }, s)
        else
          yam_slink_process_in_frame g crc fuel
            { drained link with stats := { link.stats with
                good_frames := u32 ((link.stats.good_frames : Int) + 1) } } s := by
  unfold yam_slink_put_frame_delimiter
  rw [yam_slink_drain_link link fuel hsize hhead htail hfuel]
  rfl

/-- The address filter on a frame that fits `in_frame`.  Let the link hold a
well-formed ring buffer (size 512, head and tail below 512) with a waiting
frame of at most 256 bytes, the capacity of `in_frame`, and let the first byte
of the frame, if there is one, differ from `slave_id`.  Then `yam_slink_put_frame_delimiter` returns with the
host state `s` it was given, so neither the send-frame callback nor any other
callback has run, and `good_frames` and `tx_chars` are as before; when the
frame has at least 5 bytes, the return value is `-YAM_ERR_ADDR`, the link is
the drained link and all statistics, `bad_frames` too, are as before. -/
theorem address_filter_in_capacity {σ : Type} (g : globals σ) (crc : List Nat → Nat) (fuel : Nat)
    (link : yam_slink σ) (s : σ)
    (hsize : link.recv_buf.size = CIRC_BUF_SZ) (hhead : link.recv_buf.head < CIRC_BUF_SZ)
    (htail : link.recv_buf.tail < CIRC_BUF_SZ)
    (_hlen : (ring_frame link.recv_buf).length ≤ MODBUS_SERIAL_APDU_LEN_MAX)
    (hfuel : (ring_frame link.recv_buf).length ≤ fuel)
    (haddr : ∀ b, (ring_frame link.recv_buf).head? = some b → (b : Int) ≠ link.slave_id) :
    ∃ r link1, yam_slink_put_frame_delimiter g crc fuel link s = some (r, link1, s)
      ∧ link1.stats.good_frames = link.stats.good_frames
      ∧ link1.stats.tx_chars = link.stats.tx_chars
      ∧ ((ring_frame link.recv_buf).length < MODBUS_SERIAL_APDU_LEN_MIN
          ∨ (r = -YAM_ERR_ADDR ∧ link1 = drained link ∧ link1.stats = link.stats)) := by
  rw [put_frame_delimiter_drained g crc fuel link s hsize hhead htail hfuel]
  by_cases h5 : (ring_frame link.recv_buf).length < MODBUS_SERIAL_APDU_LEN_MIN
  · rw [if_pos (show (drained link).in_frame_len < MODBUS_SERIAL_APDU_LEN_MIN from h5)]
    exact ⟨_, _, rfl, rfl, rfl, Or.inl h5⟩
  · have h5n : 5 ≤ (ring_frame link.recv_buf).length := by
      have hmin : MODBUS_SERIAL_APDU_LEN_MIN = 5 := rfl
      rw [hmin] at h5; omega
    have h5d : ¬ (drained link).in_frame_len < MODBUS_SERIAL_APDU_LEN_MIN := h5
    have hne : ((drained link).in_frame 0 : Int) ≠ link.slave_id := by
      rw [drained_in_frame link 0 (by omega)]
      apply haddr
      cases hl : ring_frame link.recv_buf with
      | nil => rw [hl] at h5n; simp at h5n
      | cons a l => rfl
    rw [if_neg h5d, if_pos hne]
    exact ⟨_, _, rfl, rfl, rfl, Or.inr ⟨rfl, rfl, rfl⟩⟩

theorem address_filter_in_capacity_example :
    run_frame (rec_globals [plain_reg _ 40001 1 _integer 0 REG_PERM_RW] (fun _ => 0x1234)) 10
        (rec_link 2 [1, 3, 0, 0, 0, 1, 0x84, 0x0A]) []
      = some (-1, { rx_chars := 8, tx_chars := 0, bad_frames := 0, good_frames := 0 }, []) := by
  obtain ⟨r, link1, hrun, _, _, h⟩ := address_filter_in_capacity
    (rec_globals [plain_reg _ 40001 1 _integer 0 REG_PERM_RW] (fun _ => 0x1234)) modbus_crc 10
    (rec_link 2 [1, 3, 0, 0, 0, 1, 0x84, 0x0A]) [] (by decide) (by decide) (by decide)
    (by decide) (by decide)
    (by
      intro b hb
      have e : (ring_frame (rec_link 2 [1, 3, 0, 0, 0, 1, 0x84, 0x0A]).recv_buf).head? = some 1 := by
        decide
      rw [e] at hb
      cases hb
      decide)
  rcases h with h | ⟨hr, _, hs⟩
  · exact absurd h (by decide)
  · unfold run_frame
    rw [hrun, hr]
    simp only [Option.map_some', hs]
    decide

/-- Frame rejection on a frame that fits `in_frame`.  Let the link hold a
well-formed ring buffer with a waiting frame of at most 256 bytes.  If the frame is shorter than 5 bytes, or
it starts with `slave_id` and its last two bytes are not
`(c & 0xFF, c >> 8)` for `c` the 16-bit CRC of all bytes but the last two, then
`yam_slink_put_frame_delimiter` returns `-YAM_ERR_FRAME`; the link is the
drained link with `bad_frames` incremented by 1 (as `unsigned int`) and all
other statistics as before; the host state is the one given, so no callback
has run. -/
theorem frame_rejection_in_capacity {σ : Type} (g : globals σ) (crc : List Nat → Nat) (fuel : Nat)
    (link : yam_slink σ) (s : σ)
    (hsize : link.recv_buf.size = CIRC_BUF_SZ) (hhead : link.recv_buf.head < CIRC_BUF_SZ)
    (htail : link.recv_buf.tail < CIRC_BUF_SZ)
    (_hlen : (ring_frame link.recv_buf).length ≤ MODBUS_SERIAL_APDU_LEN_MAX)
    (hfuel : (ring_frame link.recv_buf).length ≤ fuel)
    (hbad : (ring_frame link.recv_buf).length < MODBUS_SERIAL_APDU_LEN_MIN
      ∨ (((ring_frame link.recv_buf).getD 0 0 : Int) = link.slave_id
        ∧ [(ring_frame link.recv_buf).getD ((ring_frame link.recv_buf).length - 2) 0,
            (ring_frame link.recv_buf).getD ((ring_frame link.recv_buf).length - 1) 0]
          ≠ [u16 (crc ((ring_frame link.recv_buf).take
                ((ring_frame link.recv_buf).length - 2))) &&& 0xFF,
             u16 (crc ((ring_frame link.recv_buf).take
                ((ring_frame link.recv_buf).length - 2))) >>> 8])) :
    yam_slink_put_frame_delimiter g crc fuel link s
      = some (-YAM_ERR_FRAME,
          { drained link with stats := { link.stats with
              bad_frames := u32 ((link.stats.bad_frames : Int) + 1) } }, s) := by
  rw [put_frame_delimiter_drained g crc fuel link s hsize hhead htail hfuel]
  by_cases h5 : (ring_frame link.recv_buf).length < MODBUS_SERIAL_APDU_LEN_MIN
  · rw [if_pos (show (drained link).in_frame_len < MODBUS_SERIAL_APDU_LEN_MIN from h5)]
  · have h5n : 5 ≤ (ring_frame link.recv_buf).length := by
      have hmin : MODBUS_SERIAL_APDU_LEN_MIN = 5 := rfl
      rw [hmin] at h5; omega
    have h5d : ¬ (drained link).in_frame_len < MODBUS_SERIAL_APDU_LEN_MIN := h5
    rcases hbad with hb | ⟨ha, hc⟩
    · exact absurd hb h5
    rw [if_neg h5d, if_neg (by rw [drained_in_frame link 0 (by omega), ha]; exact fun h => h rfl)]
    have hl : (drained link).in_frame_len = (ring_frame link.recv_buf).length := rfl
    have e1 : ∀ c : Nat, c &&& 0xFF = c % 256 := fun c => Nat.and_pow_two_sub_one_eq_mod c 8
    have e2 : ∀ c : Nat, c >>> 8 = c / 256 := fun c => by rw [Nat.shiftRight_eq_div_pow]
    rw [e1, e2] at hc
    rw [if_pos]
    rw [hl, drained_in_frame link _ (by omega), show MODBUS_CRC_SIZE = 2 from rfl,
      drained_in_frame link _ (by omega)]
    have ht : buf_take (drained link).in_frame ((ring_frame link.recv_buf).length - 2)
        = (ring_frame link.recv_buf).take ((ring_frame link.recv_buf).length - 2) :=
      buf_take_buf_copy _ _ _ (by omega)
    rw [ht]
    by_contra hcon
    apply hc
    rw [not_or, not_not, not_not] at hcon
    rw [hcon.1, hcon.2]

theorem frame_rejection_in_capacity_example :
    run_frame (rec_globals [plain_reg _ 40001 1 _integer 0 REG_PERM_RW] (fun _ => 0x1234)) 10
        (rec_link 1 [1, 3, 0, 0, 0, 1, 0, 0]) []
      = some (-3, { rx_chars := 8, tx_chars := 0, bad_frames := 1, good_frames := 0 }, [])
    ∧ run_frame (rec_globals [plain_reg _ 40001 1 _integer 0 REG_PERM_RW] (fun _ => 0x1234)) 10
        (rec_link 1 [1, 3, 0x84, 0x0A]) []
      = some (-3, { rx_chars := 4, tx_chars := 0, bad_frames := 1, good_frames := 0 }, []) := by
  constructor
  · have hrun := frame_rejection_in_capacity
      (rec_globals [plain_reg _ 40001 1 _integer 0 REG_PERM_RW] (fun _ => 0x1234)) modbus_crc 10
      (rec_link 1 [1, 3, 0, 0, 0, 1, 0, 0]) [] (by decide) (by decide) (by decide)
      (by decide) (by decide) (Or.inr (by decide!))
    unfold run_frame
    rw [hrun]
    decide
  · have hrun := frame_rejection_in_capacity
      (rec_globals [plain_reg _ 40001 1 _integer 0 REG_PERM_RW] (fun _ => 0x1234)) modbus_crc 10
      (rec_link 1 [1, 3, 0x84, 0x0A]) [] (by decide) (by decide) (by decide)
      (by decide) (by decide) (Or.inl (by decide))
    unfold run_frame
    rw [hrun]
    decide

/-- Response framing on a frame that fits `in_frame`.  Let the link hold a
well-formed ring buffer with a waiting frame of 5 to 256 bytes that starts with `slave_id` and ends with
`(c & 0xFF, c >> 8)` for `c` the 16-bit CRC of the bytes before, let
`yam_app_input` on the PDU of the frame return the length `n` with
`0 ≤ n ≤ 253`, the response buffer `r` and the host state `s1`, and let the
callback `cb` be installed.  Then `yam_slink_put_frame_delimiter` returns 0;
`good_frames` is incremented by 1 and `tx_chars` by `n + 3` (as `unsigned int`);
the host state is `cb out (n + 3) s1`, one call of the callback after
`yam_app_input`, and the `n + 3` bytes of the frame `out` it gets are the first
byte of the request, the `n` bytes of the response PDU (an exception response
as well as a normal one), and `(c2 & 0xFF, c2 >> 8)` for `c2` the 16-bit CRC of
these `n + 1` bytes. -/
theorem response_framing_in_capacity {σ : Type} (g : globals σ) (crc : List Nat → Nat) (fuel : Nat)
    (link : yam_slink σ) (s s1 : σ) (n : Int) (r : buf_t) (cb : buf_t → Nat → σ → σ)
    (hsize : link.recv_buf.size = CIRC_BUF_SZ) (hhead : link.recv_buf.head < CIRC_BUF_SZ)
    (htail : link.recv_buf.tail < CIRC_BUF_SZ)
    (_hlen : (ring_frame link.recv_buf).length ≤ MODBUS_SERIAL_APDU_LEN_MAX)
    (hfuel : (ring_frame link.recv_buf).length ≤ fuel)
    (hmin : MODBUS_SERIAL_APDU_LEN_MIN ≤ (ring_frame link.recv_buf).length)
    (haddr : ((ring_frame link.recv_buf).getD 0 0 : Int) = link.slave_id)
    (hcrc : [(ring_frame link.recv_buf).getD ((ring_frame link.recv_buf).length - 2) 0,
            (ring_frame link.recv_buf).getD ((ring_frame link.recv_buf).length - 1) 0]
          = [u16 (crc ((ring_frame link.recv_buf).take
                ((ring_frame link.recv_buf).length - 2))) &&& 0xFF,
             u16 (crc ((ring_frame link.recv_buf).take
                ((ring_frame link.recv_buf).length - 2))) >>> 8])
    (happ : yam_app_input g fuel ((ring_frame link.recv_buf).getD 0 0)
        { payload := buf_shift (drained link).in_frame 1
          len := u8 (((ring_frame link.recv_buf).length : Int) - 3) }
        (buf_shift link.out_frame 1) MODBUS_PDU_LEN_MAX s = some (n, r, s1))
    (hn : 0 ≤ n) (_hn2 : n ≤ MODBUS_PDU_LEN_MAX)
    (hcb : link.send_frame_cb = some cb) :
    ∃ out : buf_t,
      yam_slink_put_frame_delimiter g crc fuel link s
        = some (0,
            { drained link with
              out_frame := out
              stats := { link.stats with
                good_frames := u32 ((link.stats.good_frames : Int) + 1)
                tx_chars := u32 ((link.stats.tx_chars : Int) + (n + 3)) } },
            cb out (n.toNat + 3) s1)
      ∧ buf_take out (n.toNat + 3)
        = (ring_frame link.recv_buf).getD 0 0 :: buf_take r n.toNat
          ++ [u16 (crc ((ring_frame link.recv_buf).getD 0 0 :: buf_take r n.toNat)) &&& 0xFF,
              u16 (crc ((ring_frame link.recv_buf).getD 0 0 :: buf_take r n.toNat)) >>> 8] := by
  have e1 : ∀ c : Nat, c &&& 0xFF = c % 256 := fun c => Nat.and_pow_two_sub_one_eq_mod c 8
  have e2 : ∀ c : Nat, c >>> 8 = c / 256 := fun c => by rw [Nat.shiftRight_eq_div_pow]
  have h5n : 5 ≤ (ring_frame link.recv_buf).length := hmin
  have h5d : ¬ (drained link).in_frame_len < MODBUS_SERIAL_APDU_LEN_MIN :=
    Nat.not_lt.2 hmin
  have hl : (drained link).in_frame_len = (ring_frame link.recv_buf).length := rfl
  have ht : buf_take (drained link).in_frame ((ring_frame link.recv_buf).length - 2)
      = (ring_frame link.recv_buf).take ((ring_frame link.recv_buf).length - 2) :=
    buf_take_buf_copy _ _ _ (by omega)
  have h0 := drained_in_frame link 0 (by omega)
  rw [e1, e2] at hcrc
  obtain ⟨hc1, hc2⟩ : (ring_frame link.recv_buf).getD ((ring_frame link.recv_buf).length - 2) 0
        = u16 (crc ((ring_frame link.recv_buf).take
            ((ring_frame link.recv_buf).length - 2))) % 256
      ∧ (ring_frame link.recv_buf).getD ((ring_frame link.recv_buf).length - 1) 0
        = u16 (crc ((ring_frame link.recv_buf).take
            ((ring_frame link.recv_buf).length - 2))) / 256 := by
    simpa using hcrc
  rw [put_frame_delimiter_drained g crc fuel link s hsize hhead htail hfuel,
    if_neg h5d, if_neg (by rw [h0, haddr]; exact fun h => h rfl), if_neg]
  swap
  · rw [hl, drained_in_frame link _ (by omega), show MODBUS_CRC_SIZE = 2 from rfl,
      drained_in_frame link _ (by omega), ht, hc1, hc2]
    simp
  obtain ⟨N, rfl⟩ : ∃ N : Nat, n = (N : Int) := ⟨n.toNat, by omega⟩
  have hlen3 : (((drained link).in_frame_len : Int) - (MODBUS_ADDR_SIZE : Nat)
      - (MODBUS_CRC_SIZE : Nat)) = ((ring_frame link.recv_buf).length : Int) - 3 := by
    have a1 : ((MODBUS_ADDR_SIZE : Nat) : Int) = 1 := rfl
    have a2 : ((MODBUS_CRC_SIZE : Nat) : Int) = 2 := rfl
    rw [hl, a1, a2]; omega
  unfold yam_slink_process_in_frame
  dsimp only
  rw [hlen3, h0]
  erw [happ]
  dsimp only
  rw [if_neg (by omega)]
  have hcb2 : (drained link).send_frame_cb = some cb := hcb
  rw [hcb2]
  dsimp only
  have t1 : ((N : Int) + 1).toNat = N + 1 := by omega
  have t2 : ((N : Int) + 1 + 1).toNat = N + 2 := by omega
  have t3 : ((N : Int) + 1 + 1 + 1).toNat = N + 3 := by omega
  have t4 : ((N : Int) + 1 + 1 + 1) = (N : Int) + 3 := by omega
  have t5 : (N : Int).toNat = N := by omega
  rw [t1, t2, t3, t4, t5]
  refine ⟨_, rfl, ?_⟩
  have hcrcarg : buf_take (buf_set (buf_unshift (drained link).out_frame MODBUS_ADDR_SIZE r) 0
      ((ring_frame link.recv_buf).getD 0 0)) (N + 1)
      = (ring_frame link.recv_buf).getD 0 0 :: buf_take r N := by
    rw [buf_take_cons, buf_set_same]
    congr 1
  rw [hcrcarg]
  obtain ⟨c, hc⟩ : ∃ c, c = u16 (crc ((ring_frame link.recv_buf).getD 0 0 :: buf_take r N)) :=
    ⟨_, rfl⟩
  have hclt : c < 65536 := by rw [hc]; unfold u16; omega
  rw [← hc, e1, e2]
  rw [buf_take_succ, buf_take_succ, buf_take_cons]
  have b0 : ∀ x y z : Nat, buf_set (buf_set (buf_set
      (buf_unshift (drained link).out_frame MODBUS_ADDR_SIZE r) 0 x) (N + 1) y) (N + 2) z 0
      = x := by
    intro x y z
    simp [buf_set]
  have b1 : ∀ x y z : Nat, buf_set (buf_set (buf_set
      (buf_unshift (drained link).out_frame MODBUS_ADDR_SIZE r) 0 x) (N + 1) y) (N + 2) z (N + 1)
      = y := by
    intro x y z
    simp [buf_set]
  have b2 : ∀ x y z : Nat, buf_set (buf_set (buf_set
      (buf_unshift (drained link).out_frame MODBUS_ADDR_SIZE r) 0 x) (N + 1) y) (N + 2) z (N + 2)
      = z := by
    intro x y z
    simp [buf_set]
  rw [b0, b1, b2]
  have hu1 : u8 (c : Int) = c % 256 := by unfold u8; omega
  have hu2 : u8 ((c / 256 : Nat) : Int) = c / 256 := by unfold u8; omega
  rw [hu1, hu2]
  have hmid : buf_take (buf_shift (buf_set (buf_set (buf_set
      (buf_unshift (drained link).out_frame MODBUS_ADDR_SIZE r) 0
        ((ring_frame link.recv_buf).getD 0 0)) (N + 1) (c % 256)) (N + 2) (c / 256)) 1) N
      = buf_take r N := by
    apply buf_take_congr
    intro i hi
    simp only [buf_shift, buf_set, buf_unshift, MODBUS_ADDR_SIZE]
    rw [if_neg (by omega), if_neg (by omega), if_neg (by omega), if_neg (by omega)]
    simp
  rw [hmid]
  simp

theorem response_framing_in_capacity_example :
    run_frame (rec_globals [plain_reg _ 40001 1 _integer 0 REG_PERM_RW] (fun _ => 0x1234)) 10
        (rec_link 1 [1, 3, 0, 0, 0, 1, 0x84, 0x0A]) []
      = some (0, { rx_chars := 8, tx_chars := 7, bad_frames := 0, good_frames := 1 },
          [cb_call.load 40001, cb_call.send_frame [1, 3, 2, 0x12, 0x34, 0xB5, 0x33]])
    ∧ run_frame (rec_globals [] (fun _ => 0)) 10 (rec_link 1 [1, 3, 0, 0, 0, 1, 0x84, 0x0A]) []
      = some (0, { rx_chars := 8, tx_chars := 5, bad_frames := 0, good_frames := 1 },
          [cb_call.send_frame [1, 0x83, 2, 0xC0, 0xF1]]) := by
  constructor
  · obtain ⟨out, hrun, hbytes⟩ := response_framing_in_capacity
      (rec_globals [plain_reg _ 40001 1 _integer 0 REG_PERM_RW] (fun _ => 0x1234)) modbus_crc 10
      (rec_link 1 [1, 3, 0, 0, 0, 1, 0x84, 0x0A]) [] [cb_call.load 40001] 4
      ((yam_app_input
        (rec_globals [plain_reg _ 40001 1 _integer 0 REG_PERM_RW] (fun _ => 0x1234)) 10 1
        { payload := buf_shift (drained (rec_link 1 [1, 3, 0, 0, 0, 1, 0x84, 0x0A])).in_frame 1
          len := 5 } (fun _ => 0) MODBUS_PDU_LEN_MAX []).getD (0, fun _ => 0, [])).2.1
      rec_send_frame_cb (by decide) (by decide) (by decide) (by decide) (by decide) (by decide)
      (by decide) (by decide!) (by rfl) (by decide) (by decide) rfl
    unfold run_frame
    rw [hrun]
    simp only [Option.map_some', rec_send_frame_cb]
    erw [hbytes]
    decide!
  · obtain ⟨out, hrun, hbytes⟩ := response_framing_in_capacity (rec_globals [] (fun _ => 0)) modbus_crc 10
      (rec_link 1 [1, 3, 0, 0, 0, 1, 0x84, 0x0A]) [] [] 2
      (buf_set (buf_set (fun _ => 0) 0 0x83) 1 2) rec_send_frame_cb
      (by decide) (by decide) (by decide) (by decide) (by decide) (by decide) (by decide)
      (by decide!) (by rfl) (by decide) (by decide) rfl
    unfold run_frame
    rw [hrun]
    simp only [Option.map_some', rec_send_frame_cb]
    erw [hbytes]
    decide!

/-! ## The file-record service: the packet-file handlers -/

theorem buf_take_buf_copy_off (dst : buf_t) (off : Nat) (l : List Nat) (n : Nat)
    (hn : n ≤ l.length) :
    buf_take (buf_shift (buf_copy dst off l n) off) n = l.take n := by
  apply List.ext_getElem
  · simp [buf_take]; omega
  · intro i h1 h2
    have hi : i < n := by simpa [buf_take] using h1
    simp only [buf_take, List.getElem_map, List.getElem_range, buf_copy, buf_shift,
      List.getElem_take]
    rw [if_pos (by omega), List.getD_eq_getElem _ _ (by omega)]
    congr 1
    omega

/-- C21: packet-file read handler.  Let the backend `io` be registered for
`type` and let the six request bytes be below 256.  A request whose length is
not 6 returns `-REG_ERR_DATA_VALUE` with the buffer and the host state
untouched, so the backend is not invoked.  For a 6-byte request the host state
is the one that a single call `io.read type (256 * b0 + b1) packet_id 1`
leaves, with `packet_id = b5` when `b2 = b3 = 0xFF` and `0xFF` otherwise.  If
that call returns a non-negative status and a record `rc` whose `len` is at
most 255, within its content, and `rc.len + 1 ≤ resp_buf_sz`, then the handler
returns `rc.len + 1`, the `rc.len + 1` bytes from `rp` on are the low byte of
`remaining_recs_num` followed by the first `rc.len` content bytes, and no
other byte of the buffer changes. -/
theorem C21_packet_file_read {σ : Type} (rec_io_table : List (rec_io_map_t σ)) (type : Int)
    (io : yam_file_rec_io_t σ) (req_buf : buf_t) (req_len : Nat) (resp_buf : buf_t)
    (rp resp_buf_sz : Nat) (s : σ)
    (hio : find_rec_io rec_io_table type = some io)
    (hb : ∀ i, i < 6 → req_buf i < 256) :
    (req_len ≠ 6 →
      packet_file_read rec_io_table type req_buf req_len resp_buf rp resp_buf_sz s
        = (-REG_ERR_DATA_VALUE, resp_buf, s))
    ∧ (packet_file_read rec_io_table type req_buf 6 resp_buf rp resp_buf_sz s).2.2
        = (io.read type ((256 * req_buf 0 + req_buf 1 : Nat) : Int)
            ((if req_buf 2 = 0xFF ∧ req_buf 3 = 0xFF then req_buf 5 else 0xFF : Nat) : Int) 1 s).2.2
    ∧ (∀ rc, (io.read type ((256 * req_buf 0 + req_buf 1 : Nat) : Int)
            ((if req_buf 2 = 0xFF ∧ req_buf 3 = 0xFF then req_buf 5 else 0xFF : Nat) : Int) 1 s).2.1 = some rc →
        0 ≤ (io.read type ((256 * req_buf 0 + req_buf 1 : Nat) : Int)
            ((if req_buf 2 = 0xFF ∧ req_buf 3 = 0xFF then req_buf 5 else 0xFF : Nat) : Int) 1 s).1 →
        rc.len ≤ FILE_REC_MAX_LEN → rc.len ≤ rc.content.length → rc.len + 1 ≤ resp_buf_sz →
        (packet_file_read rec_io_table type req_buf 6 resp_buf rp resp_buf_sz s).1 = rc.len + 1
        ∧ buf_take (buf_shift
            (packet_file_read rec_io_table type req_buf 6 resp_buf rp resp_buf_sz s).2.1 rp)
            (rc.len + 1) = u8 rc.remaining_recs_num :: rc.content.take rc.len
        ∧ ∀ j, j < rp ∨ rp + rc.len + 1 ≤ j →
            (packet_file_read rec_io_table type req_buf 6 resp_buf rp resp_buf_sz s).2.1 j
              = resp_buf j) := by
  have h0 := hb 0 (by omega)
  have h1 := hb 1 (by omega)
  have h5 := hb 5 (by omega)
  have efn : u16 ((req_buf 0 : Int) * 256 + (req_buf 1 : Int)) = 256 * req_buf 0 + req_buf 1 := by
    unfold u16; omega
  have epid : (if req_buf 2 = 0xFF ∧ req_buf 3 = 0xFF then u8 (req_buf 5 : Int) else 0xFF)
      = (if req_buf 2 = 0xFF ∧ req_buf 3 = 0xFF then req_buf 5 else 0xFF) := by
    rw [u8_of_lt _ h5]
  refine ⟨?_, ?_, ?_⟩
  · intro hne
    unfold packet_file_read
    rw [if_pos hne]
  · unfold packet_file_read
    rw [if_neg (by simp)]
    simp only [hio, efn, epid]
    rcases hrd : io.read type ((256 * req_buf 0 + req_buf 1 : Nat) : Int)
        ((if req_buf 2 = 0xFF ∧ req_buf 3 = 0xFF then req_buf 5 else 0xFF : Nat) : Int) 1 s with ⟨r, rc, s1⟩
    cases rc with
    | none => rfl
    | some rc =>
      dsimp only
      split
      · rfl
      · split <;> rfl
  · intro rc hrc hr hlen hcont hfit
    unfold packet_file_read
    rw [if_neg (by simp)]
    simp only [hio, efn, epid]
    rcases hrd : io.read type ((256 * req_buf 0 + req_buf 1 : Nat) : Int)
        ((if req_buf 2 = 0xFF ∧ req_buf 3 = 0xFF then req_buf 5 else 0xFF : Nat) : Int) 1 s with ⟨r, rc2, s1⟩
    rw [hrd] at hrc hr
    dsimp only at hrc hr
    subst hrc
    dsimp only
    have hL : rc.len ≤ 255 := hlen
    have esz : size_t ((rc.len : Int) + 1) = rc.len + 1 := by unfold size_t; omega
    rw [if_neg (by omega), esz, if_neg (by omega)]
    dsimp only
    refine ⟨?_, ?_, ?_⟩
    · unfold s32; push_cast; omega
    · rw [buf_take_cons]
      congr 1
      · simp [buf_shift, buf_copy, buf_set]
      · have : buf_shift (buf_shift (buf_copy (buf_set resp_buf rp (u8 rc.remaining_recs_num))
            (rp + 1) rc.content rc.len) rp) 1
            = buf_shift (buf_copy (buf_set resp_buf rp (u8 rc.remaining_recs_num))
            (rp + 1) rc.content rc.len) (rp + 1) := by
          funext i
          simp only [buf_shift]
          congr 1
          omega
        rw [this]
        exact buf_take_buf_copy_off _ _ _ _ hcont
    · intro j hj
      unfold buf_copy buf_set
      rw [if_neg (by omega), if_neg (by omega)]

theorem C21_packet_file_read_witness :
    packet_file_read
        [{ type_code := MODBUS_PACKET_FILE,
           io := some (rec_io_ok { content := [0x41, 0x42, 0x43], len := 2,
                                   remaining_recs_num := 3 }) }]
        MODBUS_PACKET_FILE (buf_of [0, 1, 0xFF, 0xFF, 0, 7] (fun _ => 0)) 5 (fun _ => 0) 2 251 []
      = (-REG_ERR_DATA_VALUE, fun _ => 0, [])
    ∧ (packet_file_read
        [{ type_code := MODBUS_PACKET_FILE,
           io := some (rec_io_ok { content := [0x41, 0x42, 0x43], len := 2,
                                   remaining_recs_num := 3 }) }]
        MODBUS_PACKET_FILE (buf_of [0, 1, 0xFF, 0xFF, 0, 7] (fun _ => 0)) 6 (fun _ => 0) 2 251
        []).2.2 = [cb_call.rec_read 16 1 7 1]
    ∧ (packet_file_read
        [{ type_code := MODBUS_PACKET_FILE,
           io := some (rec_io_ok { content := [0x41, 0x42, 0x43], len := 2,
                                   remaining_recs_num := 3 }) }]
        MODBUS_PACKET_FILE (buf_of [0, 1, 0xFF, 0xFF, 0, 7] (fun _ => 0)) 6 (fun _ => 0) 2 251
        []).1 = 3
    ∧ buf_take (buf_shift (packet_file_read
        [{ type_code := MODBUS_PACKET_FILE,
           io := some (rec_io_ok { content := [0x41, 0x42, 0x43], len := 2,
                                   remaining_recs_num := 3 }) }]
        MODBUS_PACKET_FILE (buf_of [0, 1, 0xFF, 0xFF, 0, 7] (fun _ => 0)) 6 (fun _ => 0) 2 251
        []).2.1 2) 3 = [3, 0x41, 0x42] :=
  have h := C21_packet_file_read
    [{ type_code := MODBUS_PACKET_FILE,
       io := some (rec_io_ok { content := [0x41, 0x42, 0x43], len := 2,
                               remaining_recs_num := 3 }) }]
    MODBUS_PACKET_FILE
    (rec_io_ok { content := [0x41, 0x42, 0x43], len := 2, remaining_recs_num := 3 })
    (buf_of [0, 1, 0xFF, 0xFF, 0, 7] (fun _ => 0)) 5 (fun _ => 0) 2 251 [] rfl
    (by intro i hi; have : i = 0 ∨ i = 1 ∨ i = 2 ∨ i = 3 ∨ i = 4 ∨ i = 5 := by omega
        rcases this with rfl | rfl | rfl | rfl | rfl | rfl <;> decide)
  have h3 := h.2.2 { content := [0x41, 0x42, 0x43], len := 2, remaining_recs_num := 3 } rfl
    (by decide) (by decide) (by decide) (by decide)
  ⟨h.1 (by decide), h.2.1, h3.1, h3.2.1⟩

/-- C22: what `packet_file_write` leaves in the response.  For the request
`00 01 FF FF 07 02 41 42` of type 16 with a backend that succeeds, and every
response buffer: the backend is called once with file 1, packet id 7, one
record of length 2 with content `41 42` and `remaining_recs_num` 2; the
handler returns 6 and stores `07 00 01` in bytes 0..2.  Bytes 3..5 are never
written: they are what the buffer held before.  Through `yam_app_input` on a
buffer filled with `AA` the response PDU is `15 06 07 00 01 AA AA AA`. -/
theorem C22_write_leaves_trailing_bytes (resp_buf : buf_t) :
    packet_file_write [{ type_code := MODBUS_PACKET_FILE, io := some (rec_io_ok { content := [], len := 0, remaining_recs_num := 0 }) }]
        MODBUS_PACKET_FILE (buf_of [0, 1, 0xFF, 0xFF, 7, 2, 0x41, 0x42] (fun _ => 0)) 8
        resp_buf 0 251 []
      = (6, buf_set (buf_set (buf_set resp_buf 0 7) 1 0) 2 1,
          [cb_call.rec_write 16 1 7 1
            { content := [0x41, 0x42], len := 2, remaining_recs_num := 2 }])
    ∧ buf_take (buf_set (buf_set (buf_set resp_buf 0 7) 1 0) 2 1) 6
      = [7, 0, 1, resp_buf 3, resp_buf 4, resp_buf 5]
    ∧ (yam_app_input (rec_globals_io (rec_io_ok { content := [], len := 0, remaining_recs_num := 0 })) 1 1
        { payload := buf_of [0x15, 9, 0x10, 0, 1, 0xFF, 0xFF, 7, 2, 0x41, 0x42] (fun _ => 0),
          len := 11 } (fun _ => 0xAA) MODBUS_PDU_LEN_MAX []).map
        (fun r => (r.1, buf_take r.2.1 8, r.2.2))
      = some (8, [0x15, 6, 7, 0, 1, 0xAA, 0xAA, 0xAA],
          [cb_call.rec_write 16 1 7 1
            { content := [0x41, 0x42], len := 2, remaining_recs_num := 2 }]) := by
  refine ⟨?_, ?_, ?_⟩
  · rfl
  · simp [buf_take, List.range, List.range.loop, buf_set]
  · decide

/-! ## The register model: lookup -/

/-- C23: the lookup `register_find`.  For every table, `ref` and `options`:
the result is the entry `r` (return value 0, `*reg` set to `r`) exactly when
the table is `pre ++ r :: post`, `r` satisfies the match condition and no
entry of `pre` does; the result is `none` (return value -1, `*reg` untouched)
exactly when no entry satisfies it.  The match condition is
`r.ref ≤ ref < r.ref + r.size` when `OPT_BITMAP` is set in `options` and
`ref = r.ref` otherwise. -/
theorem C23_register_find {σ : Type} (registers : List (reg_t σ)) (ref options : Nat) :
    (∀ r, register_find registers ref options = some r ↔
      ∃ pre post, registers = pre ++ r :: post
        ∧ (if options &&& OPT_BITMAP ≠ 0 then r.ref ≤ ref ∧ ref < r.ref + r.size
            else ref = r.ref)
        ∧ ∀ x ∈ pre, ¬ (if options &&& OPT_BITMAP ≠ 0 then x.ref ≤ ref ∧ ref < x.ref + x.size
            else ref = x.ref))
    ∧ (register_find registers ref options = none ↔
      ∀ x ∈ registers, ¬ (if options &&& OPT_BITMAP ≠ 0 then x.ref ≤ ref ∧ ref < x.ref + x.size
            else ref = x.ref)) := by
  unfold register_find
  by_cases hb : options &&& OPT_BITMAP ≠ 0
  · simp only [if_pos hb]
    constructor
    · intro r
      rw [List.find?_eq_some]
      constructor
      · rintro ⟨hp, pre, post, hl, hpre⟩
        refine ⟨pre, post, hl, ?_, ?_⟩
        · simp at hp; omega
        · intro x hx
          have := hpre x hx
          simp at this; omega
      · rintro ⟨pre, post, hl, hp, hpre⟩
        refine ⟨?_, pre, post, hl, ?_⟩
        · simp; omega
        · intro x hx
          have := hpre x hx
          simp; omega
    · rw [List.find?_eq_none]
      constructor
      · intro h x hx
        have := h x hx
        simp at this; omega
      · intro h x hx
        have := h x hx
        simp; omega
  · simp only [if_neg hb]
    constructor
    · intro r
      rw [List.find?_eq_some]
      constructor
      · rintro ⟨hp, pre, post, hl, hpre⟩
        refine ⟨pre, post, hl, ?_, ?_⟩
        · simp at hp; omega
        · intro x hx
          have := hpre x hx
          simp at this; omega
      · rintro ⟨pre, post, hl, hp, hpre⟩
        refine ⟨?_, pre, post, hl, ?_⟩
        · simp; omega
        · intro x hx
          have := hpre x hx
          simp; omega
    · rw [List.find?_eq_none]
      constructor
      · intro h x hx
        have := h x hx
        simp at this; omega
      · intro h x hx
        have := h x hx
        simp; omega

/-! ## 16-bit and 8-bit truncation in the application dispatch -/

/-- C24: the address translation wraps at 16 bits.  With a register at ref 1
and one at ref 40001 (the value of a register being its ref): the function-3
request `03 63 C0 00 01` for offset 25536 reads the register with ref 1
(25536 + 40001 = 65537, reduced to 1) and answers `03 02 00 01`; the function-6
request `06 63 C0 AB CD` and the function-16 request `10 63 C0 00 01 02 AB CD`
save 0xABCD to ref 1; the function-2 request `02 D8 F0 00 08` for offset 55536
reads the block at ref 1 (55536 + 10001 = 65537). -/
theorem C24_address_wraps :
    run_pdu (rec_globals [plain_reg _ 1 1 _integer 0 REG_PERM_RW,
          plain_reg _ 40001 1 _integer 0 REG_PERM_RW] (fun ref => ref)) 1
        [3, 0x63, 0xC0, 0, 1] 4 []
      = some (4, [3, 2, 0, 1], [cb_call.load 1])
    ∧ run_pdu (rec_globals [plain_reg _ 1 1 _integer 0 REG_PERM_RW,
          plain_reg _ 40001 1 _integer 0 REG_PERM_RW] (fun ref => ref)) 1
        [6, 0x63, 0xC0, 0xAB, 0xCD] 5 []
      = some (5, [6, 0x63, 0xC0, 0xAB, 0xCD], [cb_call.save 1 0xABCD])
    ∧ run_pdu (rec_globals [plain_reg _ 1 1 _integer 0 REG_PERM_RW,
          plain_reg _ 40001 1 _integer 0 REG_PERM_RW] (fun ref => ref)) 1
        [16, 0x63, 0xC0, 0, 1, 2, 0xAB, 0xCD] 5 []
      = some (5, [16, 0x63, 0xC0, 0, 1], [cb_call.save 1 0xABCD])
    ∧ run_pdu (rec_globals [plain_reg _ 1 8 _integer 0 REG_PERM_RW] (fun _ => 0x5A)) 1
        [2, 0xD8, 0xF0, 0, 8] 3 []
      = some (3, [2, 1, 0x5A], [cb_call.load 1]) := by
  decide!

/-- C25: the byte count of Read Holding Registers is truncated to 8 bits.
With a register at ref 40001: the request `03 00 00 00 80` for 128 registers
returns the non-exception response `03 00` of length 2 without loading any
register (128 * 2 = 256 is reduced to 0); the request `03 00 00 00 81` for 129
registers returns `03 02 12 34` of length 4 after loading one register
(129 * 2 = 258 is reduced to 2). -/
theorem C25_byte_count_truncated :
    run_pdu (rec_globals [plain_reg _ 40001 1 _integer 0 REG_PERM_RW] (fun _ => 0x1234)) 200
        [3, 0, 0, 0, 0x80] 4 []
      = some (2, [3, 0, 0, 0], [])
    ∧ run_pdu (rec_globals [plain_reg _ 40001 1 _integer 0 REG_PERM_RW] (fun _ => 0x1234)) 200
        [3, 0, 0, 0, 0x81] 6 []
      = some (4, [3, 2, 0x12, 0x34, 0, 0], [cb_call.load 40001]) := by
  decide!

/-- C26: reading a bitmap across blocks.  With two blocks of 4 coils at refs
1 and 5, all coils set: the request `01 00 00 00 08` for the 8 coils loads both
blocks and answers the bitmap `0F`, not `FF`: the second block is masked at
output bit offsets 4..7, where its 4-bit value has no bits.  With eight blocks
of 32 coils at refs 1, 33, ..., all coils set: the request `01 00 00 01 00` for
256 coils answers length 34 and byte count 32 without loading any block (the
bit count 256 is reduced to 0), and the bitmap bytes are what the buffer
held. -/
theorem C26_bitmap_blocks_misaligned :
    run_pdu (rec_globals [plain_reg _ 1 4 _integer 0 REG_PERM_RW,
          plain_reg _ 5 4 _integer 0 REG_PERM_RW] (fun _ => 0xF)) 8
        [1, 0, 0, 0, 8] 3 []
      = some (3, [1, 1, 0x0F], [cb_call.load 1, cb_call.load 5])
    ∧ run_pdu (rec_globals ((List.range 8).map
          (fun i => plain_reg _ (1 + 32 * i) 32 _integer 0 REG_PERM_RW)) (fun _ => -1)) 300
        [1, 0, 0, 1, 0] 6 []
      = some (34, [1, 32, 0, 0, 0, 0], []) := by
  decide!

/-! ## The serial link: draining into the in-frame buffer -/

/-- C27: the drain is not bounded by the size of `in_frame`.  After 257
`yam_slink_putchar` calls with the character `55` on a fresh link with slave
id 1, `yam_slink_put_frame_delimiter` returns `-YAM_ERR_ADDR` with
`in_frame_len = 257`, and the drain has stored `55` at index 256 of
`in_frame`, one past the 256 bytes of the C array. -/
theorem C27_in_frame_overrun :
    (yam_slink_put_frame_delimiter (rec_globals [] (fun _ => 0)) modbus_crc 257
        (rec_link 1 (List.replicate 257 0x55)) []).map
        (fun r => (r.1, r.2.1.in_frame_len, r.2.1.in_frame 256, r.2.2))
      = some (-1, 257, 0x55, []) := by
  decide!

theorem process_in_frame_keeps {σ : Type} (g : globals σ) (crc : List Nat → Nat) (fuel : Nat)
    (link : yam_slink σ) (s : σ) :
    (∀ res, yam_slink_process_in_frame g crc fuel link s = some res →
        res.2.1.in_frame_len = link.in_frame_len ∧ res.2.1.in_frame = link.in_frame
          ∧ res.2.1.recv_buf = link.recv_buf)
    ∧ (yam_slink_process_in_frame g crc fuel link s = none →
        yam_app_input g fuel (link.in_frame 0)
          { payload := buf_shift link.in_frame MODBUS_ADDR_SIZE
            len := u8 ((link.in_frame_len : Int) - MODBUS_ADDR_SIZE - MODBUS_CRC_SIZE) }
          (buf_shift link.out_frame MODBUS_ADDR_SIZE) MODBUS_PDU_LEN_MAX s = none) := by
  unfold yam_slink_process_in_frame
  dsimp only
  cases happ : yam_app_input g fuel (link.in_frame 0)
      { payload := buf_shift link.in_frame MODBUS_ADDR_SIZE
        len := u8 ((link.in_frame_len : Int) - MODBUS_ADDR_SIZE - MODBUS_CRC_SIZE) }
      (buf_shift link.out_frame MODBUS_ADDR_SIZE) MODBUS_PDU_LEN_MAX s with
  | none => simp
  | some r =>
    obtain ⟨n, r, s1⟩ := r
    dsimp only
    constructor
    · intro res hres
      by_cases hn : n < 0
      · rw [if_pos hn] at hres
        cases hres
        exact ⟨rfl, rfl, rfl⟩
      · rw [if_neg hn] at hres
        cases hcb : link.send_frame_cb with
        | none =>
          rw [hcb] at hres
          cases hres
          exact ⟨rfl, rfl, rfl⟩
        | some cb =>
          rw [hcb] at hres
          cases hres
          exact ⟨rfl, rfl, rfl⟩
    · intro h
      exfalso
      by_cases hn : n < 0
      · rw [if_pos hn] at h; cases h
      · rw [if_neg hn] at h
        cases hcb : link.send_frame_cb with
        | none => rw [hcb] at h; cases h
        | some cb => rw [hcb] at h; cases h

theorem put_frame_delimiter_keeps {σ : Type} (g : globals σ) (crc : List Nat → Nat)
    (fuel : Nat) (link : yam_slink σ) (s : σ)
    (hsize : link.recv_buf.size = CIRC_BUF_SZ) (hhead : link.recv_buf.head < CIRC_BUF_SZ)
    (htail : link.recv_buf.tail < CIRC_BUF_SZ)
    (hfuel : (ring_frame link.recv_buf).length ≤ fuel) :
    (∀ res, yam_slink_put_frame_delimiter g crc fuel link s = some res →
        res.2.1.in_frame_len = (ring_frame link.recv_buf).length
          ∧ res.2.1.in_frame = (drained link).in_frame
          ∧ res.2.1.recv_buf = (drained link).recv_buf)
    ∧ (yam_slink_put_frame_delimiter g crc fuel link s = none →
        yam_app_input g fuel ((drained link).in_frame 0)
          { payload := buf_shift (drained link).in_frame MODBUS_ADDR_SIZE
            len := u8 (((ring_frame link.recv_buf).length : Int) - MODBUS_ADDR_SIZE
              - MODBUS_CRC_SIZE) }
          (buf_shift link.out_frame MODBUS_ADDR_SIZE) MODBUS_PDU_LEN_MAX s = none) := by
  rw [put_frame_delimiter_drained g crc fuel link s hsize hhead htail hfuel]
  split
  · exact ⟨fun res h => by cases h; exact ⟨rfl, rfl, rfl⟩, fun h => by cases h⟩
  split
  · exact ⟨fun res h => by cases h; exact ⟨rfl, rfl, rfl⟩, fun h => by cases h⟩
  split
  · exact ⟨fun res h => by cases h; exact ⟨rfl, rfl, rfl⟩, fun h => by cases h⟩
  exact process_in_frame_keeps g crc fuel _ s

/-- C28: FIFO drain.  Take a link whose ring buffer has size 512 and is empty
(`tail = head`, at any position below 512), put the characters `cs`, at most
256 of them, in with `yam_slink_putchar`, and call
`yam_slink_put_frame_delimiter` with fuel for the drain.  Whatever the call
returns, the link it leaves has `in_frame_len = cs.length`, `in_frame[i]` is
the `i`-th character for every `i < cs.length`, and the ring buffer is empty
again (`head = tail`).  The call returns unless `yam_app_input` on the frame
runs out of fuel. -/
theorem C28_fifo_drain {σ : Type} (g : globals σ) (crc : List Nat → Nat) (fuel : Nat)
    (link : yam_slink σ) (cs : List Nat) (s : σ)
    (hsize : link.recv_buf.size = CIRC_BUF_SZ) (hhead : link.recv_buf.head < CIRC_BUF_SZ)
    (hempty : link.recv_buf.tail = link.recv_buf.head)
    (hrx : link.stats.rx_chars < 4294967296)
    (hk : cs.length ≤ MODBUS_SERIAL_APDU_LEN_MAX) (hfuel : cs.length ≤ fuel) :
    (∀ res, yam_slink_put_frame_delimiter g crc fuel (cs.foldl yam_slink_putchar link) s
        = some res →
        res.2.1.in_frame_len = cs.length
          ∧ (∀ i, i < cs.length → res.2.1.in_frame i = cs.getD i 0)
          ∧ res.2.1.recv_buf.head = res.2.1.recv_buf.tail)
    ∧ (yam_slink_put_frame_delimiter g crc fuel (cs.foldl yam_slink_putchar link) s = none →
        yam_app_input g fuel (cs.getD 0 0)
          { payload := buf_shift (buf_copy link.in_frame 0 cs cs.length) 1
            len := u8 ((cs.length : Int) - 3) }
          (buf_shift link.out_frame 1) MODBUS_PDU_LEN_MAX s = none) := by
  have hmax : MODBUS_SERIAL_APDU_LEN_MAX = 256 := rfl
  rw [hmax] at hk
  have h512 : CIRC_BUF_SZ = 512 := rfl
  rw [h512] at hsize hhead
  have htail : link.recv_buf.tail < 512 := by omega
  have hfold := foldl_putchar cs link hsize hhead htail (by omega) hrx
  obtain ⟨⟨buf, h, t, sz⟩, inf, len, sid, outf, cb, st⟩ := link
  dsimp only at hsize hhead htail hempty hrx hfold
  subst hsize
  subst hempty
  have hframe : ring_frame (ring_store { buf := buf, head := t, tail := t, size := 512 } cs)
      = cs := by
    rw [ring_frame_ring_store buf t t cs hhead hhead (by omega)]
    have : ring_frame { buf := buf, head := t, tail := t, size := 512 } = [] := by
      apply List.eq_nil_of_length_eq_zero
      rw [ring_frame_length]; dsimp only
      rw [CIRC_CNT_eq t t hhead hhead]; omega
    rw [this, List.nil_append]
  rw [hfold]
  obtain ⟨L, hL⟩ : ∃ L : yam_slink σ, L
      = { recv_buf := ring_store { buf := buf, head := t, tail := t, size := 512 } cs,
          in_frame := inf, in_frame_len := len, slave_id := sid, out_frame := outf,
          send_frame_cb := cb,
          stats := { st with rx_chars := (st.rx_chars + cs.length) % 4294967296 } } := ⟨_, rfl⟩
  rw [← hL]
  have hLrb : L.recv_buf = ring_store { buf := buf, head := t, tail := t, size := 512 } cs := by
    rw [hL]
  have hLin : L.in_frame = inf := by rw [hL]
  have hLout : L.out_frame = outf := by rw [hL]
  have hLframe : ring_frame L.recv_buf = cs := by rw [hLrb, hframe]
  obtain ⟨k1, k2⟩ := put_frame_delimiter_keeps g crc fuel L s
    (by rw [hLrb]; rfl) (by rw [hLrb]; show (t + cs.length) % 512 < 512; omega)
    (by rw [hLrb]; exact hhead) (by rw [hLframe]; exact hfuel)
  have hin : (drained L).in_frame = buf_copy inf 0 cs cs.length := by
    unfold drained
    dsimp only
    rw [hLframe, hLin]
  have hrbd : (drained L).recv_buf.head = (drained L).recv_buf.tail := rfl
  rw [hLframe, hin] at k1
  rw [hLframe, hin, hLout] at k2
  constructor
  · intro res hres
    obtain ⟨a, b, c⟩ := k1 res hres
    refine ⟨a, ?_, ?_⟩
    · intro i hi
      rw [b]
      unfold buf_copy
      rw [if_pos (by omega)]
      rfl
    · rw [c]
      exact hrbd
  · intro hnone
    have h := k2 hnone
    have a1 : ((MODBUS_ADDR_SIZE : Nat) : Int) = 1 := rfl
    have a2 : ((MODBUS_CRC_SIZE : Nat) : Int) = 2 := rfl
    have a3 : MODBUS_ADDR_SIZE = 1 := rfl
    have e : (cs.length : Int) - 1 - 2 = (cs.length : Int) - 3 := by omega
    rw [a1, a2, a3, e] at h
    unfold yam_app_input at h ⊢
    exact h

theorem C28_fifo_drain_witness :
    (yam_slink_put_frame_delimiter (rec_globals [] (fun _ => 0)) modbus_crc 10
        ([1, 2, 3, 4].foldl yam_slink_putchar
          { yam_create_slink (List cb_call) 1 with
            recv_buf := { buf := fun _ => 0, head := 510, tail := 510, size := 512 } }) []).map
        (fun r => (r.2.1.in_frame_len, (List.range 4).map r.2.1.in_frame,
          r.2.1.recv_buf.head, r.2.1.recv_buf.tail))
      = some (4, [1, 2, 3, 4], 2, 2) := by
  have h := C28_fifo_drain (rec_globals [] (fun _ => 0)) modbus_crc 10
    { yam_create_slink (List cb_call) 1 with
      recv_buf := { buf := fun _ => 0, head := 510, tail := 510, size := 512 } }
    [1, 2, 3, 4] [] rfl (by decide) rfl (by decide) (by decide) (by decide)
  cases hrun : yam_slink_put_frame_delimiter (rec_globals [] (fun _ => 0)) modbus_crc 10
        ([1, 2, 3, 4].foldl yam_slink_putchar
          { yam_create_slink (List cb_call) 1 with
            recv_buf := { buf := fun _ => 0, head := 510, tail := 510, size := 512 } }) [] with
  | none =>
    have hx := congrArg Option.isSome (h.2 hrun)
    revert hx
    decide
  | some res =>
    obtain ⟨a, b, c⟩ := h.1 res hrun
    have b0 := b 0 (by decide)
    have b1 := b 1 (by decide)
    have b2 := b 2 (by decide)
    have b3 := b 3 (by decide)
    have hh : res.2.1.recv_buf.head = 2 := by
      have : (some res).map (fun r => r.2.1.recv_buf.head) = some 2 := by
        rw [← hrun]; decide!
      simpa using this
    simp only [Option.map_some', List.range, List.range.loop, List.map, a, b0, b1, b2, b3, ← c, hh]
    rfl

/-! ## The serial link: frames longer than the in-frame buffer -/

theorem f32.of_int_fields (n : Int) (h1 : -16777216 < n) (h2 : n < 16777216) :
    f32.expo (f32.of_int n) ≠ 255 ∧ f32.mag (f32.of_int n) = n.natAbs * 2 ^ 149
      ∧ f32.sign (f32.of_int n) = decide (n < 0) := by
  by_cases h0 : n = 0
  · subst h0; decide
  have hm1 : 1 ≤ n.natAbs := by omega
  have hm2 : n.natAbs < 2 ^ 24 := by norm_num; omega
  obtain ⟨hL1, hL2⟩ := f32.ilog2_spec n.natAbs hm1
    (lt_of_lt_of_le hm2 (Nat.pow_le_pow_right (by norm_num) (by norm_num)))
  generalize hLe : f32.ilog2 n.natAbs = L at hL1 hL2
  have hL : L ≤ 23 := by
    have : 2 ^ L < 2 ^ 24 := lt_of_le_of_lt hL1 hm2
    have := (Nat.pow_lt_pow_iff_right (by norm_num : 1 < 2)).1 this
    omega
  have hq1 : 8388608 ≤ n.natAbs * 2 ^ (23 - L) := by
    have : 2 ^ L * 2 ^ (23 - L) ≤ n.natAbs * 2 ^ (23 - L) := Nat.mul_le_mul_right _ hL1
    rw [← pow_add] at this
    have e : L + (23 - L) = 23 := by omega
    rw [e] at this
    norm_num at this
    exact this
  have hq2 : n.natAbs * 2 ^ (23 - L) < 16777216 := by
    have : n.natAbs * 2 ^ (23 - L) < 2 ^ (L + 1) * 2 ^ (23 - L) :=
      Nat.mul_lt_mul_of_pos_right hL2 (Nat.two_pow_pos _)
    rw [← pow_add] at this
    have e : L + 1 + (23 - L) = 24 := by omega
    rw [e] at this
    norm_num at this
    exact this
  have hK : n.natAbs * 2 ^ 149 = n.natAbs * 2 ^ (23 - L) * 2 ^ (L + 126) := by
    rw [Nat.mul_assoc, ← pow_add]
    have e : 23 - L + (L + 126) = 149 := by omega
    rw [e]
  have hround := f32.round_mag_exact (n.natAbs * 2 ^ (23 - L)) (L + 126) hq1 hq2 (by omega)
  rw [← hK] at hround
  obtain ⟨dE, dF, dS⟩ := f32.decode_fields (decide (n < 0)) (L + 126 + 1)
    (n.natAbs * 2 ^ (23 - L) - 8388608) (by omega) (by omega)
  refine ⟨?_, ?_, ?_⟩
  · unfold f32.of_int; rw [hround, dE]; omega
  · unfold f32.mag f32.of_int
    rw [hround, dE, dF]
    have : ¬ (L + 126 + 1 = 0) := by omega
    simp only [this, if_false]
    have e : 8388608 + (n.natAbs * 2 ^ (23 - L) - 8388608) = n.natAbs * 2 ^ (23 - L) := by omega
    rw [e, hK]
    simp
  · unfold f32.of_int; rw [hround, dS]

theorem f32.rne_mul10 (a d : Nat) : f32.rne (10 * a) (10 * d) = f32.rne a d := by
  unfold f32.rne
  have e1 : 10 * a / (10 * d) = a / d := Nat.mul_div_mul_left a d (by norm_num)
  have e2 : 10 * a % (10 * d) = 10 * (a % d) := Nat.mul_mod_mul_left 10 a d
  simp only [e1, e2]
  generalize a % d = r
  generalize a / d = q
  by_cases c1 : 2 * r < d
  · rw [if_pos (by omega), if_pos c1]
  · rw [if_neg (by omega), if_neg c1]
    by_cases c2 : d < 2 * r
    · rw [if_pos (by omega), if_pos c2]
    · rw [if_neg (by omega), if_neg c2]

theorem f32.round_mag_div10 (a : Nat) : f32.round_mag (10 * a) 10 = f32.round_mag a 1 := by
  unfold f32.round_mag
  have e1 : 10 * a / 10 = a := Nat.mul_div_cancel_left a (by norm_num)
  simp only [e1, Nat.div_one, Nat.one_mul]
  rw [f32.rne_mul10 a _]

theorem f32.mul10_of_int (n : Int) (h1 : -16777216 < 10 * n) (h2 : 10 * n < 16777216) :
    f32.mul10 (f32.of_int n) = f32.of_int (10 * n) := by
  obtain ⟨fe, fm, fs⟩ := f32.of_int_fields n (by omega) (by omega)
  unfold f32.mul10
  rw [if_neg fe, fm, fs]
  unfold f32.of_int
  have e1 : decide (10 * n < 0) = decide (n < 0) := decide_eq_decide.2 (by omega)
  have e2 : (10 * n).natAbs * 2 ^ 149 = n.natAbs * 2 ^ 149 * 10 := by
    rw [Int.natAbs_mul]
    have : (10 : Int).natAbs = 10 := rfl
    rw [this]; ring
  rw [e1, e2]

theorem f32.div10_of_int (m : Int) (h1 : -16777216 < 10 * m) (h2 : 10 * m < 16777216) :
    f32.div10 (f32.of_int (10 * m)) = f32.of_int m := by
  obtain ⟨fe, fm, fs⟩ := f32.of_int_fields (10 * m) h1 h2
  unfold f32.div10
  rw [if_neg fe, fm, fs]
  have e1 : decide (10 * m < 0) = decide (m < 0) := decide_eq_decide.2 (by omega)
  have e2 : (10 * m).natAbs * 2 ^ 149 = 10 * (m.natAbs * 2 ^ 149) := by
    rw [Int.natAbs_mul]
    have : (10 : Int).natAbs = 10 := rfl
    rw [this]; ring
  rw [e1, e2, f32.round_mag_div10]
  rfl

theorem f32.mul10_iterate (k : Nat) (n : Int) (h1 : -16777216 < n * 10 ^ k)
    (h2 : n * 10 ^ k < 16777216) :
    f32.mul10^[k] (f32.of_int n) = f32.of_int (n * 10 ^ k) := by
  induction k with
  | zero => simp
  | succ k ih =>
    have e : n * 10 ^ (k + 1) = 10 * (n * 10 ^ k) := by rw [pow_succ]; ring
    rw [e] at h1 h2 ⊢
    rw [Function.iterate_succ_apply', ih (by omega) (by omega), f32.mul10_of_int _ h1 h2]

theorem f32.div10_iterate (k : Nat) (m : Int) (h1 : -16777216 < m * 10 ^ k)
    (h2 : m * 10 ^ k < 16777216) :
    f32.div10^[k] (f32.of_int (m * 10 ^ k)) = f32.of_int m := by
  induction k with
  | zero => simp
  | succ k ih =>
    have e : m * 10 ^ (k + 1) = 10 * (m * 10 ^ k) := by rw [pow_succ]; ring
    rw [e] at h1 h2 ⊢
    rw [Function.iterate_succ_apply, f32.div10_of_int _ h1 h2, ih (by omega) (by omega)]

theorem integer_prescale_neg (n : Int) (k : Nat) :
    integer_prescale n (-(k : Int)) = f32.mul10^[k] (f32.of_int n) := by
  unfold integer_prescale
  cases k with
  | zero => simp
  | succ k =>
    have h : (-((k + 1 : Nat) : Int)) < 0 := by omega
    have e : (-((k + 1 : Nat) : Int)).natAbs = k + 1 := by omega
    simp only [h, if_true, e]

theorem integer_prescale_pos (n : Int) (k : Nat) :
    integer_prescale n (k : Int) = f32.div10^[k] (f32.of_int n) := by
  unfold integer_prescale
  cases k with
  | zero => simp
  | succ k =>
    have h : ¬ (((k + 1 : Nat) : Int)) < 0 := by omega
    have h2 : (((k + 1 : Nat) : Int)) > 0 := by omega
    have e : (((k + 1 : Nat) : Int)).natAbs = k + 1 := by omega
    simp only [h, if_false, h2, if_true, e]

theorem integer_scale_pos (n : Int) (k : Nat) :
    integer_scale n (k : Int) = f32.mul10^[k] (f32.of_int n) := by
  unfold integer_scale
  cases k with
  | zero => simp
  | succ k =>
    have h2 : (((k + 1 : Nat) : Int)) > 0 := by omega
    have e : (((k + 1 : Nat) : Int)).natAbs = k + 1 := by omega
    simp only [h2, if_true, e]

theorem integer_scale_neg (n : Int) (k : Nat) :
    integer_scale n (-(k : Int)) = f32.div10^[k] (f32.of_int n) := by
  unfold integer_scale
  cases k with
  | zero => simp
  | succ k =>
    have h : ¬ (-((k + 1 : Nat) : Int)) > 0 := by omega
    have h2 : (-((k + 1 : Nat) : Int)) < 0 := by omega
    have e : (-((k + 1 : Nat) : Int)).natAbs = k + 1 := by omega
    simp only [h, if_false, h2, if_true, e]

theorem regval_encode_mb_short_scaled (float_fmt : Nat → Nat) (val : regval_t) (buf : buf_t)
    (p : Nat) (s : Int) (e : Int) (he : f32.to_int (integer_prescale val.n s) = e) :
    regval_encode_mb float_fmt val buf p _integer 1 s
      = (0, buf_set (buf_set buf p (u8 (e / 256))) (p + 1) (u8 e)) := by
  simp [regval_encode_mb, val_codec_spec_table, List.find?, _integer, _float,
    integer_to_mb_short, he]

theorem regval_decode_mb_short_scaled (float_fmt : Nat → Nat) (wire : buf_t) (p : Nat)
    (out : regval_t) (s : Int) (e : Int)
    (he : f32.to_int (integer_scale ((wire p : Int) * 256 + (wire (p + 1) : Int)) s) = e) :
    regval_decode_mb float_fmt wire p out _integer 1 s = (0, { n := e, tag := _integer }) := by
  simp [regval_decode_mb, val_codec_spec_table, List.find?, _integer, _float,
    mb_short_to_integer, regval_put_integer, he]

/-- C29: decimal scale direction.  For tag INTEGER, size 1 and `k` decimal
places, with `|m * 10^k| < 2^24` and `v * 10^k < 2^24`: encoding the host value
`m` with scale `-k` writes the big-endian low 16 bits of `m * 10^k`; encoding
the host value `m * 10^k` with scale `k` writes those of `m`; decoding the
wire value `v` with scale `k` yields `v * 10^k`; decoding the wire value
`v * 10^k` with scale `-k` yields `v` (host value = wire value times
`10^scale`).  Hence decoding what was encoded gives the host value back when
the encoded value is in 0..65535, the values of the unsigned 16-bit wire. -/
theorem C29_decimal_scale (float_fmt : Nat → Nat) (k : Nat) (m : Int) (v : Nat)
    (buf wire : buf_t) (p : Nat) (out : regval_t)
    (hm1 : -16777216 < m * 10 ^ k) (hm2 : m * 10 ^ k < 16777216)
    (hv : v * 10 ^ k < 16777216) :
    regval_encode_mb float_fmt { n := m, tag := _integer } buf p _integer 1 (-(k : Int))
        = (0, buf_set (buf_set buf p (u8 (m * 10 ^ k / 256))) (p + 1) (u8 (m * 10 ^ k)))
    ∧ regval_encode_mb float_fmt { n := m * 10 ^ k, tag := _integer } buf p _integer 1 (k : Int)
        = (0, buf_set (buf_set buf p (u8 (m / 256))) (p + 1) (u8 m))
    ∧ (wire p < 256 ∧ wire (p + 1) < 256 ∧ wire p * 256 + wire (p + 1) = v →
        regval_decode_mb float_fmt wire p out _integer 1 (k : Int)
          = (0, { n := ((v * 10 ^ k : Nat) : Int), tag := _integer }))
    ∧ (wire p < 256 ∧ wire (p + 1) < 256 ∧ wire p * 256 + wire (p + 1) = v * 10 ^ k →
        regval_decode_mb float_fmt wire p out _integer 1 (-(k : Int))
          = (0, { n := (v : Int), tag := _integer }))
    ∧ (0 ≤ m * 10 ^ k ∧ m * 10 ^ k ≤ 65535 →
        regval_decode_mb float_fmt
          (regval_encode_mb float_fmt { n := m, tag := _integer } buf p _integer 1
            (-(k : Int))).2 p out _integer 1 (-(k : Int))
          = (0, { n := m, tag := _integer }))
    ∧ (0 ≤ m ∧ m ≤ 65535 →
        regval_decode_mb float_fmt
          (regval_encode_mb float_fmt { n := m * 10 ^ k, tag := _integer } buf p _integer 1
            (k : Int)).2 p out _integer 1 (k : Int)
          = (0, { n := m * 10 ^ k, tag := _integer })) := by
  have hpow : (1 : Int) ≤ 10 ^ k := by
    have : (0 : Int) < 10 ^ k := by positivity
    omega
  have hmb : -16777216 < m ∧ m < 16777216 := by
    constructor
    · by_contra hc
      have : m * 10 ^ k ≤ m * 1 := by
        apply Int.mul_le_mul_of_nonpos_left _ hpow
        omega
      omega
    · by_contra hc
      have : m * 1 ≤ m * 10 ^ k := by
        apply Int.mul_le_mul_of_nonneg_left hpow
        omega
      omega
  have hE1 : f32.to_int (integer_prescale m (-(k : Int))) = m * 10 ^ k := by
    rw [integer_prescale_neg, f32.mul10_iterate k m hm1 hm2, f32.to_int_of_int _ hm1 hm2]
  have hE2 : f32.to_int (integer_prescale (m * 10 ^ k) (k : Int)) = m := by
    rw [integer_prescale_pos, f32.div10_iterate k m hm1 hm2, f32.to_int_of_int _ hmb.1 hmb.2]
  have hvI : ((v : Int)) * 10 ^ k < 16777216 := by exact_mod_cast hv
  have hv0 : (0 : Int) ≤ (v : Int) * 10 ^ k := by positivity
  have hvb : (v : Int) < 16777216 := by
    by_contra hc
    have : (v : Int) * 1 ≤ (v : Int) * 10 ^ k := by
      apply Int.mul_le_mul_of_nonneg_left hpow
      omega
    omega
  have hD1 : f32.to_int (integer_scale (v : Int) (k : Int)) = ((v * 10 ^ k : Nat) : Int) := by
    rw [integer_scale_pos, f32.mul10_iterate k v (by omega) hvI,
      f32.to_int_of_int _ (by omega) hvI]
    push_cast; rfl
  have hD2 : f32.to_int (integer_scale (((v * 10 ^ k : Nat) : Int)) (-(k : Int))) = (v : Int) := by
    have e : ((v * 10 ^ k : Nat) : Int) = (v : Int) * 10 ^ k := by push_cast; rfl
    rw [e, integer_scale_neg, f32.div10_iterate k v (by omega) hvI,
      f32.to_int_of_int _ (by omega) hvb]
  have hR1 : f32.to_int (integer_scale (m * 10 ^ k) (-(k : Int))) = m := by
    rw [integer_scale_neg, f32.div10_iterate k m hm1 hm2, f32.to_int_of_int _ hmb.1 hmb.2]
  have hR2 : f32.to_int (integer_scale m (k : Int)) = m * 10 ^ k := by
    rw [integer_scale_pos, f32.mul10_iterate k m hm1 hm2, f32.to_int_of_int _ hm1 hm2]
  have hbytes : ∀ e : Int, 0 ≤ e → e ≤ 65535 →
      ((buf_set (buf_set buf p (u8 (e / 256))) (p + 1) (u8 e) p : Nat) : Int) * 256
        + ((buf_set (buf_set buf p (u8 (e / 256))) (p + 1) (u8 e) (p + 1) : Nat) : Int) = e := by
    intro e h0 h1
    rw [buf_set_ne _ _ _ _ (by omega), buf_set_same, buf_set_same]
    unfold u8
    omega
  have hE1' := regval_encode_mb_short_scaled float_fmt { n := m, tag := _integer } buf p
    (-(k : Int)) _ hE1
  have hE2' := regval_encode_mb_short_scaled float_fmt { n := m * 10 ^ k, tag := _integer } buf p
    (k : Int) _ hE2
  refine ⟨hE1', hE2', ?_, ?_, ?_, ?_⟩
  · rintro ⟨_, _, c⟩
    apply regval_decode_mb_short_scaled
    have : (wire p : Int) * 256 + (wire (p + 1) : Int) = (v : Int) := by exact_mod_cast c
    rw [this]
    exact hD1
  · rintro ⟨_, _, c⟩
    apply regval_decode_mb_short_scaled
    have : (wire p : Int) * 256 + (wire (p + 1) : Int) = ((v * 10 ^ k : Nat) : Int) := by
      exact_mod_cast c
    rw [this]
    exact hD2
  · rintro ⟨h0, h1⟩
    rw [hE1']
    apply regval_decode_mb_short_scaled
    dsimp only
    rw [hbytes _ h0 h1]
    exact hR1
  · rintro ⟨h0, h1⟩
    rw [hE2']
    apply regval_decode_mb_short_scaled
    dsimp only
    rw [hbytes _ h0 h1]
    exact hR2

theorem C29_decimal_scale_witness :
    regval_encode_mb float_fmt_b { n := -5, tag := _integer } (fun _ => 0) 0 _integer 1 (-2)
        = (0, buf_set (buf_set (fun _ => 0) 0 0xFE) 1 0x0C)
    ∧ regval_encode_mb float_fmt_b { n := -500, tag := _integer } (fun _ => 0) 0 _integer 1 2
        = (0, buf_set (buf_set (fun _ => 0) 0 0xFF) 1 0xFB)
    ∧ regval_decode_mb float_fmt_b (buf_of [0x04, 0xB0] (fun _ => 0)) 0
        { n := 0, tag := _integer } _integer 1 (-2) = (0, { n := 12, tag := _integer }) :=
  have h := C29_decimal_scale float_fmt_b 2 (-5) 12 (fun _ => 0)
    (buf_of [0x04, 0xB0] (fun _ => 0)) 0 { n := 0, tag := _integer }
    (by decide) (by decide) (by decide)
  ⟨h.1, h.2.1, h.2.2.2.1 (by decide)⟩

/-! ## The value codec: four-byte integers -/

/-- C30, counterexample: with the format `l` = {0,1,2,3} installed, the
integer 1 with tag INTEGER, size 2, scale 0 is encoded as `00 00 00 01`, while
the host bytes taken in the order of `l` are `01 00 00 00`. -/
theorem C30_counterexample :
    buf_take (regval_encode_mb (regval_set_float_fmt float_fmt_b float_fmt_l).2
        { n := 1, tag := _integer } (fun _ => 0) 0 _integer 2 0).2 4 = [0, 0, 0, 1]
    ∧ (List.range 4).map (fun i => f32.byte 1 (float_fmt_l i)) = [1, 0, 0, 0] := by
  decide!

/-- C30, amended: 4-byte integers are big-endian whatever format is
installed.  For tag INTEGER, size 2, scale 0, every format `fmt` installed
with `regval_set_float_fmt` and every `n` with `|n| < 2^24`: `regval_encode_mb`
returns 0 and writes host byte `3 - i` of the two-complement form of `n` at
`p + i` for `i = 0..3` and nothing else; `regval_decode_mb` on that buffer
returns 0 and `n`. -/
theorem C30_long_integer_big_endian (float_fmt0 fmt : Nat → Nat) (n : Int) (out : regval_t)
    (buf : buf_t) (p : Nat) (h1 : -16777216 < n) (h2 : n < 16777216) :
    (regval_encode_mb (regval_set_float_fmt float_fmt0 fmt).2 { n := n, tag := _integer } buf p
        _integer 2 0).1 = 0
    ∧ (∀ i, i < 4 →
        (regval_encode_mb (regval_set_float_fmt float_fmt0 fmt).2 { n := n, tag := _integer }
          buf p _integer 2 0).2 (p + i) = f32.byte (n % 4294967296).toNat (3 - i))
    ∧ (∀ j, j < p ∨ p + 4 ≤ j →
        (regval_encode_mb (regval_set_float_fmt float_fmt0 fmt).2 { n := n, tag := _integer }
          buf p _integer 2 0).2 j = buf j)
    ∧ regval_decode_mb (regval_set_float_fmt float_fmt0 fmt).2
        (regval_encode_mb (regval_set_float_fmt float_fmt0 fmt).2 { n := n, tag := _integer }
          buf p _integer 2 0).2 p out _integer 2 0
      = (0, { n := n, tag := _integer }) := by
  have hrt : f32.to_int (f32.of_int n) = n := f32.to_int_of_int n h1 h2
  obtain ⟨w, hw⟩ : ∃ w : Nat, w = (n % 4294967296).toNat := ⟨_, rfl⟩
  have hwlt : w < 4294967296 := by omega
  obtain ⟨B, hB⟩ : ∃ B : buf_t, B = buf_set (buf_set (buf_set (buf_set buf p (f32.byte w 3))
      (p + 1) (f32.byte w 2)) (p + 2) (f32.byte w 1)) (p + 3) (f32.byte w 0) := ⟨_, rfl⟩
  have henc : regval_encode_mb fmt { n := n, tag := _integer } buf p _integer 2 0 = (0, B) := by
    simp [hB, hw, regval_encode_mb, val_codec_spec_table, List.find?, _integer, _float,
      integer_to_mb_long, integer_prescale, hrt]
  have hwr : ∀ i, i < 4 → B (p + i) = f32.byte w (3 - i) := by
    intro i hi
    rw [hB]
    unfold buf_set
    have : i = 0 ∨ i = 1 ∨ i = 2 ∨ i = 3 := by omega
    rcases this with rfl | rfl | rfl | rfl <;> simp
  have hout : ∀ j, j < p ∨ p + 4 ≤ j → B j = buf j := by
    intro j hj
    rw [hB]
    unfold buf_set
    rw [if_neg (by omega), if_neg (by omega), if_neg (by omega), if_neg (by omega)]
  have w0 : B p = f32.byte w 3 := hwr 0 (Nat.succ_pos 3)
  have w1 : B (p + 1) = f32.byte w 2 := hwr 1 (Nat.succ_lt_succ (Nat.succ_pos 2))
  have w2 : B (p + 2) = f32.byte w 1 := hwr 2 (Nat.succ_lt_succ (Nat.succ_lt_succ (Nat.succ_pos 1)))
  have w3 : B (p + 3) = f32.byte w 0 := hwr 3 (Nat.lt_succ_self 3)
  have hsum : ((B p : Int) * 16777216 + (B (p + 1) : Int) * 65536 + (B (p + 2) : Int) * 256
      + (B (p + 3) : Int)) = (w : Int) := by
    rw [w0, w1, w2, w3]
    have := f32.byte_sum w hwlt
    unfold f32.byte at this ⊢
    norm_num at this ⊢
    omega
  have hs : s32 (w : Int) = n := by
    rw [hw]; unfold s32; omega
  have hdec : regval_decode_mb fmt B p out _integer 2 0 = (0, { n := n, tag := _integer }) := by
    have hfind : regval_decode_mb fmt B p out _integer 2 0
        = (0, mb_long_to_integer B p out 0) := by
      simp [regval_decode_mb, val_codec_spec_table, List.find?, _integer, _float]
    rw [hfind]
    unfold mb_long_to_integer
    dsimp only
    rw [hsum, hs]
    simp [integer_scale, regval_put_integer, hrt]
  have e : (regval_set_float_fmt float_fmt0 fmt).2 = fmt := rfl
  rw [e, henc]
  dsimp only
  rw [hdec]
  exact ⟨rfl, hw ▸ hwr, hout, rfl⟩

theorem C30_long_integer_big_endian_witness :
    buf_take (regval_encode_mb (regval_set_float_fmt float_fmt_b float_fmt_lb).2
        { n := -2, tag := _integer } (fun _ => 0) 0 _integer 2 0).2 4 = [0xFF, 0xFF, 0xFF, 0xFE]
    ∧ regval_decode_mb (regval_set_float_fmt float_fmt_b float_fmt_lb).2
        (regval_encode_mb (regval_set_float_fmt float_fmt_b float_fmt_lb).2
          { n := -2, tag := _integer } (fun _ => 0) 0 _integer 2 0).2 0
        { n := 0, tag := _integer } _integer 2 0
      = (0, { n := -2, tag := _integer }) := by
  have h := C30_long_integer_big_endian float_fmt_b float_fmt_lb (-2) { n := 0, tag := _integer }
    (fun _ => 0) 0 (by decide) (by decide)
  refine ⟨?_, h.2.2.2⟩
  have b0 := h.2.1 0 (by decide)
  have b1 := h.2.1 1 (by decide)
  have b2 := h.2.1 2 (by decide)
  have b3 := h.2.1 3 (by decide)
  simp only [buf_take, List.range, List.range.loop, List.map]
  rw [show (0 : Nat) = 0 + 0 from rfl, b0, b1, b2, b3]
  decide

/-! ## Writing holding registers: a walk that fails part-way -/

theorem make_exception_len (func : Nat) (expt : Int) (resp_buf : buf_t) :
    (make_exception func expt resp_buf).1 = 2 := rfl

theorem catch_modbus_exception_len {σ : Type} (func : Nat) (err : Int) (resp_buf : buf_t)
    (s : σ) (k : Int × buf_t × σ) (hk : 2 ≤ k.1 ∧ k.1 ≤ 253) :
    2 ≤ (catch_modbus_exception func err resp_buf s k).1
      ∧ (catch_modbus_exception func err resp_buf s k).1 ≤ 253 := by
  unfold catch_modbus_exception
  split
  · simp [make_exception_len]
  · exact hk

theorem read_coils_handler_len {σ : Type} (g : globals σ) (fuel func : Nat) (req_buf : buf_t)
    (req_len : Nat) (resp_buf : buf_t) (s : σ) (res : Int × buf_t × σ)
    (h : read_coils_handler g fuel func req_buf req_len resp_buf 253 s = some res) :
    2 ≤ res.1 ∧ res.1 ≤ 253 := by
  unfold read_coils_handler at h
  split at h
  · cases h; simp [make_exception_len]
  · dsimp only at h
    split at h
    · cases h; simp [make_exception_len]
    · rename_i hsz
      rw [Option.map_eq_some'] at h
      obtain ⟨r, _, rfl⟩ := h
      apply catch_modbus_exception_len
      dsimp only
      omega

theorem read_holding_regs_handler_len {σ : Type} (g : globals σ) (fuel func : Nat)
    (req_buf : buf_t) (req_len : Nat) (resp_buf : buf_t) (s : σ) (res : Int × buf_t × σ)
    (h : read_holding_regs_handler g fuel func req_buf req_len resp_buf 253 s = some res) :
    2 ≤ res.1 ∧ res.1 ≤ 253 := by
  unfold read_holding_regs_handler at h
  split at h
  · cases h; simp [make_exception_len]
  · dsimp only at h
    split at h
    · cases h; simp [make_exception_len]
    · rename_i hsz
      rw [Option.map_eq_some'] at h
      obtain ⟨r, _, rfl⟩ := h
      apply catch_modbus_exception_len
      dsimp only
      omega

theorem write_regs_handler_len {σ : Type} (g : globals σ) (fuel func : Nat) (req_buf : buf_t)
    (req_len : Nat) (resp_buf : buf_t) (s : σ) (res : Int × buf_t × σ)
    (h : write_regs_handler g fuel func req_buf req_len resp_buf 253 s = some res) :
    2 ≤ res.1 ∧ res.1 ≤ 253 := by
  unfold write_regs_handler at h
  split at h
  · cases h; simp [make_exception_len]
  · dsimp only at h
    split at h
    · cases h; simp [make_exception_len]
    · rw [Option.map_eq_some'] at h
      obtain ⟨r, _, rfl⟩ := h
      apply catch_modbus_exception_len
      dsimp only
      omega

theorem write_regs_handlers_len {σ : Type} (g : globals σ) (fuel func : Nat) (req_buf : buf_t)
    (req_len : Nat) (resp_buf : buf_t) (s : σ) (res : Int × buf_t × σ)
    (h : write_regs_handlers g fuel func req_buf req_len resp_buf 253 s = some res) :
    2 ≤ res.1 ∧ res.1 ≤ 253 := by
  unfold write_regs_handlers at h
  split at h
  · cases h; simp [make_exception_len]
  split at h
  · cases h; simp [make_exception_len]
  dsimp only at h
  split at h
  · cases h; simp [make_exception_len]
  split at h
  · cases h; simp [make_exception_len]
  rw [Option.map_eq_some'] at h
  obtain ⟨r, _, rfl⟩ := h
  apply catch_modbus_exception_len
  dsimp only
  omega

theorem packet_file_read_len {σ : Type} (rec_io_table : List (rec_io_map_t σ)) (type : Int)
    (req_buf : buf_t) (req_len : Nat) (resp_buf : buf_t) (rp resp_buf_sz : Nat) (s : σ)
    (hsz : resp_buf_sz < 2147483648) :
    (packet_file_read rec_io_table type req_buf req_len resp_buf rp resp_buf_sz s).1 < 0
      ∨ (0 ≤ (packet_file_read rec_io_table type req_buf req_len resp_buf rp resp_buf_sz s).1
        ∧ (packet_file_read rec_io_table type req_buf req_len resp_buf rp resp_buf_sz s).1
            ≤ resp_buf_sz) := by
  have hneg1 : -REG_ERR_INTERNAL < 0 := by decide
  have hneg3 : -REG_ERR_DATA_VALUE < 0 := by decide
  unfold packet_file_read
  by_cases h6 : req_len ≠ 6
  · rw [if_pos h6]; left; exact hneg3
  · rw [if_neg h6]
    dsimp only
    cases find_rec_io rec_io_table type with
    | none => left; exact hneg1
    | some io =>
      dsimp only
      generalize io.read type _ _ 1 s = rd
      obtain ⟨r, rc, s1⟩ := rd
      cases rc with
      | none => left; exact hneg1
      | some rc =>
        dsimp only
        by_cases hr : r < 0
        · rw [if_pos hr]; left; exact hneg1
        · rw [if_neg hr]
          by_cases hfit : resp_buf_sz < size_t ((rc.len : Int) + 1)
          · rw [if_pos hfit]; left; exact hneg1
          · rw [if_neg hfit]
            right
            dsimp only
            generalize size_t ((rc.len : Int) + 1) = q at hfit
            unfold s32
            omega

theorem packet_file_write_len {σ : Type} (rec_io_table : List (rec_io_map_t σ)) (type : Int)
    (req_buf : buf_t) (req_len : Nat) (resp_buf : buf_t) (rp resp_buf_sz : Nat) (s : σ) :
    (packet_file_write rec_io_table type req_buf req_len resp_buf rp resp_buf_sz s).1 < 0
      ∨ ((packet_file_write rec_io_table type req_buf req_len resp_buf rp resp_buf_sz s).1 = 6
        ∧ 6 ≤ resp_buf_sz) := by
  have hneg1 : -REG_ERR_INTERNAL < 0 := by decide
  have hneg3 : -REG_ERR_DATA_VALUE < 0 := by decide
  unfold packet_file_write
  by_cases h0 : req_len ≤ 0
  · rw [if_pos h0]; left; exact hneg3
  · rw [if_neg h0]
    dsimp only
    cases find_rec_io rec_io_table type with
    | none => left; exact hneg1
    | some io =>
      dsimp only
      generalize io.write type _ _ 1 _ s = wr
      by_cases hr : wr.1 < 0
      · rw [if_pos hr]; left; exact hneg1
      · rw [if_neg hr]
        by_cases hfit : resp_buf_sz < 6
        · rw [if_pos hfit]; left; exact hneg1
        · rw [if_neg hfit]
          right
          exact ⟨rfl, by omega⟩

theorem filetype_get_packet_file {σ : Type} (rec_io_table : List (rec_io_map_t σ)) (type : Int)
    (ft : filetype_t σ) (h : filetype_get rec_io_table type = some ft) :
    ft = packet_file rec_io_table := by
  unfold filetype_get filetype_table at h
  simp only [List.find?] at h
  split at h
  · simpa using h.symm
  · simp at h

theorem read_file_handler_len {σ : Type} (g : globals σ) (fuel func : Nat) (req_buf : buf_t)
    (req_len : Nat) (resp_buf : buf_t) (s : σ) (res : Int × buf_t × σ)
    (h : read_file_handler g fuel func req_buf req_len resp_buf 253 s = some res) :
    2 ≤ res.1 ∧ res.1 ≤ 253 := by
  unfold read_file_handler at h
  split at h
  · cases h; simp [make_exception_len]
  · dsimp only at h
    split at h
    · cases h; simp [make_exception_len]
    · rename_i ft hft
      have hpf := filetype_get_packet_file _ _ _ hft
      subst hpf
      have e251 : size_t (((253 : Nat) : Int) - 2) = 251 := by decide
      rw [e251] at h
      have hb := packet_file_read_len g.rec_io_table (req_buf 1 : Int) (buf_shift req_buf 2)
        (size_t ((req_buf 0 : Int) - 1)) resp_buf 2 251 s (by norm_num)
      have hrd : (packet_file g.rec_io_table).read = packet_file_read g.rec_io_table := rfl
      rw [hrd] at h
      generalize packet_file_read g.rec_io_table (req_buf 1 : Int) (buf_shift req_buf 2)
        (size_t ((req_buf 0 : Int) - 1)) resp_buf 2 251 s = r at h hb
      split at h
      · cases h; simp [make_exception_len]
      · split at h
        · cases h; simp [make_exception_len]
        · cases h
          dsimp only
          omega

theorem write_file_handler_len {σ : Type} (g : globals σ) (fuel func : Nat) (req_buf : buf_t)
    (req_len : Nat) (resp_buf : buf_t) (s : σ) (res : Int × buf_t × σ)
    (h : write_file_handler g fuel func req_buf req_len resp_buf 253 s = some res) :
    2 ≤ res.1 ∧ res.1 ≤ 253 := by
  unfold write_file_handler at h
  split at h
  · cases h; simp [make_exception_len]
  · dsimp only at h
    split at h
    · cases h; simp [make_exception_len]
    · rename_i ft hft
      have hpf := filetype_get_packet_file _ _ _ hft
      subst hpf
      have hb := packet_file_write_len g.rec_io_table (req_buf 1 : Int) (buf_shift req_buf 2)
        (size_t ((req_buf 0 : Int) - 1)) resp_buf 2 (size_t (((253 : Nat) : Int) - 2)) s
      have hrd : (packet_file g.rec_io_table).write = packet_file_write g.rec_io_table := rfl
      rw [hrd] at h
      generalize packet_file_write g.rec_io_table (req_buf 1 : Int) (buf_shift req_buf 2)
        (size_t ((req_buf 0 : Int) - 1)) resp_buf 2 (size_t (((253 : Nat) : Int) - 2)) s = r
        at h hb
      split at h
      · cases h; simp [make_exception_len]
      · split at h
        · cases h; simp [make_exception_len]
        · cases h
          dsimp only
          omega

/-- C32: response length bound.  Whatever the globals (register table, store
callbacks, record I/O backends), the fuel, the request, the contents of the
response buffer and the host state: when `yam_app_input` is called with
`buf_sz = MODBUS_PDU_LEN_MAX` (253) and returns a length `n` that is not
negative, then `2 ≤ n ≤ 253`, and `n + 3` is at most
`MODBUS_SERIAL_APDU_LEN_MAX` (256), the size of `out_frame`.  The request
length of at least 1 is the condition under which the C code may read
`payload[0]`; the bound does not depend on it. -/
theorem C32_response_length_bound {σ : Type} (g : globals σ) (fuel slave : Nat)
    (req : mb_pbuf_t) (resp_buf : buf_t) (s : σ) (n : Int) (buf : buf_t) (s1 : σ)
    (_hlen : 1 ≤ req.len)
    (hrun : yam_app_input g fuel slave req resp_buf MODBUS_PDU_LEN_MAX s = some (n, buf, s1))
    (hn : 0 ≤ n) :
    2 ≤ n ∧ n ≤ MODBUS_PDU_LEN_MAX ∧ n + 3 ≤ MODBUS_SERIAL_APDU_LEN_MAX := by
  have h253 : MODBUS_PDU_LEN_MAX = 253 := rfl
  have h256 : MODBUS_SERIAL_APDU_LEN_MAX = 256 := rfl
  rw [h253] at hrun
  rw [h253, h256]
  have key : 2 ≤ n ∧ n ≤ 253 := by
    unfold yam_app_input at hrun
    dsimp only at hrun
    split at hrun
    · cases hrun
      exact absurd hn (by decide)
    · rename_i h hfind
      have hmem := List.mem_of_find?_eq_some hfind
      simp only [func_handlers, List.mem_cons, List.mem_singleton, List.not_mem_nil,
        or_false] at hmem
      rcases hmem with rfl | rfl | rfl | rfl | rfl | rfl | rfl
      · exact read_coils_handler_len g fuel _ _ _ _ _ _ hrun
      · exact read_coils_handler_len g fuel _ _ _ _ _ _ hrun
      · exact read_holding_regs_handler_len g fuel _ _ _ _ _ _ hrun
      · exact write_regs_handler_len g fuel _ _ _ _ _ _ hrun
      · exact write_regs_handlers_len g fuel _ _ _ _ _ _ hrun
      · exact read_file_handler_len g fuel _ _ _ _ _ _ hrun
      · exact write_file_handler_len g fuel _ _ _ _ _ _ hrun
  push_cast
  omega

/-- Witness of C32: the request `03 00 00 00 02` over two registers returns
the length 6. -/
theorem C32_response_length_bound_witness :
    run_pdu (rec_globals [plain_reg _ 40001 1 _integer 0 REG_PERM_RW,
        plain_reg _ 40002 1 _integer 0 REG_PERM_RW] (fun _ => 0x1234)) 2 [3, 0, 0, 0, 2] 6 []
      = some (6, [3, 4, 0x12, 0x34, 0x12, 0x34], [cb_call.load 40001, cb_call.load 40002])
    ∧ (2 : Int) ≤ 6 ∧ (6 : Int) ≤ MODBUS_PDU_LEN_MAX
    ∧ (6 : Int) + 3 ≤ MODBUS_SERIAL_APDU_LEN_MAX :=
  ⟨by decide!, C32_response_length_bound
    (rec_globals [plain_reg _ 40001 1 _integer 0 REG_PERM_RW,
      plain_reg _ 40002 1 _integer 0 REG_PERM_RW] (fun _ => 0x1234)) 2 1
    { payload := buf_of [3, 0, 0, 0, 2] (fun _ => 0), len := 5 } (fun _ => 0) [] 6
    ((yam_app_input (rec_globals [plain_reg _ 40001 1 _integer 0 REG_PERM_RW,
      plain_reg _ 40002 1 _integer 0 REG_PERM_RW] (fun _ => 0x1234)) 2 1
      { payload := buf_of [3, 0, 0, 0, 2] (fun _ => 0), len := 5 } (fun _ => 0)
      MODBUS_PDU_LEN_MAX []).getD (0, fun _ => 0, [])).2.1
    [cb_call.load 40001, cb_call.load 40002] (by decide) (by rfl) (by decide)⟩

/-! ## The file-record service: the declared length of a write -/

/-- C33, what the code does: the declared length of a Write File request is
not checked against 6 nor against the bytes received.  With a succeeding
backend registered for type 16:
(1) the 5-byte PDU `15 03 10 00 01` declares 2 payload bytes;
`packet_file_write` computes `rec.len = 2 - 6` in `size_t`, the backend is
called with `len = 4294967292`, and the response is the normal one of length
8, `15 06 ..`;
(2) the 9-byte PDU `15 0A 10 00 01 FF FF 07 00` declares 9 payload bytes where
6 were received: the backend is called with `len = 3` and a content taken
from behind the request (`EE EE EE` here), and the response is again the
normal one. -/
theorem C33_write_file_length_unchecked :
    (yam_app_input (rec_globals_io (rec_io_ok { content := [], len := 0, remaining_recs_num := 0 }))
        1 1 { payload := buf_of [0x15, 3, 0x10, 0, 1] (fun _ => 0), len := 5 }
        (fun _ => 0) MODBUS_PDU_LEN_MAX []).map
        (fun r => (r.1, buf_take r.2.1 2, r.2.2.map (fun c =>
          match c with
          | cb_call.rec_write _ _ _ _ rc => rc.len
          | _ => 0)))
      = some (8, [0x15, 6], [4294967292])
    ∧ (yam_app_input (rec_globals_io (rec_io_ok { content := [], len := 0, remaining_recs_num := 0 }))
        1 1 { payload := buf_of [0x15, 10, 0x10, 0, 1, 0xFF, 0xFF, 7, 0] (fun _ => 0xEE), len := 9 }
        (fun _ => 0) MODBUS_PDU_LEN_MAX []).map
        (fun r => (r.1, buf_take r.2.1 2, r.2.2))
      = some (8, [0x15, 6], [cb_call.rec_write 16 1 7 1
          { content := [0xEE, 0xEE, 0xEE], len := 3, remaining_recs_num := 0 }]) := by
  decide!

end Yam
